import Mathlib

/-!
# union-csi: the volume splitter and the attacher of pkg/union

A shallow embedding of `pkg/union/splitter.go`, `pkg/union/attacher.go`,
`pkg/union/errors.go` and the API types of `pkg/k8s/apis/union/v1alpha1/types.go`,
followed by the properties of the split planner and of the attach observation loop.

Conventions of the embedding

* A Go `(value, error)` result is a pair whose error component is an `Option GoError`
  (`none` is the nil error); a pointer that may be nil is an `Option`.
* The cluster is an explicit environment: the VolumeSplit client is a record of state
  passing functions, the pod lister and the pod client are oracles that hand back what
  a call observes.
* Error values keep their wrapping structure, so that `errors.Is` and the predicates of
  `k8s.io/apimachinery/pkg/api/errors` are functions on them.
-/

namespace UnionCSI

/-! ## Error values -/

/-- The package level error variables of `pkg/union/errors.go`. -/
inductive UnionErr where
  | ErrIdempotencyIncompatible
  | ErrVolumeNotFound
  | ErrNodeNotFound
  | ErrAttachmentNotFound
  | ErrVolumeInUse
  deriving DecidableEq, Repr

/-- The classification of an API status error by `apierrors.IsNotFound` and
`apierrors.IsAlreadyExists`: the two reasons the package tests for, and every other
status. -/
inductive StatusKind where
  | NotFound
  | AlreadyExists
  | Other
  deriving DecidableEq, Repr

/-- The two values of `ctx.Err()` for a context that is done. -/
inductive CtxErr where
  | Canceled
  | DeadlineExceeded
  deriving DecidableEq, Repr

/-- Go error values as the package builds and inspects them.

* `sentinel e`: one of the variables of `errors.go`;
* `status k msg`: a `*apierrors.StatusError` returned by a client or a lister;
* `external msg`: any other error of a client (a transport failure);
* `contextErr e`: the value of `ctx.Err()` once the context is done;
* `ErrWaitTimeout`: `wait.ErrWaitTimeout`;
* `errorf format args`: `fmt.Errorf` with string operands only;
* `errorfV format args cause`: `fmt.Errorf` whose error operand is under `%v`, hence not
  wrapped;
* `errorfWW a b`: `fmt.Errorf("%w: %w", a, b)`, wrapping both operands (each is reached
  by `errors.Is` and `errors.As`, as from Go 1.20 on);
* `errorfWV a b`: `fmt.Errorf("%w: %v", a, b)`, wrapping the first operand only. -/
inductive GoError where
  | sentinel (e : UnionErr)
  | status (kind : StatusKind) (message : String)
  | external (message : String)
  | contextErr (e : CtxErr)
  | ErrWaitTimeout
  | errorf (format : String) (args : List String)
  | errorfV (format : String) (args : List String) (cause : GoError)
  | errorfWW (first second : GoError)
  | errorfWV (first second : GoError)
  deriving DecidableEq, Repr

/-- The function `errors.Is(err, target)` for a target that is one of the package level
variables: the error tree is searched through every wrapped operand. -/
def errorsIs : GoError → UnionErr → Bool
  | .sentinel e, target => decide (e = target)
  | .errorfWW a b, target => errorsIs a target || errorsIs b target
  | .errorfWV a _, target => errorsIs a target
  | _, _ => false

/-- The status found by `errors.As(err, &status)`, which `apierrors.ReasonForError`
uses: the first status error in the tree of wrapped operands. -/
def statusOf : GoError → Option StatusKind
  | .status k _ => some k
  | .errorfWW a b =>
    match statusOf a with
    | some k => some k
    | none => statusOf b
  | .errorfWV a _ => statusOf a
  | _ => none

/-- The predicate `apierrors.IsNotFound`. -/
def IsNotFound (err : GoError) : Bool :=
  statusOf err == some StatusKind.NotFound

/-- The predicate `apierrors.IsAlreadyExists`. -/
def IsAlreadyExists (err : GoError) : Bool :=
  statusOf err == some StatusKind.AlreadyExists

/-! ## Quantities and the VolumeSplit API type -/

/-- The type `resource.Format`; `unset` is the zero value. -/
inductive Format where
  | unset
  | DecimalExponent
  | BinarySI
  | DecimalSI
  deriving DecidableEq, Repr

/-- A `resource.Quantity` holding a whole number of units, which is what
`resource.NewQuantity` builds from an `int64` (`getQuantity` in `utils.go` and
`splitQuantitySuperDuperDummy` are the only producers in the package). -/
structure Quantity where
  Value : Int
  Format : Format
  deriving DecidableEq, Repr

/-- The zero value of `resource.Quantity`, read from a map that has no entry. -/
def Quantity.zero : Quantity := ⟨0, Format.unset⟩

/-- The constructor `resource.NewQuantity(value, format)`. -/
def NewQuantity (value : Int) (format : Format) : Quantity := ⟨value, format⟩

/-- The method `Quantity.Cmp`: -1, 0 or 1. -/
def Quantity.Cmp (q y : Quantity) : Int :=
  if q.Value < y.Value then -1 else if q.Value = y.Value then 0 else 1

/-- The name `v1.ResourceStorage`. -/
def ResourceStorage : String := "storage"

/-- The type `v1.ResourceList`, a map from resource names to quantities. -/
abbrev ResourceList := List (String × Quantity)

/-- Indexing a `v1.ResourceList`: a missing key reads as the zero quantity. -/
def ResourceList.index (rl : ResourceList) (name : String) : Quantity :=
  (rl.lookup name).getD Quantity.zero

/-- The type `v1.ResourceRequirements`. -/
structure ResourceRequirements where
  Limits : ResourceList
  Requests : ResourceList
  deriving DecidableEq, Repr

/-- The type `v1.PersistentVolumeAccessMode`, a string type. -/
abbrev PersistentVolumeAccessMode := String

/-- The type `v1alpha1.PersistentVolumeClaimSplit`. -/
structure PersistentVolumeClaimSplit where
  ClaimName : String
  Resources : ResourceRequirements
  deriving DecidableEq, Repr

/-- The type `v1alpha1.VolumeSplitSpec`. -/
structure VolumeSplitSpec where
  VolumeName : String
  CapacityTotal : ResourceList
  AccessModes : List PersistentVolumeAccessMode
  Namespace : String
  StorageClassName : Option String
  Splits : List PersistentVolumeClaimSplit
  deriving DecidableEq, Repr

/-- The zero value of `v1alpha1.VolumeSplitSpec`. -/
def VolumeSplitSpec.zero : VolumeSplitSpec := ⟨"", [], [], "", none, []⟩

/-- The type `v1alpha1.VolumeSplit`: the object name of its metadata and the spec. -/
structure VolumeSplit where
  Name : String
  Spec : VolumeSplitSpec
  deriving DecidableEq, Repr

/-- The zero value `&v1alpha1.VolumeSplit{}`. -/
def VolumeSplit.zero : VolumeSplit := ⟨"", VolumeSplitSpec.zero⟩

/-! ## splitter.go: compatibility and the capacity split -/

/-- The closure `isAccessModesCompatible` of `isSplitSpecCompatible`: the old modes are
entered in a `map[mode]bool`, and every new mode must read `true` from it. -/
def isAccessModesCompatible (oldModes newModes : List PersistentVolumeAccessMode) : Bool :=
  let m : List (PersistentVolumeAccessMode × Bool) :=
    oldModes.foldl (fun m mode => (mode, true) :: m) []
  newModes.all (fun mode => (m.lookup mode).getD false)

/-- The function `isSplitSpecCompatible(oldSpec, newSpec)`; `none` is the nil pointer. -/
def isSplitSpecCompatible (oldSpec newSpec : Option VolumeSplitSpec) : Bool :=
  match oldSpec, newSpec with
  | some oldSpec, some newSpec =>
    if oldSpec.Namespace ≠ newSpec.Namespace then false
    else
      let classOk : Bool :=
        match oldSpec.StorageClassName, newSpec.StorageClassName with
        | none, none => true
        | some o, some n => if o ≠ n then false else true
        | _, _ => false
      if !classOk then false
      else
        let newSize := newSpec.CapacityTotal.index ResourceStorage
        let oldSize := oldSpec.CapacityTotal.index ResourceStorage
        if newSize.Cmp oldSize > 0 then false
        else isAccessModesCompatible oldSpec.AccessModes newSpec.AccessModes
  | _, _ => false

/-- The method `splitter.splitQuantitySuperDuperDummy`: Go integer division truncates
toward zero. The receiver is not used by the body. -/
def splitQuantitySuperDuperDummy (q : Quantity) : List Quantity :=
  let v := Int.tdiv q.Value 2
  let f := q.Format
  [NewQuantity v f, NewQuantity v f]

/-! ## The VolumeSplit client and the splitter -/

/-- The interface `VolumeSplitInterface` of the typed client
(`pkg/k8s/client/clientset/typed/union/v1alpha1/volumesplit.go`), as state passing
functions over a store state `σ`. `Get` and `Create` of the typed client allocate their
result before the request is sent, so the returned pointer is never nil: on failure it
is the zero object. -/
structure VolumeSplitInterface (σ : Type) where
  Create : σ → VolumeSplit → (VolumeSplit × Option GoError) × σ
  Delete : σ → String → Option GoError × σ
  Get : σ → String → (VolumeSplit × Option GoError) × σ

/-- The struct `splitter`. -/
structure splitter (σ : Type) where
  unionClient : VolumeSplitInterface σ
  claimNamePrefix : String

/-- The method `splitter.makeSplitName`. -/
def splitter.makeSplitName {σ : Type} (_s : splitter σ) (volumeId : String) : String :=
  volumeId ++ "-split"

/-- The method `splitter.makeClaimName`; `%d` prints the index in decimal. -/
def splitter.makeClaimName {σ : Type} (s : splitter σ) (name : String) (index : Nat) : String :=
  if s.claimNamePrefix ≠ "" then
    s.claimNamePrefix ++ "-" ++ name ++ "-lower" ++ toString index
  else
    name ++ "-lower" ++ toString index

/-- The method `splitter.GetSplit`: the deferred function rewrites a not-found error. -/
def splitter.GetSplit {σ : Type} (s : splitter σ) (volumeId : String) (st : σ) :
    (VolumeSplit × Option GoError) × σ :=
  let splitName := s.makeSplitName volumeId
  let r := s.unionClient.Get st splitName
  let split := r.1.1
  let err : Option GoError :=
    match r.1.2 with
    | some e =>
      if IsNotFound e then some (GoError.errorfWW (GoError.sentinel UnionErr.ErrVolumeNotFound) e)
      else some e
    | none => none
  ((split, err), r.2)

/-- The method `splitter.DeleteSplit`: the deferred function rewrites a not-found
error (the log lines have no effect on the result). -/
def splitter.DeleteSplit {σ : Type} (s : splitter σ) (volumeId : String) (st : σ) :
    Option GoError × σ :=
  let splitName := s.makeSplitName volumeId
  let r := s.unionClient.Delete st splitName
  let err : Option GoError :=
    match r.1 with
    | none => none
    | some e =>
      if IsNotFound e then some (GoError.errorfWW (GoError.sentinel UnionErr.ErrVolumeNotFound) e)
      else some e
  (err, r.2)

/-- The method `splitter.doCreateSplit`: the spec is copied into a new object named
`splitName`, one claim entry per share is appended to its `Splits`, and the object is
sent to `Create`, whose returned object is dropped. -/
def splitter.doCreateSplit {σ : Type} (s : splitter σ) (_volumeId splitName : String)
    (splitSpec : VolumeSplitSpec) (st : σ) : (VolumeSplit × Option GoError) × σ :=
  let split0 : VolumeSplit := ⟨splitName, splitSpec⟩
  let capacityQty := split0.Spec.CapacityTotal.index ResourceStorage
  let split : VolumeSplit :=
    (splitQuantitySuperDuperDummy capacityQty).enum.foldl
      (fun split ic =>
        let claimName := s.makeClaimName split.Spec.VolumeName ic.1
        let claimSplit : PersistentVolumeClaimSplit :=
          ⟨claimName, ⟨[], [(ResourceStorage, ic.2)]⟩⟩
        { split with Spec := { split.Spec with Splits := split.Spec.Splits ++ [claimSplit] } })
      split0
  let r := s.unionClient.Create st split
  ((split, r.1.2), r.2)

/-- The method `splitter.CreateSplit`. The spec pointer is taken non-nil, as at its call
site in `CreateLower`. The result is the returned pointer (`none` is nil), the returned
error, and the store state. -/
def splitter.CreateSplit {σ : Type} (s : splitter σ) (volumeId : String)
    (splitSpec : VolumeSplitSpec) (st : σ) : (Option VolumeSplit × Option GoError) × σ :=
  let finish : VolumeSplit → σ → (Option VolumeSplit × Option GoError) × σ :=
    fun split st =>
      if !isSplitSpecCompatible (some split.Spec) (some splitSpec) then
        ((none, some (GoError.sentinel UnionErr.ErrIdempotencyIncompatible)), st)
      else ((some split, none), st)
  let splitName := s.makeSplitName volumeId
  let g := s.GetSplit splitName st
  let notFound : Bool :=
    match g.1.2 with
    | some e => IsNotFound e
    | none => false
  if notFound then
    let c := s.doCreateSplit volumeId splitName splitSpec g.2
    match c.1.2 with
    | none => ((some c.1.1, none), c.2)
    | some e =>
      if !IsAlreadyExists e then ((none, some e), c.2)
      else
        let g2 := s.GetSplit splitName c.2
        match g2.1.2 with
        | some e2 => ((none, some e2), g2.2)
        | none => finish g2.1.1 g2.2
  else finish g.1.1 g.2

/-! ## The keyed store behind the client -/

/-- The objects of a keyed store, looked up by name. -/
abbrev KeyedStore := List VolumeSplit

/-- The object stored under a name, if any. -/
def KeyedStore.find (st : KeyedStore) (name : String) : Option VolumeSplit :=
  List.find? (fun o => o.Name == name) st

/-- The cluster store behind the client as a create/get/delete keyed store: `Get` and
`Delete` of a missing name report a not-found status, `Create` of a present name
reports an already-exists status, and every other call succeeds. The message of a
status is the name it is about. -/
def keyedClient : VolumeSplitInterface KeyedStore where
  Create := fun st obj =>
    match st.find obj.Name with
    | some _ => ((VolumeSplit.zero, some (GoError.status StatusKind.AlreadyExists obj.Name)), st)
    | none => ((obj, none), st ++ [obj])
  Delete := fun st name =>
    match st.find name with
    | some _ => (none, List.filter (fun o => o.Name != name) st)
    | none => (some (GoError.status StatusKind.NotFound name), st)
  Get := fun st name =>
    match st.find name with
    | some o => ((o, none), st)
    | none => ((VolumeSplit.zero, some (GoError.status StatusKind.NotFound name)), st)

/-- A splitter over the keyed store, as `NewSplitter` builds it with the option
`WithClaimNamePrefix(p)` (the empty string when no option is given). -/
def NewSplitter (p : String) : splitter KeyedStore := ⟨keyedClient, p⟩

/-! ## Paths: `filepath.Join` -/

/-- The elements of a path between its separators. -/
def splitSlash : List Char → List (List Char)
  | [] => [[]]
  | c :: cs =>
    match splitSlash cs with
    | [] => [[]]
    | x :: xs => if c = '/' then [] :: x :: xs else (c :: x) :: xs

/-- One element of the scan of `filepath.Clean`, on the stack of elements kept so far
(last kept element first): empty and `.` elements are dropped, a `..` element removes
the last kept element when there is one to remove, is dropped at the root, and is kept
in a relative path that cannot backtrack. -/
def cleanStep (rooted : Bool) (stack : List (List Char)) (comp : List Char) :
    List (List Char) :=
  if comp = [] ∨ comp = ['.'] then stack
  else if comp = ['.', '.'] then
    match stack with
    | top :: rest =>
      if top = ['.', '.'] then (if rooted then stack else comp :: stack) else rest
    | [] => if rooted then stack else [comp]
  else comp :: stack

/-- The function `filepath.Clean` on a Unix path. -/
def filepathClean (path : String) : String :=
  if path = "" then "."
  else
    let cs := path.toList
    let rooted : Bool := cs.head? == some '/'
    let stack := (splitSlash cs).foldl (cleanStep rooted) []
    let body := List.intercalate ['/'] stack.reverse
    let out := (if rooted then ['/'] else []) ++ body
    if out = [] then "." else String.mk out

/-- The function `filepath.Join`: leading empty elements are skipped, the rest is
joined with the separator and cleaned; no non-empty element gives the empty string. -/
def filepathJoin (elem : List String) : String :=
  match elem.dropWhile (fun e => e == "") with
  | [] => ""
  | es => filepathClean (String.intercalate "/" es)

/-! ## attacher.go -/

/-- The type `v1.PodPhase`, a string type, and its constants. -/
abbrev PodPhase := String

/-- The constant `v1.PodPending`. -/
def PodPending : PodPhase := "Pending"

/-- The constant `v1.PodRunning`. -/
def PodRunning : PodPhase := "Running"

/-- The constant `v1.PodSucceeded`. -/
def PodSucceeded : PodPhase := "Succeeded"

/-- The constant `v1.PodFailed`. -/
def PodFailed : PodPhase := "Failed"

/-- The fields of `v1.PodSpec` the attacher reads or writes. -/
structure PodSpec where
  NodeName : String
  NodeSelector : List (String × String)
  deriving DecidableEq, Repr

/-- The field of `v1.PodStatus` the attacher reads. -/
structure PodStatus where
  Phase : PodPhase
  deriving DecidableEq, Repr

/-- The fields of `v1.Pod` the attacher reads or writes; `DeletionTimestamp` records
whether the pointer is set. -/
structure Pod where
  Name : String
  Namespace : String
  DeletionTimestamp : Option Nat
  Spec : PodSpec
  Status : PodStatus
  deriving DecidableEq, Repr

/-- The struct `Volume` of `types.go`. -/
structure Volume where
  VolumeId : String
  CapacityBytes : Int
  AccessModes : List PersistentVolumeAccessMode
  Namespace : String
  ClaimNames : List String
  StorageClassName : Option String
  deriving DecidableEq, Repr

/-- The struct `VolumeAttachment` of `types.go`. -/
structure VolumeAttachment where
  VolumeId : String
  NodeId : String
  HostPath : String
  deriving DecidableEq, Repr

/-- The function `makeAttachPodName`, over the hexadecimal SHA-256 digest taken as a
parameter. -/
def makeAttachPodName (sha256Hex : String → String) (volumeId : String) : String :=
  "attach-pod-" ++ sha256Hex volumeId

/-- The function `makeHostPath`. -/
def makeHostPath (volumeId : String) : String :=
  filepathJoin ["/var/lib/union-csi-driver.union.io/volumes", volumeId, "merged"]

/-- The function `isPodTerminating`. -/
def isPodTerminating (pod : Pod) : Bool :=
  pod.Status.Phase == PodFailed || pod.Status.Phase == PodSucceeded

/-- The function `isPodRunning`. -/
def isPodRunning (pod : Pod) : Bool :=
  decide (pod.Spec.NodeName.length > 0) && pod.Status.Phase == PodRunning

/-- The result of a Go call that may dereference a nil pointer. -/
inductive Outcome (α : Type) where
  | returned (a : α)
  | nilDereference
  deriving DecidableEq, Repr

/-- The struct `wait.Backoff` as the attacher sets it: the duration in nanoseconds, the
factor and the number of steps (`Jitter` and `Cap` stay zero). -/
structure Backoff where
  Duration : Nat
  Factor : Rat
  Steps : Nat

/-- What one iteration of `wait.ExponentialBackoffWithContext` meets: whether the
context is done when the iteration starts, what the condition observes, and whether the
context is done before the timer fires in the wait that follows the condition. -/
structure PollStep (ι : Type) where
  doneBefore : Option CtxErr
  observed : ι
  doneDuringWait : Option CtxErr

/-- The loop of `wait.ExponentialBackoffWithContext` with `steps` steps left, at
iteration `i`: the context is checked, the condition runs on the captured variables `s`,
a condition that is done or fails ends the loop with its error, the last step ends it
with `wait.ErrWaitTimeout`, and otherwise the loop waits, watching the context. The
result is the captured variables, the error, and the number of times the condition
ran. -/
def backoffLoop {σ ι : Type} (condition : ι → σ → σ × Bool × Option GoError)
    (env : Nat → PollStep ι) : Nat → Nat → σ → (σ × Option GoError) × Nat
  | 0, _, s => ((s, some GoError.ErrWaitTimeout), 0)
  | steps + 1, i, s =>
    match (env i).doneBefore with
    | some c => ((s, some (GoError.contextErr c)), 0)
    | none =>
      let r := condition (env i).observed s
      if r.2.2.isSome || r.2.1 then ((r.1, r.2.2), 1)
      else if steps + 1 = 1 then ((r.1, some GoError.ErrWaitTimeout), 1)
      else
        match (env i).doneDuringWait with
        | some c => ((r.1, some (GoError.contextErr c)), 1)
        | none =>
          let rest := backoffLoop condition env steps (i + 1) r.1
          (rest.1, rest.2 + 1)

/-- The function `wait.ExponentialBackoffWithContext(ctx, backoff, condition)`. -/
def ExponentialBackoffWithContext {σ ι : Type} (backoff : Backoff)
    (condition : ι → σ → σ × Bool × Option GoError) (env : Nat → PollStep ι) (s : σ) :
    (σ × Option GoError) × Nat :=
  backoffLoop condition env backoff.Steps 0 s

/-- The struct `attacher`: the pod factory (`pod.Factory.Create`, with the arguments
pod name, namespace, claim names, host path, volume id) and the digest used for the pod
name. The pod lister and the pod client are the environment of a call. -/
structure attacher where
  podFactory : String → String → List String → String → String → Pod
  sha256Hex : String → String

/-- The environment of one call of `Attach`: the answer of the pod lister on entry, the
answer of the pod client to a create, and what each iteration of the wait meets. -/
structure AttachEnv where
  listerGet : Except GoError Pod
  create : Pod → Option GoError
  polls : Nat → PollStep (Except GoError Pod)

/-- A run of `Attach`: its outcome, the pods it sent to the pod client for creation, and
the number of times the wait polled the lister. -/
structure AttachRun where
  outcome : Outcome (Option VolumeAttachment × Option GoError)
  created : List Pod
  polls : Nat
  deriving DecidableEq, Repr

/-- The closure `waitForAttachFunc` of `waitForAttach`: it assigns the captured variable
`pod` and returns `(done, err)`. -/
def waitForAttachFunc (volumeId expectedNodeId podKey : String)
    (observed : Except GoError Pod) (_pod : Option Pod) : Option Pod × Bool × Option GoError :=
  match observed with
  | .error err =>
    if !IsNotFound err then
      (none, false, some (GoError.errorfV "error getting pod %q: %v" [podKey] err))
    else (none, false, none)
  | .ok pod =>
    if isPodTerminating pod then
      (some pod, false,
        some (GoError.errorf "attach pod %q for volume %q is terminating" [podKey, volumeId]))
    else if !isPodRunning pod then (some pod, false, none)
    else if pod.Spec.NodeName ≠ expectedNodeId then
      (some pod, true, some (GoError.sentinel UnionErr.ErrVolumeInUse))
    else (some pod, true, none)

/-- The method `attacher.waitForAttach`, with the number of polls of the wait. -/
def attacher.waitForAttach (_a : attacher) (polls : Nat → PollStep (Except GoError Pod))
    (volumeId expectedNodeId podName podNamespace : String) :
    Outcome (Option VolumeAttachment × Option GoError) × Nat :=
  let podKey := podNamespace ++ "/" ++ podName
  let backoff : Backoff := ⟨1000000000, 3 / 2, 12⟩
  let w := ExponentialBackoffWithContext backoff
    (waitForAttachFunc volumeId expectedNodeId podKey) polls none
  let pod := w.1.1
  let waitErr := w.1.2
  let hard : Bool :=
    match waitErr with
    | some e => !errorsIs e UnionErr.ErrVolumeInUse
    | none => false
  if hard then (Outcome.returned (none, waitErr), w.2)
  else
    match pod with
    | none => (Outcome.nilDereference, w.2)
    | some pod => (Outcome.returned (some ⟨volumeId, pod.Spec.NodeName, ""⟩, waitErr), w.2)

/-- The tail of `attacher.Attach`, shared by its branches: wait for the attachment and
record the host path in the attachment that comes back. `created` is the list of pods
sent for creation before the wait. -/
def attacher.attachWait (a : attacher) (env : AttachEnv) (volume : Volume) (nodeId : String)
    (created : List Pod) : AttachRun :=
  let podName := makeAttachPodName a.sha256Hex volume.VolumeId
  let hostPath := makeHostPath volume.VolumeId
  let w := a.waitForAttach env.polls volume.VolumeId nodeId podName volume.Namespace
  match w.1 with
  | Outcome.nilDereference => ⟨Outcome.nilDereference, created, w.2⟩
  | Outcome.returned (some attachment, err) =>
    ⟨Outcome.returned (some { attachment with HostPath := hostPath }, err), created, w.2⟩
  | Outcome.returned (none, err) => ⟨Outcome.returned (none, err), created, w.2⟩

/-- The method `attacher.Attach`. -/
def attacher.Attach (a : attacher) (env : AttachEnv) (volume : Volume) (nodeId : String) :
    AttachRun :=
  let podName := makeAttachPodName a.sha256Hex volume.VolumeId
  let podKey := volume.Namespace ++ "/" ++ podName
  let hostPath := makeHostPath volume.VolumeId
  match env.listerGet with
  | .error err =>
    if !IsNotFound err then
      ⟨Outcome.returned (none, some (GoError.errorfV "error getting pod %q: %v" [podKey] err)),
        [], 0⟩
    else
      let pod0 := a.podFactory podName volume.Namespace volume.ClaimNames hostPath volume.VolumeId
      let pod : Pod :=
        { pod0 with
          Spec := { pod0.Spec with NodeSelector := [("kubernetes.io/hostname", nodeId)] } }
      match env.create pod with
      | none => a.attachWait env volume nodeId [pod]
      | some err =>
        if IsAlreadyExists err then a.attachWait env volume nodeId [pod]
        else
          ⟨Outcome.returned
              (none, some (GoError.errorfV "error creating pod %q: %v" [podKey] err)),
            [pod], 0⟩
  | .ok _ => a.attachWait env volume nodeId []

/-! ## attacher.go: detach -/

/-- The environment of one call of `Detach`: the answer of the pod lister on entry, the
answer of the pod client to a delete, and what each iteration of the wait meets. -/
structure DetachEnv where
  listerGet : Except GoError Pod
  delete : Option GoError
  polls : Nat → PollStep (Except GoError Pod)

/-- A run of `Detach`: the returned error, the names of the pods whose deletion it
requested from the pod client, and the number of times the wait polled the lister. -/
structure DetachRun where
  err : Option GoError
  deleted : List String
  polls : Nat
  deriving DecidableEq, Repr

/-- The closure `waitForDetachFunc` of `waitForDetach`; it captures no variable that it
assigns. -/
def waitForDetachFunc (_volumeId expectedNodeId podKey : String)
    (observed : Except GoError Pod) (_s : Unit) : Unit × Bool × Option GoError :=
  match observed with
  | .error err =>
    if !IsNotFound err then
      ((), false, some (GoError.errorfV "error getting pod %q: %v" [podKey] err))
    else ((), true, none)
  | .ok pod =>
    if pod.Spec.NodeName ≠ expectedNodeId then
      ((), false, some (GoError.sentinel UnionErr.ErrAttachmentNotFound))
    else ((), false, none)

/-- The method `attacher.waitForDetach`, with the number of polls of the wait. -/
def attacher.waitForDetach (_a : attacher) (polls : Nat → PollStep (Except GoError Pod))
    (volumeId expectedNodeId podName podNamespace : String) : Option GoError × Nat :=
  let podKey := podNamespace ++ "/" ++ podName
  let backoff : Backoff := ⟨1000000000, 2, 12⟩
  let w := ExponentialBackoffWithContext backoff
    (waitForDetachFunc volumeId expectedNodeId podKey) polls ()
  (w.1.2, w.2)

/-- The method `attacher.Detach`. -/
def attacher.Detach (a : attacher) (env : DetachEnv) (volume : Volume) (nodeId : String) :
    DetachRun :=
  let podName := makeAttachPodName a.sha256Hex volume.VolumeId
  let podKey := volume.Namespace ++ "/" ++ podName
  match env.listerGet with
  | .error err =>
    if IsNotFound err then
      ⟨some (GoError.errorfWW (GoError.sentinel UnionErr.ErrAttachmentNotFound) err), [], 0⟩
    else ⟨some (GoError.errorfV "error getting pod %q: %v" [podKey] err), [], 0⟩
  | .ok pod =>
    if pod.Spec.NodeName.length = 0 then
      ⟨some (GoError.sentinel UnionErr.ErrAttachmentNotFound), [], 0⟩
    else if pod.Spec.NodeName ≠ nodeId then
      ⟨some (GoError.sentinel UnionErr.ErrAttachmentNotFound), [], 0⟩
    else
      let wait : List String → DetachRun := fun deleted =>
        let w := a.waitForDetach env.polls volume.VolumeId nodeId podName volume.Namespace
        ⟨w.1, deleted, w.2⟩
      if pod.DeletionTimestamp.isNone then
        match env.delete with
        | none => wait [podName]
        | some err =>
          if IsNotFound err then
            ⟨some (GoError.errorfWW (GoError.sentinel UnionErr.ErrAttachmentNotFound) err),
              [podName], 0⟩
          else ⟨some (GoError.errorfV "error deleting pod %q: %v" [podKey] err), [podName], 0⟩
      else wait []

/-! ## utils.go: access modes -/

/-- The type `csi.VolumeCapability_AccessMode_Mode`, an `int32` enumeration. -/
abbrev VolumeCapability_AccessMode_Mode := Int

/-- The constant `csi.VolumeCapability_AccessMode_UNKNOWN`. -/
def VolumeCapability_AccessMode_UNKNOWN : VolumeCapability_AccessMode_Mode := 0

/-- The constant `csi.VolumeCapability_AccessMode_SINGLE_NODE_WRITER`. -/
def VolumeCapability_AccessMode_SINGLE_NODE_WRITER : VolumeCapability_AccessMode_Mode := 1

/-- The constant `csi.VolumeCapability_AccessMode_SINGLE_NODE_READER_ONLY`. -/
def VolumeCapability_AccessMode_SINGLE_NODE_READER_ONLY : VolumeCapability_AccessMode_Mode := 2

/-- The constant `csi.VolumeCapability_AccessMode_MULTI_NODE_READER_ONLY`. -/
def VolumeCapability_AccessMode_MULTI_NODE_READER_ONLY : VolumeCapability_AccessMode_Mode := 3

/-- The constant `csi.VolumeCapability_AccessMode_MULTI_NODE_SINGLE_WRITER`. -/
def VolumeCapability_AccessMode_MULTI_NODE_SINGLE_WRITER : VolumeCapability_AccessMode_Mode := 4

/-- The constant `csi.VolumeCapability_AccessMode_MULTI_NODE_MULTI_WRITER`. -/
def VolumeCapability_AccessMode_MULTI_NODE_MULTI_WRITER : VolumeCapability_AccessMode_Mode := 5

/-- The constant `csi.VolumeCapability_AccessMode_SINGLE_NODE_SINGLE_WRITER`. -/
def VolumeCapability_AccessMode_SINGLE_NODE_SINGLE_WRITER : VolumeCapability_AccessMode_Mode := 6

/-- The constant `csi.VolumeCapability_AccessMode_SINGLE_NODE_MULTI_WRITER`. -/
def VolumeCapability_AccessMode_SINGLE_NODE_MULTI_WRITER : VolumeCapability_AccessMode_Mode := 7

/-- The method `String` of the enumeration, which `%v` prints: the name of a declared
value, the decimal number of any other. -/
def VolumeCapability_AccessMode_Mode.String (mode : VolumeCapability_AccessMode_Mode) : String :=
  if mode = 0 then "UNKNOWN"
  else if mode = 1 then "SINGLE_NODE_WRITER"
  else if mode = 2 then "SINGLE_NODE_READER_ONLY"
  else if mode = 3 then "MULTI_NODE_READER_ONLY"
  else if mode = 4 then "MULTI_NODE_SINGLE_WRITER"
  else if mode = 5 then "MULTI_NODE_MULTI_WRITER"
  else if mode = 6 then "SINGLE_NODE_SINGLE_WRITER"
  else if mode = 7 then "SINGLE_NODE_MULTI_WRITER"
  else toString mode

/-- The constant `v1.ReadWriteOnce`. -/
def ReadWriteOnce : PersistentVolumeAccessMode := "ReadWriteOnce"

/-- The constant `v1.ReadOnlyMany`. -/
def ReadOnlyMany : PersistentVolumeAccessMode := "ReadOnlyMany"

/-- The constant `v1.ReadWriteMany`. -/
def ReadWriteMany : PersistentVolumeAccessMode := "ReadWriteMany"

/-- The function `getQuantity`. -/
def getQuantity (value : Int) : Quantity := NewQuantity value Format.BinarySI

/-- The function `csiToK8sAccessMode`: the cases of the switch, in order. -/
def csiToK8sAccessMode (mode : VolumeCapability_AccessMode_Mode) :
    PersistentVolumeAccessMode × Option GoError :=
  if mode = VolumeCapability_AccessMode_SINGLE_NODE_WRITER ∨
      mode = VolumeCapability_AccessMode_SINGLE_NODE_SINGLE_WRITER ∨
      mode = VolumeCapability_AccessMode_SINGLE_NODE_MULTI_WRITER then
    (ReadWriteOnce, none)
  else if mode = VolumeCapability_AccessMode_SINGLE_NODE_READER_ONLY ∨
      mode = VolumeCapability_AccessMode_MULTI_NODE_READER_ONLY then
    (ReadOnlyMany, none)
  else if mode = VolumeCapability_AccessMode_MULTI_NODE_SINGLE_WRITER then
    ("", some (GoError.errorf "access mode %v is currently not supported" [mode.String]))
  else if mode = VolumeCapability_AccessMode_MULTI_NODE_MULTI_WRITER then
    (ReadWriteMany, none)
  else
    ("", some (GoError.errorf "unsupported or unknown access mode: %v" [mode.String]))

/-- The loop of `getAccessModes` over the modes that are left, with the modes converted
so far. -/
def getAccessModesLoop : List VolumeCapability_AccessMode_Mode →
    List PersistentVolumeAccessMode → List PersistentVolumeAccessMode × Option GoError
  | [], accessModes => (accessModes, none)
  | mode :: modes, accessModes =>
    match csiToK8sAccessMode mode with
    | (_, some err) => ([], some err)
    | (accessMode, none) => getAccessModesLoop modes (accessModes ++ [accessMode])

/-- The function `getAccessModes`. -/
def getAccessModes (modes : List VolumeCapability_AccessMode_Mode) :
    List PersistentVolumeAccessMode × Option GoError :=
  getAccessModesLoop modes []

/-! ## union.go -/

/-- The fields of `v1.PersistentVolumeClaimSpec` the package sets. -/
structure PersistentVolumeClaimSpec where
  AccessModes : List PersistentVolumeAccessMode
  Resources : ResourceRequirements
  StorageClassName : Option String
  deriving DecidableEq, Repr

/-- The fields of `v1.PersistentVolumeClaim` the package sets or reads. -/
structure PersistentVolumeClaim where
  Name : String
  Namespace : String
  Spec : PersistentVolumeClaimSpec
  deriving DecidableEq, Repr

/-- The type `v1.Node`, of which only the existence matters to the package. -/
structure Node where
  Name : String
  deriving DecidableEq, Repr

/-- The struct `CreateLowerOptions` of `types.go`. -/
structure CreateLowerOptions where
  CapacityBytes : Int
  LowerNamespace : String
  LowerStorageClassName : Option String
  CSIAccessModes : List VolumeCapability_AccessMode_Mode
  deriving DecidableEq, Repr

/-- What `union` uses of the cluster, over a cluster state `ω`: the claim lister
(`claimGet`, by namespace and name), the claim client (`claimCreate` and `claimDelete`,
in a namespace) and the node lister (`nodeGet`). A lister returns either an object or an
error with a nil object. -/
structure ClusterInterface (ω : Type) where
  claimGet : ω → String → String → Except GoError PersistentVolumeClaim
  claimCreate : ω → String → PersistentVolumeClaim → Option GoError × ω
  claimDelete : ω → String → String → Option GoError × ω
  nodeGet : ω → String → Except GoError Node

/-- The struct `union`: the cluster clients and listers, the splitter and the
attacher. -/
structure union (σ ω : Type) where
  cluster : ClusterInterface ω
  splitter : splitter σ
  attacher : attacher

/-- The function `NewVolumeFromVolumeSplit` of `types.go`. -/
def NewVolumeFromVolumeSplit (split : VolumeSplit) : Volume :=
  let size := split.Spec.CapacityTotal.index ResourceStorage
  { VolumeId := split.Spec.VolumeName
    CapacityBytes := size.Value
    AccessModes := split.Spec.AccessModes
    Namespace := split.Spec.Namespace
    ClaimNames := split.Spec.Splits.map (fun c => c.ClaimName)
    StorageClassName := split.Spec.StorageClassName }

/-- The function `claimToClaimKey` of `utils.go`, on a non-nil claim. -/
def claimToClaimKey (claim : PersistentVolumeClaim) : String :=
  claim.Namespace ++ "/" ++ claim.Name

/-- The function `isValidLowerClaimFromSplit`. -/
def isValidLowerClaimFromSplit (_claim : PersistentVolumeClaim) (_split : VolumeSplit) : Bool :=
  true

/-- The method `union.createLowerClaimFromSplit`. When the lister fails with an error
that is not a not-found, `notFound` stays false and the branch for an existing claim
formats the key of the nil claim, which dereferences it. -/
def union.createLowerClaimFromSplit {σ ω : Type} (u : union σ ω) (cl : ω) (split : VolumeSplit)
    (claimSplit : PersistentVolumeClaimSplit) :
    Outcome (Option PersistentVolumeClaim × Bool × Option GoError) × ω :=
  match u.cluster.claimGet cl split.Spec.Namespace claimSplit.ClaimName with
  | .error err =>
    if IsNotFound err then
      let lowerClaim : PersistentVolumeClaim :=
        { Name := claimSplit.ClaimName
          Namespace := split.Spec.Namespace
          Spec :=
            { AccessModes := split.Spec.AccessModes
              Resources := claimSplit.Resources
              StorageClassName := split.Spec.StorageClassName } }
      let c := u.cluster.claimCreate cl split.Spec.Namespace lowerClaim
      match c.1 with
      | some err =>
        (Outcome.returned (none, false,
          some (GoError.errorfV "failed to create lower claim %q: %v"
            [claimToClaimKey lowerClaim] err)), c.2)
      | none => (Outcome.returned (some lowerClaim, true, none), c.2)
    else (Outcome.nilDereference, cl)
  | .ok lowerClaim =>
    if !isValidLowerClaimFromSplit lowerClaim split then
      (Outcome.returned (none, false,
        some (GoError.errorf "invalid lower claim %q found for volume split %q"
          [claimToClaimKey lowerClaim, split.Name])), cl)
    else (Outcome.returned (some lowerClaim, false, none), cl)

/-- The loop of `union.createLowerFromSplit` over the claim entries that are left. -/
def union.createLowerLoop {σ ω : Type} (u : union σ ω) (split : VolumeSplit) :
    List PersistentVolumeClaimSplit → ω → Outcome (Option GoError) × ω
  | [], cl => (Outcome.returned none, cl)
  | claimSplit :: rest, cl =>
    match u.createLowerClaimFromSplit cl split claimSplit with
    | (Outcome.nilDereference, cl1) => (Outcome.nilDereference, cl1)
    | (Outcome.returned (_, _, some err), cl1) => (Outcome.returned (some err), cl1)
    | (Outcome.returned (_, _, none), cl1) => u.createLowerLoop split rest cl1

/-- The method `union.createLowerFromSplit`. -/
def union.createLowerFromSplit {σ ω : Type} (u : union σ ω) (cl : ω) (split : VolumeSplit) :
    Outcome (Option GoError) × ω :=
  if split.Spec.Splits.length = 0 then
    (Outcome.returned (some (GoError.errorf
      "unable to create lower claim(s) because splits is empty in volume split %s"
      [split.Name])), cl)
  else u.createLowerLoop split split.Spec.Splits cl

/-- The method `union.CreateLower`, over the state of the split store and the state of
the cluster. -/
def union.CreateLower {σ ω : Type} (u : union σ ω) (st : σ) (cl : ω) (volumeName : String)
    (options : CreateLowerOptions) : Outcome (Option Volume × Option GoError) × σ × ω :=
  match getAccessModes options.CSIAccessModes with
  | (_, some err) => (Outcome.returned (none, some err), st, cl)
  | (accessModes, none) =>
    let splitSpec : VolumeSplitSpec :=
      { VolumeName := volumeName
        CapacityTotal := [(ResourceStorage, getQuantity options.CapacityBytes)]
        AccessModes := accessModes
        Namespace := options.LowerNamespace
        StorageClassName := options.LowerStorageClassName
        Splits := [] }
    match u.splitter.CreateSplit volumeName splitSpec st with
    | ((_, some err), st1) => (Outcome.returned (none, some err), st1, cl)
    | ((none, none), st1) => (Outcome.nilDereference, st1, cl)
    | ((some split, none), st1) =>
      match u.createLowerFromSplit cl split with
      | (Outcome.nilDereference, cl1) => (Outcome.nilDereference, st1, cl1)
      | (Outcome.returned (some err), cl1) => (Outcome.returned (none, some err), st1, cl1)
      | (Outcome.returned none, cl1) =>
        let volume := NewVolumeFromVolumeSplit split
        (Outcome.returned (some { volume with CapacityBytes := 0 }, none), st1, cl1)

/-- A call that `DeleteLower` makes to a client, with the error the client answered. -/
inductive DeleteCall where
  | claimDelete (ns claimName : String) (result : Option GoError)
  | splitDelete (volumeId : String) (result : Option GoError)
  deriving DecidableEq, Repr

/-- A run of `DeleteLower`: the returned error, the states of the split store and of the
cluster it leaves, and the client calls it made, in order. -/
structure DeleteLowerRun (σ ω : Type) where
  err : Option GoError
  splits : σ
  cluster : ω
  calls : List DeleteCall

/-- The method `union.deleteLowerClaimFromSplit`. -/
def union.deleteLowerClaimFromSplit {σ ω : Type} (u : union σ ω) (cl : ω) (split : VolumeSplit)
    (claimSplit : PersistentVolumeClaimSplit) : (Bool × Option GoError) × ω :=
  let d := u.cluster.claimDelete cl split.Spec.Namespace claimSplit.ClaimName
  match d.1 with
  | some err => if !IsNotFound err then ((false, some err), d.2) else ((false, none), d.2)
  | none => ((true, none), d.2)

/-- The loop of `union.deleteLowerFromSplit` over the claim entries that are left; the
result carries the claim deletes it made. -/
def union.deleteLowerLoop {σ ω : Type} (u : union σ ω) (split : VolumeSplit) :
    List PersistentVolumeClaimSplit → ω → Option GoError × ω × List DeleteCall
  | [], cl => (none, cl, [])
  | claimSplit :: rest, cl =>
    let call := DeleteCall.claimDelete split.Spec.Namespace claimSplit.ClaimName
      (u.cluster.claimDelete cl split.Spec.Namespace claimSplit.ClaimName).1
    match u.deleteLowerClaimFromSplit cl split claimSplit with
    | ((_, some err), cl1) => (some err, cl1, [call])
    | ((_, none), cl1) =>
      let r := u.deleteLowerLoop split rest cl1
      (r.1, r.2.1, call :: r.2.2)

/-- The method `union.deleteLowerFromSplit`. -/
def union.deleteLowerFromSplit {σ ω : Type} (u : union σ ω) (cl : ω) (split : VolumeSplit) :
    Option GoError × ω × List DeleteCall :=
  u.deleteLowerLoop split split.Spec.Splits cl

/-- The method `union.DeleteLower`. -/
def union.DeleteLower {σ ω : Type} (u : union σ ω) (st : σ) (cl : ω) (volumeId : String) :
    DeleteLowerRun σ ω :=
  match u.splitter.GetSplit volumeId st with
  | ((_, some err), st1) => ⟨some err, st1, cl, []⟩
  | ((split, none), st1) =>
    match u.deleteLowerFromSplit cl split with
    | (some err, cl1, calls) => ⟨some err, st1, cl1, calls⟩
    | (none, cl1, calls) =>
      let d := u.splitter.DeleteSplit volumeId st1
      match d.1 with
      | some err => ⟨some err, d.2, cl1, calls ++ [DeleteCall.splitDelete volumeId (some err)]⟩
      | none => ⟨none, d.2, cl1, calls ++ [DeleteCall.splitDelete volumeId none]⟩

/-- The method `union.getNodeLocal`. -/
def union.getNodeLocal {σ ω : Type} (u : union σ ω) (cl : ω) (name : String) :
    Except GoError Node :=
  u.cluster.nodeGet cl name

/-- A run of `AttachLower`: its outcome and, when the Attacher was invoked, the run of
`Attach`. -/
structure AttachLowerRun where
  outcome : Outcome (Option VolumeAttachment × Option GoError)
  attacherRun : Option AttachRun
  deriving DecidableEq, Repr

/-- The method `union.AttachLower`; `env` is the environment of the call of `Attach`. -/
def union.AttachLower {σ ω : Type} (u : union σ ω) (st : σ) (cl : ω) (env : AttachEnv)
    (volumeId nodeId : String) : AttachLowerRun × σ :=
  match u.splitter.GetSplit volumeId st with
  | ((_, some err), st1) => (⟨Outcome.returned (none, some err), none⟩, st1)
  | ((split, none), st1) =>
    let volume := NewVolumeFromVolumeSplit split
    match u.getNodeLocal cl nodeId with
    | .error err =>
      let err1 : GoError :=
        if IsNotFound err then
          GoError.errorfWV (GoError.sentinel UnionErr.ErrNodeNotFound) err
        else err
      (⟨Outcome.returned (none, some err1), none⟩, st1)
    | .ok _ =>
      let run := u.attacher.Attach env volume nodeId
      (⟨run.outcome, some run⟩, st1)

/-- A run of `DetachLower`: the returned error and, when the Attacher was invoked, the
run of `Detach`. -/
structure DetachLowerRun where
  err : Option GoError
  attacherRun : Option DetachRun
  deriving DecidableEq, Repr

/-- The method `union.DetachLower`; `env` is the environment of the call of `Detach`. -/
def union.DetachLower {σ ω : Type} (u : union σ ω) (st : σ) (cl : ω) (env : DetachEnv)
    (volumeId nodeId : String) : DetachLowerRun × σ :=
  match u.splitter.GetSplit volumeId st with
  | ((_, some err), st1) => (⟨some err, none⟩, st1)
  | ((split, none), st1) =>
    let volume := NewVolumeFromVolumeSplit split
    match u.getNodeLocal cl nodeId with
    | .error err =>
      let err1 : GoError :=
        if IsNotFound err then
          GoError.errorfWV (GoError.sentinel UnionErr.ErrNodeNotFound) err
        else err
      (⟨some err1, none⟩, st1)
    | .ok _ =>
      let run := u.attacher.Detach env volume nodeId
      (⟨run.err, some run⟩, st1)

/-! ## The keyed claims and the known nodes behind the cluster clients -/

/-- The cluster as the package sees it: the claims, looked up by namespace and name, and
the names of the known nodes. -/
structure ClusterState where
  claims : List PersistentVolumeClaim
  nodes : List String
  deriving DecidableEq, Repr

/-- The claim stored under a namespace and a name, if any. -/
def ClusterState.findClaim (cl : ClusterState) (ns name : String) :
    Option PersistentVolumeClaim :=
  List.find? (fun c => c.Namespace == ns && c.Name == name) cl.claims

/-- The cluster behind the clients as a keyed store of claims with a set of nodes, read
by the listers without lag: a lookup or a delete of a missing claim and a lookup of an
unknown node report a not-found status, a create of a present claim reports an
already-exists status, and every other call succeeds. A created claim is stored in the
namespace of the call. -/
def keyedCluster : ClusterInterface ClusterState where
  claimGet := fun cl ns name =>
    match cl.findClaim ns name with
    | some c => .ok c
    | none => .error (GoError.status StatusKind.NotFound name)
  claimCreate := fun cl ns claim =>
    match cl.findClaim ns claim.Name with
    | some _ => (some (GoError.status StatusKind.AlreadyExists claim.Name), cl)
    | none => (none, { cl with claims := cl.claims ++ [{ claim with Namespace := ns }] })
  claimDelete := fun cl ns name =>
    match cl.findClaim ns name with
    | some _ =>
      (none, { cl with
        claims := List.filter (fun c => !(c.Namespace == ns && c.Name == name)) cl.claims })
    | none => (some (GoError.status StatusKind.NotFound name), cl)
  nodeGet := fun cl name =>
    if name ∈ cl.nodes then .ok ⟨name⟩ else .error (GoError.status StatusKind.NotFound name)

/-- The orchestrator over the keyed split store and the keyed cluster, as `New` builds
it, with a claim name prefix `p` and an attacher. -/
def New (p : String) (a : attacher) : union KeyedStore ClusterState :=
  ⟨keyedCluster, NewSplitter p, a⟩

/-! ## The protocol layer: status values and requests -/

/-- The values of `codes.Code` the driver returns. -/
inductive Code where
  | InvalidArgument
  | NotFound
  | AlreadyExists
  | FailedPrecondition
  | Unimplemented
  | Internal
  deriving DecidableEq, Repr

/-- The type `field.ErrorType`, for the constructors `validation.go` calls. -/
inductive ErrorType where
  | ErrorTypeRequired
  | ErrorTypeInvalid
  | ErrorTypeForbidden
  | ErrorTypeNotSupported
  | ErrorTypeTypeInvalid
  deriving DecidableEq, Repr

/-- The type `field.Error`: the type of the error (the field `Type`), the path of the
field, the offending value as text and the detail. -/
structure FieldError where
  Type_ : ErrorType
  Field : String
  BadValue : String
  Detail : String
  deriving DecidableEq, Repr

/-- An operand of a format string: a string or an error value. -/
inductive Operand where
  | str (s : String)
  | err (e : GoError)
  deriving DecidableEq, Repr

/-- The message of a status. The text is kept as the format string with its operands
(`sprintf`), or as the field errors whose aggregate is printed (`aggregate`). -/
inductive Message where
  | sprintf (format : String) (operands : List Operand)
  | aggregate (errs : List FieldError)
  deriving DecidableEq, Repr

/-- A non-OK `status.Status`, as `status.Error` and `status.Errorf` build it. -/
structure Status where
  Code : Code
  Message : Message
  deriving DecidableEq, Repr

/-- The type `csi.CapacityRange`. -/
structure CapacityRange where
  RequiredBytes : Int
  LimitBytes : Int
  deriving DecidableEq, Repr

/-- The type `csi.VolumeCapability_MountVolume`. -/
structure MountVolume where
  FsType : String
  MountFlags : List String
  deriving DecidableEq, Repr

/-- The oneof `AccessType` of `csi.VolumeCapability`, when the interface is not nil: a
`*VolumeCapability_Block` or a `*VolumeCapability_Mount`, each of which may be a nil
pointer (`none`) or hold a field that is itself nil (`some none`), or a value of another
type. -/
inductive VolumeCapability_AccessType where
  | Block (value : Option (Option Unit))
  | Mount (value : Option (Option MountVolume))
  | other
  deriving DecidableEq, Repr

/-- The type `csi.VolumeCapability_AccessMode`. -/
structure VolumeCapability_AccessMode where
  Mode : VolumeCapability_AccessMode_Mode
  deriving DecidableEq, Repr

/-- The type `csi.VolumeCapability`; `none` is a nil interface or a nil pointer. -/
structure VolumeCapability where
  AccessType : Option VolumeCapability_AccessType
  AccessMode : Option VolumeCapability_AccessMode
  deriving DecidableEq, Repr

/-- The getter chain `volumeCap.GetAccessMode().GetMode()`, which is nil safe. -/
def VolumeCapability.GetMode (volumeCap : Option VolumeCapability) :
    VolumeCapability_AccessMode_Mode :=
  match volumeCap with
  | none => VolumeCapability_AccessMode_UNKNOWN
  | some c =>
    match c.AccessMode with
    | none => VolumeCapability_AccessMode_UNKNOWN
    | some m => m.Mode

/-- The type `csi.VolumeContentSource_SnapshotSource`. -/
structure SnapshotSource where
  SnapshotId : String
  deriving DecidableEq, Repr

/-- The type `csi.VolumeContentSource_VolumeSource`. -/
structure VolumeSource where
  VolumeId : String
  deriving DecidableEq, Repr

/-- The oneof `Type` of `csi.VolumeContentSource`, when the interface is not nil: a
`*VolumeContentSource_Snapshot` or a `*VolumeContentSource_Volume`, each of which may be
a nil pointer (`none`) or hold a field that is itself nil (`some none`), or a value of
another type. -/
inductive VolumeContentSource_Type where
  | Snapshot (value : Option (Option SnapshotSource))
  | Volume (value : Option (Option VolumeSource))
  | other
  deriving DecidableEq, Repr

/-- The type `csi.VolumeContentSource`; `none` is a nil interface. -/
structure VolumeContentSource where
  Type_ : Option VolumeContentSource_Type
  deriving DecidableEq, Repr

/-- The type `csi.Topology`; `Segments` lists the entries of the map. -/
structure Topology where
  Segments : List (String × String)
  deriving DecidableEq, Repr

/-- The type `csi.TopologyRequirement`; `none` is a nil pointer. -/
structure TopologyRequirement where
  Requisite : List (Option Topology)
  Preferred : List (Option Topology)
  deriving DecidableEq, Repr

/-- The fields of `csi.CreateVolumeRequest` the driver reads; `Parameters` lists the
entries of the map in the order in which a `range` statement visits them. -/
structure CreateVolumeRequest where
  Name : String
  CapacityRange : Option CapacityRange
  VolumeCapabilities : List (Option VolumeCapability)
  Parameters : List (String × String)
  VolumeContentSource : Option VolumeContentSource
  AccessibilityRequirements : Option TopologyRequirement
  deriving DecidableEq, Repr

/-- The field of `csi.DeleteVolumeRequest` the driver reads. -/
structure DeleteVolumeRequest where
  VolumeId : String
  deriving DecidableEq, Repr

/-- The fields of `csi.ControllerPublishVolumeRequest` the driver reads. -/
structure ControllerPublishVolumeRequest where
  VolumeId : String
  NodeId : String
  VolumeCapability : Option VolumeCapability
  Readonly : Bool
  deriving DecidableEq, Repr

/-- The fields of `csi.ControllerUnpublishVolumeRequest` the driver reads. -/
structure ControllerUnpublishVolumeRequest where
  VolumeId : String
  NodeId : String
  deriving DecidableEq, Repr

/-- The fields of `csi.Volume` the driver sets. -/
structure CsiVolume where
  VolumeId : String
  CapacityBytes : Int
  deriving DecidableEq, Repr

/-- The type `csi.CreateVolumeResponse`. -/
structure CreateVolumeResponse where
  Volume : CsiVolume
  deriving DecidableEq, Repr

/-- The type `csi.ControllerPublishVolumeResponse`. -/
structure ControllerPublishVolumeResponse where
  PublishContext : List (String × String)
  deriving DecidableEq, Repr

/-! ## const.go -/

/-- The constant `DefaultCapacityBytes`. -/
def DefaultCapacityBytes : Int := 1024

/-- The constant `LowerNamespaceParamKey`. -/
def LowerNamespaceParamKey : String := "lowernamespace"

/-- The constant `LowerStorageClassNameParamKey`. -/
def LowerStorageClassNameParamKey : String := "lowerstorageclassname"

/-- The constant `PVCNameParamKey`. -/
def PVCNameParamKey : String := "csi.storage.k8s.io/pvc/name"

/-- The constant `PVCNamespaceParamKey`. -/
def PVCNamespaceParamKey : String := "csi.storage.k8s.io/pvc/namespace"

/-- The constant `PVNameParamKey`. -/
def PVNameParamKey : String := "csi.storage.k8s.io/pv/name"

/-- The constant `PathPublishContextKey`. -/
def PathPublishContextKey : String := "path"

/-! ## validation.go and controller_validator.go: the delete and unpublish requests -/

/-- The function `ValidateDeleteVolumeRequest`. -/
def ValidateDeleteVolumeRequest (req : DeleteVolumeRequest) : List FieldError :=
  if req.VolumeId.length = 0 then [⟨ErrorType.ErrorTypeRequired, "volumeId", "", ""⟩] else []

/-- The function `ValidateControllerUnpublishVolumeRequest`. -/
def ValidateControllerUnpublishVolumeRequest (req : ControllerUnpublishVolumeRequest) :
    List FieldError :=
  if req.VolumeId.length = 0 then [⟨ErrorType.ErrorTypeRequired, "volumeId", "", ""⟩] else []

/-- The method `controllerValidator.DeleteVolumeRequestValidate`. -/
def DeleteVolumeRequestValidate (req : DeleteVolumeRequest) : Outcome (Option Status) :=
  let errs := ValidateDeleteVolumeRequest req
  if errs.length > 0 then Outcome.returned (some ⟨Code.InvalidArgument, Message.aggregate errs⟩)
  else Outcome.returned none

/-- The method `controllerValidator.ControllerUnpublishVolumeRequestValidate`. -/
def ControllerUnpublishVolumeRequestValidate (req : ControllerUnpublishVolumeRequest) :
    Outcome (Option Status) :=
  let errs := ValidateControllerUnpublishVolumeRequest req
  if errs.length > 0 then Outcome.returned (some ⟨Code.InvalidArgument, Message.aggregate errs⟩)
  else Outcome.returned none

/-! ## controller_server.go -/

/-- The interface `union.Interface`, as state passing functions over a world `W`. A call
may end in a nil dereference inside the orchestrator. -/
structure Interface (W : Type) where
  CreateLower : W → String → CreateLowerOptions → Outcome (Option Volume × Option GoError) × W
  DeleteLower : W → String → Option GoError × W
  AttachLower : W → String → String → Outcome (Option VolumeAttachment × Option GoError) × W
  DetachLower : W → String → String → Option GoError × W

/-- The request validation methods of the interface `ControllerValidator`. -/
structure ControllerValidator where
  CreateVolumeRequestValidate : CreateVolumeRequest → Outcome (Option Status)
  DeleteVolumeRequestValidate : DeleteVolumeRequest → Outcome (Option Status)
  ControllerPublishVolumeRequestValidate : ControllerPublishVolumeRequest → Outcome (Option Status)
  ControllerUnpublishVolumeRequestValidate :
    ControllerUnpublishVolumeRequest → Outcome (Option Status)

/-- The field of the struct `driverOptions` the controller reads. -/
structure driverOptions where
  defaultLowerNamespace : String

/-- The struct `controllerServer`, with the library function `strings.ToLower` taken as
a parameter. -/
structure controllerServer (W : Type) where
  union : Interface W
  validator : ControllerValidator
  options : driverOptions
  toLower : String → String

/-- The function `parseParameters`, over the entries of the map in the order of the
`range` statement; the options are returned as the loop has left them. -/
def parseParameters (toLower : String → String) :
    List (String × String) → CreateLowerOptions → Option Status × CreateLowerOptions
  | [], options => (none, options)
  | (k, v) :: params, options =>
    if toLower k = LowerNamespaceParamKey then
      parseParameters toLower params { options with LowerNamespace := v }
    else if toLower k = LowerStorageClassNameParamKey then
      if v = "" then
        (some ⟨Code.InvalidArgument,
          Message.sprintf "%s value cannot be empty (\"\") when specified in parameters"
            [Operand.str k]⟩, options)
      else parseParameters toLower params { options with LowerStorageClassName := some v }
    else if toLower k = PVCNameParamKey ∨ toLower k = PVCNamespaceParamKey ∨
        toLower k = PVNameParamKey then
      parseParameters toLower params options
    else
      (some ⟨Code.InvalidArgument,
        Message.sprintf "unknown parameters key: %q" [Operand.str k]⟩, options)

/-- The function `getCapacityBytes`; its error is always nil. -/
def getCapacityBytes (capacityRange : Option CapacityRange) : Int :=
  match capacityRange with
  | none => DefaultCapacityBytes
  | some r => r.RequiredBytes

/-- The type switch of `CreateVolume` on a capability: whether its access type is a
`*csi.VolumeCapability_Block`. -/
def isBlock (volumeCap : Option VolumeCapability) : Bool :=
  match volumeCap with
  | some ⟨some (VolumeCapability_AccessType.Block _), _⟩ => true
  | _ => false

/-- The method `controllerServer.CreateVolume`. -/
def controllerServer.CreateVolume {W : Type} (s : controllerServer W) (w : W)
    (req : CreateVolumeRequest) : Outcome (Option CreateVolumeResponse × Option Status) × W :=
  match s.validator.CreateVolumeRequestValidate req with
  | Outcome.nilDereference => (Outcome.nilDereference, w)
  | Outcome.returned (some err) => (Outcome.returned (none, some err), w)
  | Outcome.returned none =>
    if req.VolumeCapabilities.any isBlock then
      (Outcome.returned (none, some ⟨Code.InvalidArgument,
        Message.sprintf
          "Volume capability with access type of block not supported. Support only mount volumes"
          []⟩), w)
    else
      let options0 : CreateLowerOptions := ⟨0, s.options.defaultLowerNamespace, none, []⟩
      match parseParameters s.toLower req.Parameters options0 with
      | (some err, _) => (Outcome.returned (none, some err), w)
      | (none, options1) =>
        let capacityBytes := getCapacityBytes req.CapacityRange
        let options : CreateLowerOptions :=
          { options1 with
            CapacityBytes := capacityBytes
            CSIAccessModes := options1.CSIAccessModes ++
              req.VolumeCapabilities.map VolumeCapability.GetMode }
        let volumeName := req.Name
        match s.union.CreateLower w volumeName options with
        | (Outcome.nilDereference, w1) => (Outcome.nilDereference, w1)
        | (Outcome.returned (_, some err), w1) =>
          let code : Code :=
            if errorsIs err UnionErr.ErrIdempotencyIncompatible then Code.AlreadyExists
            else Code.Internal
          (Outcome.returned (none, some ⟨code,
            Message.sprintf "Failed to create volume %s: %v"
              [Operand.str volumeName, Operand.err err]⟩), w1)
        | (Outcome.returned (none, none), w1) => (Outcome.nilDereference, w1)
        | (Outcome.returned (some volume, none), w1) =>
          (Outcome.returned (some ⟨⟨volume.VolumeId, volume.CapacityBytes⟩⟩, none), w1)

/-- The method `controllerServer.DeleteVolume`; the response has no field. -/
def controllerServer.DeleteVolume {W : Type} (s : controllerServer W) (w : W)
    (req : DeleteVolumeRequest) : Outcome (Option Unit × Option Status) × W :=
  match s.validator.DeleteVolumeRequestValidate req with
  | Outcome.nilDereference => (Outcome.nilDereference, w)
  | Outcome.returned (some err) => (Outcome.returned (none, some err), w)
  | Outcome.returned none =>
    let volumeId := req.VolumeId
    match s.union.DeleteLower w volumeId with
    | (some err, w1) =>
      if errorsIs err UnionErr.ErrVolumeNotFound then (Outcome.returned (some (), none), w1)
      else
        (Outcome.returned (none, some ⟨Code.Internal,
          Message.sprintf "Failed to delete volume %s: %v"
            [Operand.str volumeId, Operand.err err]⟩), w1)
    | (none, w1) => (Outcome.returned (some (), none), w1)

/-- The method `controllerServer.ControllerPublishVolume`. The message of the
in-use case reads the node of the attachment, which dereferences the attachment. -/
def controllerServer.ControllerPublishVolume {W : Type} (s : controllerServer W) (w : W)
    (req : ControllerPublishVolumeRequest) :
    Outcome (Option ControllerPublishVolumeResponse × Option Status) × W :=
  match s.validator.ControllerPublishVolumeRequestValidate req with
  | Outcome.nilDereference => (Outcome.nilDereference, w)
  | Outcome.returned (some err) => (Outcome.returned (none, some err), w)
  | Outcome.returned none =>
    let volumeId := req.VolumeId
    let nodeId := req.NodeId
    match s.union.AttachLower w volumeId nodeId with
    | (Outcome.nilDereference, w1) => (Outcome.nilDereference, w1)
    | (Outcome.returned (attachment, some err), w1) =>
      if errorsIs err UnionErr.ErrVolumeInUse then
        match attachment with
        | none => (Outcome.nilDereference, w1)
        | some attachment =>
          (Outcome.returned (none, some ⟨Code.FailedPrecondition,
            Message.sprintf
              "Volume %q cannot be attached at node %q, already attached at node %q"
              [Operand.str volumeId, Operand.str nodeId, Operand.str attachment.NodeId]⟩), w1)
      else
        let code : Code :=
          if errorsIs err UnionErr.ErrVolumeNotFound || errorsIs err UnionErr.ErrNodeNotFound then
            Code.NotFound
          else Code.Internal
        (Outcome.returned (none, some ⟨code,
          Message.sprintf "Failed to attach volume %s at node %s: %v"
            [Operand.str volumeId, Operand.str nodeId, Operand.err err]⟩), w1)
    | (Outcome.returned (none, none), w1) => (Outcome.nilDereference, w1)
    | (Outcome.returned (some attachment, none), w1) =>
      (Outcome.returned (some ⟨[(PathPublishContextKey, attachment.HostPath)]⟩, none), w1)

/-- The method `controllerServer.ControllerUnpublishVolume`; the response has no
field. -/
def controllerServer.ControllerUnpublishVolume {W : Type} (s : controllerServer W) (w : W)
    (req : ControllerUnpublishVolumeRequest) : Outcome (Option Unit × Option Status) × W :=
  match s.validator.ControllerUnpublishVolumeRequestValidate req with
  | Outcome.nilDereference => (Outcome.nilDereference, w)
  | Outcome.returned (some err) => (Outcome.returned (none, some err), w)
  | Outcome.returned none =>
    let volumeId := req.VolumeId
    let nodeId := req.NodeId
    if nodeId.length = 0 then
      (Outcome.returned (none, some ⟨Code.InvalidArgument,
        Message.sprintf "nodeId is missing" []⟩), w)
    else
      match s.union.DetachLower w volumeId nodeId with
      | (some err, w1) =>
        if errorsIs err UnionErr.ErrAttachmentNotFound then
          (Outcome.returned (some (), none), w1)
        else
          let code : Code :=
            if errorsIs err UnionErr.ErrVolumeNotFound ||
                errorsIs err UnionErr.ErrNodeNotFound then Code.NotFound
            else Code.Internal
          (Outcome.returned (none, some ⟨code,
            Message.sprintf "Failed to detach volume %s at node %s: %v"
              [Operand.str volumeId, Operand.str nodeId, Operand.err err]⟩), w1)
      | (none, w1) => (Outcome.returned (some (), none), w1)

/-- The struct `union` behind the interface `union.Interface`, over the pair of the
split store and the cluster; `attachEnv` and `detachEnv` are what a call of the attacher
meets. -/
def union.asInterface {σ ω : Type} (u : union σ ω) (attachEnv : AttachEnv)
    (detachEnv : DetachEnv) : Interface (σ × ω) where
  CreateLower := fun w volumeName options =>
    let r := u.CreateLower w.1 w.2 volumeName options
    (r.1, r.2.1, r.2.2)
  DeleteLower := fun w volumeId =>
    let r := u.DeleteLower w.1 w.2 volumeId
    (r.err, r.splits, r.cluster)
  AttachLower := fun w volumeId nodeId =>
    let r := u.AttachLower w.1 w.2 attachEnv volumeId nodeId
    (r.1.outcome, r.2, w.2)
  DetachLower := fun w volumeId nodeId =>
    let r := u.DetachLower w.1 w.2 detachEnv volumeId nodeId
    (r.1.err, r.2, w.2)

/-! ## validation.go: field errors and the create, publish and node requests -/

/-- The text of a `field.Path`, as `Path.String` prints it. -/
abbrev FieldPath := String

/-- The method `Path.Child`, on the text of the path. -/
def FieldPath.Child (p : FieldPath) (name : String) : FieldPath := p ++ "." ++ name

/-- The method `Path.Index`, on the text of the path. -/
def FieldPath.Index (p : FieldPath) (index : Nat) : FieldPath :=
  p ++ "[" ++ toString index ++ "]"

/-- The function `field.Required`. -/
def field.Required (p : FieldPath) (detail : String) : FieldError :=
  ⟨ErrorType.ErrorTypeRequired, p, "", detail⟩

/-- The function `field.Invalid`, with the offending value as text. -/
def field.Invalid (p : FieldPath) (value detail : String) : FieldError :=
  ⟨ErrorType.ErrorTypeInvalid, p, value, detail⟩

/-- The function `field.Forbidden`. -/
def field.Forbidden (p : FieldPath) (detail : String) : FieldError :=
  ⟨ErrorType.ErrorTypeForbidden, p, "", detail⟩

/-- The function `field.TypeInvalid`, with the offending value as text. -/
def field.TypeInvalid (p : FieldPath) (value detail : String) : FieldError :=
  ⟨ErrorType.ErrorTypeTypeInvalid, p, value, detail⟩

/-- The function `strconv.Quote` on a text that needs no escape sequence: the text
between two double quote characters. -/
def strconvQuote (v : String) : String :=
  String.singleton (Char.ofNat 34) ++ v ++ String.singleton (Char.ofNat 34)

/-- The function `field.NotSupported`: the detail lists the quoted valid values. -/
def field.NotSupported (p : FieldPath) (value : String) (validValues : List String) :
    FieldError :=
  let detail :=
    if validValues.length > 0 then
      "supported values: " ++ String.intercalate ", " (validValues.map strconvQuote)
    else ""
  ⟨ErrorType.ErrorTypeNotSupported, p, value, detail⟩

/-- The function `apimachineryvalidation.ValidateNonnegativeField`. -/
def ValidateNonnegativeField (value : Int) (fldPath : FieldPath) : List FieldError :=
  if value < 0 then [field.Invalid fldPath (toString value) "must be greater than or equal to 0"]
  else []

/-- The function `validateCapacityRange`; `none` is the nil pointer. -/
def validateCapacityRange (capacityRange : Option CapacityRange) (fldPath : FieldPath) :
    List FieldError :=
  match capacityRange with
  | none => []
  | some capacityRange =>
    let reqBytes := capacityRange.RequiredBytes
    let limBytes := capacityRange.LimitBytes
    if reqBytes = 0 ∧ limBytes = 0 then
      [field.Required (FieldPath.Child fldPath "requiredBytes")
        "must specify either requiredBytes or limitBytes or both when capacityRange is specified"]
    else
      let allErrs := ValidateNonnegativeField reqBytes (FieldPath.Child fldPath "requiredBytes")
      let allErrs := allErrs ++
        ValidateNonnegativeField limBytes (FieldPath.Child fldPath "limitBytes")
      if reqBytes > limBytes ∧ limBytes > 0 then
        allErrs ++ [field.Forbidden (FieldPath.Child fldPath "requiredBytes")
          "requiredBytes must not be greater than limitBytes when limitBytes is specified"]
      else allErrs

/-- The function `validateMode`. -/
def validateMode (mode : VolumeCapability_AccessMode_Mode) (fldPath : FieldPath) :
    List FieldError :=
  if mode = VolumeCapability_AccessMode_UNKNOWN then
    [field.Required fldPath
      ("access mode is " ++ VolumeCapability_AccessMode_Mode.String
        VolumeCapability_AccessMode_UNKNOWN)]
  else if mode = VolumeCapability_AccessMode_SINGLE_NODE_WRITER then []
  else if mode = VolumeCapability_AccessMode_SINGLE_NODE_READER_ONLY then []
  else if mode = VolumeCapability_AccessMode_MULTI_NODE_READER_ONLY then []
  else if mode = VolumeCapability_AccessMode_MULTI_NODE_SINGLE_WRITER then []
  else if mode = VolumeCapability_AccessMode_MULTI_NODE_MULTI_WRITER then []
  else if mode = VolumeCapability_AccessMode_SINGLE_NODE_SINGLE_WRITER then []
  else if mode = VolumeCapability_AccessMode_SINGLE_NODE_MULTI_WRITER then []
  else
    let validModes : List String :=
      [VolumeCapability_AccessMode_Mode.String VolumeCapability_AccessMode_SINGLE_NODE_WRITER,
        VolumeCapability_AccessMode_Mode.String
          VolumeCapability_AccessMode_SINGLE_NODE_READER_ONLY,
        VolumeCapability_AccessMode_Mode.String
          VolumeCapability_AccessMode_MULTI_NODE_READER_ONLY,
        VolumeCapability_AccessMode_Mode.String
          VolumeCapability_AccessMode_MULTI_NODE_SINGLE_WRITER,
        VolumeCapability_AccessMode_Mode.String
          VolumeCapability_AccessMode_MULTI_NODE_MULTI_WRITER,
        VolumeCapability_AccessMode_Mode.String
          VolumeCapability_AccessMode_SINGLE_NODE_SINGLE_WRITER,
        VolumeCapability_AccessMode_Mode.String
          VolumeCapability_AccessMode_SINGLE_NODE_MULTI_WRITER]
    [field.NotSupported fldPath (VolumeCapability_AccessMode_Mode.String mode) validModes]

/-- The function `validateVolumeCapability`. A typed nil pointer in the access type
returns at once; every other case goes on to the access mode (`rest`). The offending
value of another type is not kept in the error. -/
def validateVolumeCapability (volumeCap : Option VolumeCapability) (fldPath : FieldPath) :
    List FieldError :=
  match volumeCap with
  | none => [field.Required fldPath ""]
  | some volumeCap =>
    let typePath := FieldPath.Child fldPath "accessType"
    let rest : List FieldError → List FieldError := fun allErrs =>
      let modePath := FieldPath.Child fldPath "accessMode"
      match volumeCap.AccessMode with
      | none => allErrs ++ [field.Required modePath ""]
      | some accessMode =>
        allErrs ++ validateMode accessMode.Mode (FieldPath.Child modePath "mode")
    match volumeCap.AccessType with
    | none => rest [field.Required typePath ""]
    | some (VolumeCapability_AccessType.Block none) => [field.Required typePath ""]
    | some (VolumeCapability_AccessType.Block (some none)) =>
      rest [field.Required (FieldPath.Child typePath "block") ""]
    | some (VolumeCapability_AccessType.Block (some (some _))) => rest []
    | some (VolumeCapability_AccessType.Mount none) => [field.Required typePath ""]
    | some (VolumeCapability_AccessType.Mount (some none)) =>
      rest [field.Required (FieldPath.Child typePath "mount") ""]
    | some (VolumeCapability_AccessType.Mount (some (some _))) => rest []
    | some VolumeCapability_AccessType.other =>
      rest [field.TypeInvalid typePath "" "invalid type for access type field"]

/-- The loop of `validateVolumeCapabilities`, from the index `i` on. -/
def validateVolumeCapabilitiesLoop (fldPath : FieldPath) :
    List (Option VolumeCapability) → Nat → List FieldError
  | [], _ => []
  | volumeCap :: rest, i =>
    validateVolumeCapability volumeCap (FieldPath.Index fldPath i) ++
      validateVolumeCapabilitiesLoop fldPath rest (i + 1)

/-- The function `validateVolumeCapabilities`. -/
def validateVolumeCapabilities (volumeCaps : List (Option VolumeCapability))
    (fldPath : FieldPath) : List FieldError :=
  if volumeCaps.length = 0 then [field.Required fldPath ""]
  else validateVolumeCapabilitiesLoop fldPath volumeCaps 0

/-- The function `validateVolumeContentSource`; `none` is the nil pointer. -/
def validateVolumeContentSource (vcSource : Option VolumeContentSource) (fldPath : FieldPath) :
    List FieldError :=
  match vcSource with
  | none => []
  | some vcSource =>
    let typePath := FieldPath.Child fldPath "type"
    match vcSource.Type_ with
    | none => [field.Required typePath ""]
    | some (VolumeContentSource_Type.Snapshot none) => [field.Required typePath ""]
    | some (VolumeContentSource_Type.Snapshot (some none)) =>
      [field.Required (FieldPath.Child typePath "snapshot") ""]
    | some (VolumeContentSource_Type.Snapshot (some (some snapshot))) =>
      if snapshot.SnapshotId.length = 0 then
        [field.Required (FieldPath.Child (FieldPath.Child typePath "snapshot") "snapshotId") ""]
      else []
    | some (VolumeContentSource_Type.Volume none) => [field.Required typePath ""]
    | some (VolumeContentSource_Type.Volume (some none)) =>
      [field.Required (FieldPath.Child typePath "volume") ""]
    | some (VolumeContentSource_Type.Volume (some (some volume))) =>
      if volume.VolumeId.length = 0 then
        [field.Required (FieldPath.Child (FieldPath.Child typePath "volume") "volumeId") ""]
      else []
    | some VolumeContentSource_Type.other =>
      [field.TypeInvalid typePath "" "invalid type for type field"]

/-- The function `validateTopology`, with the library function
`metav1validation.ValidateLabels` taken as a parameter. -/
def validateTopology (ValidateLabels : List (String × String) → FieldPath → List FieldError)
    (topology : Option Topology) (fldPath : FieldPath) : List FieldError :=
  match topology with
  | none => [field.Required fldPath ""]
  | some topology =>
    let segmPath := FieldPath.Child fldPath "segments"
    if topology.Segments.length = 0 then
      [field.Required segmPath "topology must contain at least 1 topological segment"]
    else ValidateLabels topology.Segments segmPath

/-- A loop of `validateAccessibilityRequirements` over a list of topologies, from the
index `i` on. -/
def validateTopologiesLoop
    (ValidateLabels : List (String × String) → FieldPath → List FieldError)
    (fldPath : FieldPath) : List (Option Topology) → Nat → List FieldError
  | [], _ => []
  | topology :: rest, i =>
    validateTopology ValidateLabels topology (FieldPath.Index fldPath i) ++
      validateTopologiesLoop ValidateLabels fldPath rest (i + 1)

/-- The function `validateAccessibilityRequirements`; `none` is the nil pointer. -/
def validateAccessibilityRequirements
    (ValidateLabels : List (String × String) → FieldPath → List FieldError)
    (topologyRequirement : Option TopologyRequirement) (fldPath : FieldPath) :
    List FieldError :=
  match topologyRequirement with
  | none => []
  | some topologyRequirement =>
    let reqPath := FieldPath.Child fldPath "requisite"
    if topologyRequirement.Requisite.length = 0 ∧ topologyRequirement.Preferred.length = 0 then
      [field.Required reqPath
        "must specify either requisite or preferred or both when topologyRequirement is specified"]
    else
      let prefPath := FieldPath.Child fldPath "preferred"
      validateTopologiesLoop ValidateLabels reqPath topologyRequirement.Requisite 0 ++
        validateTopologiesLoop ValidateLabels prefPath topologyRequirement.Preferred 0

/-- The function `ValidateCreateVolumeRequest`. -/
def ValidateCreateVolumeRequest
    (ValidateLabels : List (String × String) → FieldPath → List FieldError)
    (req : CreateVolumeRequest) : List FieldError :=
  let allErrs : List FieldError :=
    if req.Name.length = 0 then [field.Required "name" ""] else []
  let allErrs := allErrs ++ validateCapacityRange req.CapacityRange "capacityRange"
  let allErrs := allErrs ++ validateVolumeCapabilities req.VolumeCapabilities "volumeCapabilities"
  let allErrs := allErrs ++
    validateVolumeContentSource req.VolumeContentSource "volumeContentSource"
  let allErrs := allErrs ++
    validateAccessibilityRequirements ValidateLabels req.AccessibilityRequirements
      "accessibilityRequirements"
  allErrs

/-- The function `ValidateControllerPublishVolumeRequest`. -/
def ValidateControllerPublishVolumeRequest (req : ControllerPublishVolumeRequest) :
    List FieldError :=
  let allErrs : List FieldError :=
    if req.VolumeId.length = 0 then [field.Required "volumeId" ""] else []
  let allErrs := allErrs ++ (if req.NodeId.length = 0 then [field.Required "nodeId" ""] else [])
  allErrs ++ validateVolumeCapability req.VolumeCapability "volumeCapability"

/-- The fields of `csi.NodePublishVolumeRequest` the driver reads; `PublishContext`
lists the entries of the map. -/
structure NodePublishVolumeRequest where
  VolumeId : String
  PublishContext : List (String × String)
  StagingTargetPath : String
  TargetPath : String
  VolumeCapability : Option VolumeCapability
  Readonly : Bool
  deriving DecidableEq, Repr

/-- The function `path.IsAbs`. -/
def pathIsAbs (p : String) : Bool := p.toList.head? == some '/'

/-- The function `validateTargetPath`. -/
def validateTargetPath (targetPath : String) (fldPath : FieldPath) : List FieldError :=
  if targetPath.length = 0 then [field.Required fldPath ""]
  else if !pathIsAbs targetPath then
    [field.Invalid fldPath targetPath "must be an absolute path"]
  else []

/-- The function `ValidateNodePublishVolumeRequest`. -/
def ValidateNodePublishVolumeRequest (req : NodePublishVolumeRequest) : List FieldError :=
  let allErrs : List FieldError :=
    if req.VolumeId.length = 0 then [field.Required "volumeId" ""] else []
  let allErrs := allErrs ++
    (if req.StagingTargetPath.length > 0 then
      validateTargetPath req.StagingTargetPath "stagingTargetPath"
    else [])
  let allErrs := allErrs ++ validateTargetPath req.TargetPath "targetPath"
  allErrs ++ validateVolumeCapability req.VolumeCapability "volumeCapability"

/-! ## volume_validator.go, controller_validator.go and node_validator.go -/

/-- The text `%v` prints for a slice of modes. -/
def sprintModes (modes : List VolumeCapability_AccessMode_Mode) : String :=
  "[" ++ String.intercalate " " (modes.map VolumeCapability_AccessMode_Mode.String) ++ "]"

/-- The variable `validVolumeCapTypes`. -/
def validVolumeCapTypes : List VolumeCapability_AccessMode_Mode :=
  [VolumeCapability_AccessMode_SINGLE_NODE_WRITER,
    VolumeCapability_AccessMode_SINGLE_NODE_READER_ONLY,
    VolumeCapability_AccessMode_MULTI_NODE_READER_ONLY,
    VolumeCapability_AccessMode_MULTI_NODE_SINGLE_WRITER,
    VolumeCapability_AccessMode_MULTI_NODE_MULTI_WRITER,
    VolumeCapability_AccessMode_SINGLE_NODE_SINGLE_WRITER,
    VolumeCapability_AccessMode_SINGLE_NODE_MULTI_WRITER]

/-- The struct `volumeValidator`; the set `volumeCapModesSet` is kept as the list of the
items it was made from. -/
structure volumeValidator where
  volumeCapModesSet : List VolumeCapability_AccessMode_Mode
  deriving DecidableEq, Repr

/-- The loop of `NewVolumeValidator`: the error of the first mode that is refused. -/
def NewVolumeValidatorLoop : List VolumeCapability_AccessMode_Mode → Option GoError
  | [] => none
  | k :: rest =>
    if k = VolumeCapability_AccessMode_UNKNOWN then
      some (GoError.errorf "volume capability is %s"
        [VolumeCapability_AccessMode_Mode.String VolumeCapability_AccessMode_UNKNOWN])
    else if !(decide (k ∈ validVolumeCapTypes)) then
      some (GoError.errorf "unsupported volume capability: %v. Supported values: %v"
        [VolumeCapability_AccessMode_Mode.String k, sprintModes validVolumeCapTypes])
    else NewVolumeValidatorLoop rest

/-- The function `NewVolumeValidator`. -/
def NewVolumeValidator (volumeCapModes : List VolumeCapability_AccessMode_Mode) :
    Option volumeValidator × Option GoError :=
  match NewVolumeValidatorLoop volumeCapModes with
  | some err => (none, some err)
  | none => (some ⟨volumeCapModes⟩, none)

/-- The method `volumeValidator.GetVolumeCapabilityModes`: `sets.List` returns the
members of the set in increasing order. -/
def volumeValidator.GetVolumeCapabilityModes (v : volumeValidator) :
    List VolumeCapability_AccessMode_Mode :=
  List.insertionSort (fun a b => a ≤ b) (List.dedup v.volumeCapModesSet)

/-- The method `volumeValidator.HasVolumeCapabilityMode`. -/
def volumeValidator.HasVolumeCapabilityMode (v : volumeValidator)
    (k : VolumeCapability_AccessMode_Mode) : Bool :=
  decide (k ∈ v.volumeCapModesSet)

/-- The type `csi.ControllerServiceCapability_RPC_Type`, an `int32` enumeration. -/
abbrev ControllerServiceCapability_RPC_Type := Int

/-- The constant `csi.ControllerServiceCapability_RPC_UNKNOWN`. -/
def ControllerServiceCapability_RPC_UNKNOWN : ControllerServiceCapability_RPC_Type := 0

/-- The constant `csi.ControllerServiceCapability_RPC_CREATE_DELETE_VOLUME`. -/
def ControllerServiceCapability_RPC_CREATE_DELETE_VOLUME :
    ControllerServiceCapability_RPC_Type := 1

/-- The constant `csi.ControllerServiceCapability_RPC_PUBLISH_UNPUBLISH_VOLUME`. -/
def ControllerServiceCapability_RPC_PUBLISH_UNPUBLISH_VOLUME :
    ControllerServiceCapability_RPC_Type := 2

/-- The constant `csi.ControllerServiceCapability_RPC_PUBLISH_READONLY`. -/
def ControllerServiceCapability_RPC_PUBLISH_READONLY : ControllerServiceCapability_RPC_Type := 8

/-- The names of the declared values of `csi.ControllerServiceCapability_RPC_Type`. -/
def ControllerServiceCapability_RPC_Type_name : List (Int × String) :=
  [(0, "UNKNOWN"), (1, "CREATE_DELETE_VOLUME"), (2, "PUBLISH_UNPUBLISH_VOLUME"),
    (3, "LIST_VOLUMES"), (4, "GET_CAPACITY"), (5, "CREATE_DELETE_SNAPSHOT"),
    (6, "LIST_SNAPSHOTS"), (7, "CLONE_VOLUME"), (8, "PUBLISH_READONLY"), (9, "EXPAND_VOLUME"),
    (10, "LIST_VOLUMES_PUBLISHED_NODES"), (11, "VOLUME_CONDITION"), (12, "GET_VOLUME"),
    (13, "SINGLE_NODE_MULTI_WRITER")]

/-- The method `String` of the enumeration: the name of a declared value, the decimal
number of any other. -/
def ControllerServiceCapability_RPC_Type.String (t : ControllerServiceCapability_RPC_Type) :
    String :=
  (ControllerServiceCapability_RPC_Type_name.lookup t).getD (toString t)

/-- The variable `validControllerCapTypes`: the declared values but `UNKNOWN`. -/
def validControllerCapTypes : List ControllerServiceCapability_RPC_Type :=
  [1, 2, 3, 4, 5, 6, 7, 8, 9, 10, 11, 12, 13]

/-- The struct `controllerValidator`, without the capability objects of
`controllerCaps`, which the request validation does not read. -/
structure controllerValidator where
  controllerCapTypesSet : List ControllerServiceCapability_RPC_Type
  volumeValidator : volumeValidator
  deriving DecidableEq, Repr

/-- The first loop of `NewControllerValidator`: the error of the first capability that
is refused. -/
def NewControllerValidatorLoop : List ControllerServiceCapability_RPC_Type → Option GoError
  | [] => none
  | k :: rest =>
    if k = ControllerServiceCapability_RPC_UNKNOWN then
      some (GoError.errorf "controller capability is %s"
        [ControllerServiceCapability_RPC_Type.String ControllerServiceCapability_RPC_UNKNOWN])
    else if !(decide (k ∈ validControllerCapTypes)) then
      some (GoError.errorf "unsupported controller capability: %v. Supported values: %v"
        [ControllerServiceCapability_RPC_Type.String k,
          "[" ++ String.intercalate " "
            (validControllerCapTypes.map ControllerServiceCapability_RPC_Type.String) ++ "]"])
    else NewControllerValidatorLoop rest

/-- The function `NewControllerValidator`. -/
def NewControllerValidator (controllerCapTypes : List ControllerServiceCapability_RPC_Type)
    (volumeCapModes : List VolumeCapability_AccessMode_Mode) :
    Option controllerValidator × Option GoError :=
  match NewControllerValidatorLoop controllerCapTypes with
  | some err => (none, some err)
  | none =>
    match NewVolumeValidator volumeCapModes with
    | (_, some err) => (none, some err)
    | (none, none) => (none, none)
    | (some volumeValidator, none) => (some ⟨controllerCapTypes, volumeValidator⟩, none)

/-- The status of a request whose access mode the plugin does not support. -/
def unsupportedModeStatus (v : volumeValidator) (mode : VolumeCapability_AccessMode_Mode) :
    Status :=
  ⟨Code.InvalidArgument,
    Message.sprintf "Plugin does not support access mode: %v. Supported access modes: %v"
      [Operand.str (VolumeCapability_AccessMode_Mode.String mode),
        Operand.str (sprintModes v.GetVolumeCapabilityModes)]⟩

/-- The loop of `controllerValidator.CreateVolumeRequestValidate` over the volume
capabilities: `volumeCap.AccessMode.Mode` dereferences both pointers. -/
def controllerValidator.checkModes (v : controllerValidator) :
    List (Option VolumeCapability) → Outcome (Option Status)
  | [] => Outcome.returned none
  | volumeCap :: rest =>
    match volumeCap with
    | none => Outcome.nilDereference
    | some volumeCap =>
      match volumeCap.AccessMode with
      | none => Outcome.nilDereference
      | some accessMode =>
        let mode := accessMode.Mode
        if !v.volumeValidator.HasVolumeCapabilityMode mode then
          Outcome.returned (some (unsupportedModeStatus v.volumeValidator mode))
        else v.checkModes rest

/-- The method `controllerValidator.CreateVolumeRequestValidate`. -/
def controllerValidator.CreateVolumeRequestValidate
    (ValidateLabels : List (String × String) → FieldPath → List FieldError)
    (v : controllerValidator) (req : CreateVolumeRequest) : Outcome (Option Status) :=
  let errs := ValidateCreateVolumeRequest ValidateLabels req
  if errs.length > 0 then Outcome.returned (some ⟨Code.InvalidArgument, Message.aggregate errs⟩)
  else v.checkModes req.VolumeCapabilities

/-- The method `controllerValidator.ControllerPublishVolumeRequestValidate`:
`req.VolumeCapability.AccessMode.Mode` dereferences both pointers. -/
def controllerValidator.ControllerPublishVolumeRequestValidate (v : controllerValidator)
    (req : ControllerPublishVolumeRequest) : Outcome (Option Status) :=
  let errs := ValidateControllerPublishVolumeRequest req
  if errs.length > 0 then Outcome.returned (some ⟨Code.InvalidArgument, Message.aggregate errs⟩)
  else
    match req.VolumeCapability with
    | none => Outcome.nilDereference
    | some volumeCap =>
      match volumeCap.AccessMode with
      | none => Outcome.nilDereference
      | some accessMode =>
        let mode := accessMode.Mode
        if !v.volumeValidator.HasVolumeCapabilityMode mode then
          Outcome.returned (some (unsupportedModeStatus v.volumeValidator mode))
        else if !(decide (ControllerServiceCapability_RPC_PUBLISH_READONLY ∈
            v.controllerCapTypesSet)) && req.Readonly then
          Outcome.returned (some ⟨Code.InvalidArgument,
            Message.sprintf
              "readonly is true but plugin does not support controller capability %s"
              [Operand.str (ControllerServiceCapability_RPC_Type.String
                ControllerServiceCapability_RPC_PUBLISH_READONLY)]⟩)
        else Outcome.returned none

/-- The method `controllerValidator.HasVolumeCapabilityMode`. -/
def controllerValidator.HasVolumeCapabilityMode (v : controllerValidator)
    (k : VolumeCapability_AccessMode_Mode) : Bool :=
  v.volumeValidator.HasVolumeCapabilityMode k

/-- The type `csi.NodeServiceCapability_RPC_Type`, an `int32` enumeration. -/
abbrev NodeServiceCapability_RPC_Type := Int

/-- The constant `csi.NodeServiceCapability_RPC_UNKNOWN`. -/
def NodeServiceCapability_RPC_UNKNOWN : NodeServiceCapability_RPC_Type := 0

/-- The constant `csi.NodeServiceCapability_RPC_STAGE_UNSTAGE_VOLUME`. -/
def NodeServiceCapability_RPC_STAGE_UNSTAGE_VOLUME : NodeServiceCapability_RPC_Type := 1

/-- The names of the declared values of `csi.NodeServiceCapability_RPC_Type`. -/
def NodeServiceCapability_RPC_Type_name : List (Int × String) :=
  [(0, "UNKNOWN"), (1, "STAGE_UNSTAGE_VOLUME"), (2, "GET_VOLUME_STATS"), (3, "EXPAND_VOLUME"),
    (4, "VOLUME_CONDITION"), (5, "SINGLE_NODE_MULTI_WRITER"), (6, "VOLUME_MOUNT_GROUP")]

/-- The method `String` of the enumeration: the name of a declared value, the decimal
number of any other. -/
def NodeServiceCapability_RPC_Type.String (t : NodeServiceCapability_RPC_Type) : String :=
  (NodeServiceCapability_RPC_Type_name.lookup t).getD (toString t)

/-- The variable `validNodeCapTypes`: the declared values but `UNKNOWN`. -/
def validNodeCapTypes : List NodeServiceCapability_RPC_Type := [1, 2, 3, 4, 5, 6]

/-- The struct `nodeValidator`, without the capability objects of `nodeCaps`, which the
request validation does not read. -/
structure nodeValidator where
  nodeCapTypesSet : List NodeServiceCapability_RPC_Type
  volumeValidator : volumeValidator
  deriving DecidableEq, Repr

/-- The first loop of `NewNodeValidator`: the error of the first capability that is
refused. -/
def NewNodeValidatorLoop : List NodeServiceCapability_RPC_Type → Option GoError
  | [] => none
  | k :: rest =>
    if k = NodeServiceCapability_RPC_UNKNOWN then
      some (GoError.errorf "node capability is %s"
        [NodeServiceCapability_RPC_Type.String NodeServiceCapability_RPC_UNKNOWN])
    else if !(decide (k ∈ validNodeCapTypes)) then
      some (GoError.errorf "unsupported node capability: %v. Supported values: %v"
        [NodeServiceCapability_RPC_Type.String k,
          "[" ++ String.intercalate " "
            (validNodeCapTypes.map NodeServiceCapability_RPC_Type.String) ++ "]"])
    else NewNodeValidatorLoop rest

/-- The function `NewNodeValidator`. -/
def NewNodeValidator (nodeCapTypes : List NodeServiceCapability_RPC_Type)
    (volumeCapModes : List VolumeCapability_AccessMode_Mode) :
    Option nodeValidator × Option GoError :=
  match NewNodeValidatorLoop nodeCapTypes with
  | some err => (none, some err)
  | none =>
    match NewVolumeValidator volumeCapModes with
    | (_, some err) => (none, some err)
    | (none, none) => (none, none)
    | (some volumeValidator, none) => (some ⟨nodeCapTypes, volumeValidator⟩, none)

/-- The method `nodeValidator.NodePublishVolumeRequestValidate`:
`req.VolumeCapability.AccessMode.Mode` dereferences both pointers. -/
def nodeValidator.NodePublishVolumeRequestValidate (v : nodeValidator)
    (req : NodePublishVolumeRequest) : Outcome (Option Status) :=
  let errs := ValidateNodePublishVolumeRequest req
  if errs.length > 0 then Outcome.returned (some ⟨Code.InvalidArgument, Message.aggregate errs⟩)
  else
    match req.VolumeCapability with
    | none => Outcome.nilDereference
    | some volumeCap =>
      match volumeCap.AccessMode with
      | none => Outcome.nilDereference
      | some accessMode =>
        let mode := accessMode.Mode
        if !v.volumeValidator.HasVolumeCapabilityMode mode then
          Outcome.returned (some (unsupportedModeStatus v.volumeValidator mode))
        else if decide (NodeServiceCapability_RPC_STAGE_UNSTAGE_VOLUME ∈ v.nodeCapTypesSet) &&
            decide (req.StagingTargetPath.length = 0) then
          Outcome.returned (some ⟨Code.InvalidArgument,
            Message.sprintf "stagingTargetPath is empty but plugin supports node capability %v"
              [Operand.str (NodeServiceCapability_RPC_Type.String
                NodeServiceCapability_RPC_STAGE_UNSTAGE_VOLUME)]⟩)
        else Outcome.returned none

/-! ## node_server.go: `NodePublishVolume` -/

/-- The struct `mount.PublishOptions`. -/
structure PublishOptions where
  FsType : String
  ReadOnly : Bool
  MountOptions : List String
  deriving DecidableEq, Repr

/-- The method `Publish` of the interface `mount.Mounter`, as a state passing function
over the state `μ` of the node; `none` is a nil options pointer, and a call may end in a
nil dereference. -/
structure Mounter (μ : Type) where
  Publish : μ → String → String → Option PublishOptions → Outcome (Option GoError) × μ

/-- The struct `nodeServer` with the fields `NodePublishVolume` reads; the validator is
its method `NodePublishVolumeRequestValidate`. -/
structure nodeServer (μ : Type) where
  mounter : Mounter μ
  validator : NodePublishVolumeRequest → Outcome (Option Status)

/-- A run of `NodePublishVolume`: the response and the status it returns (or a nil
dereference), the state of the node, and the arguments of the call of `Publish` when the
call is made. -/
structure NodePublishRun (μ : Type) where
  outcome : Outcome (Option Unit × Option Status)
  node : μ
  published : Option (String × String × Option PublishOptions)

/-- The method `nodeServer.NodePublishVolume`. The getters of the request are nil safe;
`accessType.Mount` dereferences the pointer held by the access type. -/
def nodeServer.NodePublishVolume {μ : Type} (s : nodeServer μ) (w : μ)
    (req : NodePublishVolumeRequest) : NodePublishRun μ :=
  match s.validator req with
  | Outcome.nilDereference => ⟨Outcome.nilDereference, w, none⟩
  | Outcome.returned (some err) => ⟨Outcome.returned (none, some err), w, none⟩
  | Outcome.returned none =>
    let volumeId := req.VolumeId
    let target := req.TargetPath
    if req.PublishContext.length = 0 then
      ⟨Outcome.returned (none, some ⟨Code.InvalidArgument,
        Message.sprintf "publishContext is missing" []⟩), w, none⟩
    else
      match req.PublishContext.lookup PathPublishContextKey with
      | none =>
        ⟨Outcome.returned (none, some ⟨Code.InvalidArgument,
          Message.sprintf "Missing publishContext key: %q" [Operand.str PathPublishContextKey]⟩),
          w, none⟩
      | some source =>
        let call : Option PublishOptions → NodePublishRun μ := fun options =>
          match s.mounter.Publish w source target options with
          | (Outcome.nilDereference, w1) =>
            ⟨Outcome.nilDereference, w1, some (source, target, options)⟩
          | (Outcome.returned (some err), w1) =>
            ⟨Outcome.returned (none, some ⟨Code.Internal,
              Message.sprintf "Failed to mount volume %s at path %s: %v"
                [Operand.str volumeId, Operand.str target, Operand.err err]⟩), w1,
              some (source, target, options)⟩
          | (Outcome.returned none, w1) =>
            ⟨Outcome.returned (some (), none), w1, some (source, target, options)⟩
        match req.VolumeCapability.bind (fun c => c.AccessType) with
        | some (VolumeCapability_AccessType.Block _) =>
          ⟨Outcome.returned (none, some ⟨Code.InvalidArgument,
            Message.sprintf
              "Volume capability with access type of block not supported. Support only mount volumes"
              []⟩), w, none⟩
        | some (VolumeCapability_AccessType.Mount none) => ⟨Outcome.nilDereference, w, none⟩
        | some (VolumeCapability_AccessType.Mount (some mountVolume)) =>
          call (some
            { FsType := (mountVolume.map (fun m => m.FsType)).getD ""
              ReadOnly := req.Readonly
              MountOptions := (mountVolume.map (fun m => m.MountFlags)).getD [] })
        | _ => call none

/-! ## mounter.go: `Publish` -/

/-- What `mounter.Publish` uses of `k8s.io/mount-utils`, of `os` and of `errors`, as
state passing functions over the state `μ` of the node: `PathExists`, `IsCorruptedMnt`,
`GetMountRefs`, `IsMountPoint`, the test `errors.Is(err, fs.ErrNotExist)`, `os.MkdirAll`
and `Mount`. The first four read the state only. -/
structure MountInterface (μ : Type) where
  PathExists : μ → String → Bool × Option GoError
  IsCorruptedMnt : GoError → Bool
  GetMountRefs : μ → String → List String × Option GoError
  IsMountPoint : μ → String → Bool × Option GoError
  IsNotExist : GoError → Bool
  MkdirAll : μ → String → Option GoError × μ
  Mount : μ → String → String → String → List String → Option GoError × μ

/-- A call that `Publish` makes after its check of the mount references. -/
inductive MountCall where
  | isMountPoint (target : String)
  | mkdirAll (target : String)
  | mount (source target fstype : String) (options : List String)
  deriving DecidableEq, Repr

/-- A run of `Publish`: the error it returns (or a nil dereference), the state of the
node, and the calls it made after the check of the mount references, in order. -/
structure PublishRun (μ : Type) where
  outcome : Outcome (Option GoError)
  node : μ
  calls : List MountCall

/-- The text `%v` prints for a slice of strings. -/
def sprintStrings (xs : List String) : String := "[" ++ String.intercalate " " xs ++ "]"

/-- The method `mounter.Publish`; `none` is a nil options pointer, which
`options.MountOptions` dereferences. -/
def mounter.Publish {μ : Type} (m : MountInterface μ) (w : μ) (source target : String)
    (options : Option PublishOptions) : PublishRun μ :=
  match m.PathExists w source with
  | (_, some err) =>
    if m.IsCorruptedMnt err then
      ⟨Outcome.returned (some (GoError.errorfV "source %s is corrupted: %v" [source] err)), w,
        []⟩
    else
      ⟨Outcome.returned
        (some (GoError.errorfV "error checking if source %s exists: %v" [source] err)), w, []⟩
  | (pathExists, none) =>
    if !pathExists then
      ⟨Outcome.returned (some (GoError.errorf "source %s does not exist" [source])), w, []⟩
    else
      match m.GetMountRefs w source with
      | (_, some err) =>
        ⟨Outcome.returned
          (some (GoError.errorfV "error checking if source %s is mounted: %v" [source] err)),
          w, []⟩
      | (refs, none) =>
        let l := refs.length
        if ¬ (l = 0 ∨ (l = 1 ∧ refs.head? = some target)) then
          ⟨Outcome.returned (some (GoError.errorf
            "found more than one mount reference to source %s that is not target %s: %v"
            [source, target, sprintStrings refs])), w, []⟩
        else
          let isMnt := refs.any (fun ref => ref == target)
          if isMnt then ⟨Outcome.returned none, w, []⟩
          else
            let probe := m.IsMountPoint w target
            let isMnt := probe.1
            match probe.2.filter (fun err => !m.IsNotExist err) with
            | some err =>
              if m.IsCorruptedMnt err then
                ⟨Outcome.returned (some (GoError.errorfV
                  "target %s is corrupted, will not attempt to mount: %v" [target] err)), w,
                  [MountCall.isMountPoint target]⟩
              else
                ⟨Outcome.returned (some (GoError.errorfV
                  "error checking if target %s is mounted: %v" [target] err)), w,
                  [MountCall.isMountPoint target]⟩
            | none =>
              if isMnt then
                ⟨Outcome.returned (some (GoError.errorf
                  "target %s is already mounted by a different device, will not attempt to mount"
                  [target])), w, [MountCall.isMountPoint target]⟩
              else
                match m.MkdirAll w target with
                | (some err, w1) =>
                  ⟨Outcome.returned (some (GoError.errorfV
                    "failed to create target directory %s: %v" [target] err)), w1,
                    [MountCall.isMountPoint target, MountCall.mkdirAll target]⟩
                | (none, w1) =>
                  match options with
                  | none =>
                    ⟨Outcome.nilDereference, w1,
                      [MountCall.isMountPoint target, MountCall.mkdirAll target]⟩
                  | some options =>
                    let mountOptions := ["bind"] ++ options.MountOptions
                    let mountOptions :=
                      if options.ReadOnly then mountOptions ++ ["ro"] else mountOptions
                    let r := m.Mount w1 source target "" mountOptions
                    ⟨Outcome.returned r.1, r.2,
                      [MountCall.isMountPoint target, MountCall.mkdirAll target,
                        MountCall.mount source target "" mountOptions]⟩

/-- The mounter as the interface `mount.Mounter` that the node server calls. -/
def mounter.asMounter {μ : Type} (m : MountInterface μ) : Mounter μ :=
  ⟨fun w source target options =>
    ((mounter.Publish m w source target options).outcome,
      (mounter.Publish m w source target options).node)⟩

/-! ## The mount table behind the mounter -/

/-- The state of a node: the paths that exist, and the bind mounts in the order in which
they were made, each with its source and its target. -/
structure NodeState where
  paths : List String
  mounts : List (String × String)
  deriving DecidableEq, Repr

/-- The node behind the mounter as a table of bind mounts over healthy paths: a path
exists when it is listed, the mount references of a source are the targets bound to it,
a path is a mount point when it is the target of a mount, probing a path that does not
exist reports `fs.ErrNotExist`, `MkdirAll` lists the path, and `Mount` adds the bind
mount. No call fails otherwise. -/
def bindTable : MountInterface NodeState where
  PathExists := fun w p => (decide (p ∈ w.paths), none)
  IsCorruptedMnt := fun _ => false
  GetMountRefs := fun w source =>
    ((w.mounts.filter (fun mnt => mnt.1 == source)).map (fun mnt => mnt.2), none)
  IsMountPoint := fun w target =>
    if target ∈ w.paths then (w.mounts.any (fun mnt => mnt.2 == target), none)
    else (false, some (GoError.external "file does not exist"))
  IsNotExist := fun err => decide (err = GoError.external "file does not exist")
  MkdirAll := fun w p =>
    (none, { w with paths := if p ∈ w.paths then w.paths else w.paths ++ [p] })
  Mount := fun w source target _ _ => (none, { w with mounts := w.mounts ++ [(source, target)] })

/-! ## Closed forms and sample data used in the statements -/

/-- The object that `doCreateSplit` builds and sends to `Create`, in closed form: the
requested spec under the split name, with the two claim entries appended
(`doCreateSplit_eq` proves that this is what the method computes). -/
def plannedSplit {σ : Type} (s : splitter σ) (splitName : String) (splitSpec : VolumeSplitSpec) :
    VolumeSplit :=
  let capacityQty := splitSpec.CapacityTotal.index ResourceStorage
  let share := NewQuantity (Int.tdiv capacityQty.Value 2) capacityQty.Format
  ⟨splitName,
    { splitSpec with
      Splits := splitSpec.Splits ++
        [⟨s.makeClaimName splitSpec.VolumeName 0, ⟨[], [(ResourceStorage, share)]⟩⟩,
         ⟨s.makeClaimName splitSpec.VolumeName 1, ⟨[], [(ResourceStorage, share)]⟩⟩] }⟩

/-- Errors that come out of a client library: a status, a transport failure or the error
of the context. None of them wraps a variable of `errors.go`. -/
def GoError.fromClient : GoError → Bool
  | .status _ _ => true
  | .external _ => true
  | .contextErr _ => true
  | _ => false

/-- A client whose every call fails with the error `e`. -/
def failingClient (e : GoError) : VolumeSplitInterface Unit where
  Create := fun st _ => ((VolumeSplit.zero, some e), st)
  Delete := fun st _ => (some e, st)
  Get := fun st _ => ((VolumeSplit.zero, some e), st)

/-- The spec `CreateLower` builds for a volume name and a capacity in bytes, with one
access mode, the namespace `default` and no storage class. -/
def sampleSpec (volumeName : String) (capacityBytes : Int) : VolumeSplitSpec :=
  ⟨volumeName, [(ResourceStorage, NewQuantity capacityBytes Format.BinarySI)],
    ["ReadWriteOnce"], "default", none, []⟩

/-- An iteration of the wait that lets `waitForAttach` go on: the context is not done
before the poll nor during the wait after it, and the poll finds the pod absent, or
present but neither terminating nor running. -/
def PollStep.keepsWaiting (step : PollStep (Except GoError Pod)) : Bool :=
  step.doneBefore.isNone && step.doneDuringWait.isNone &&
    match step.observed with
    | .error e => IsNotFound e
    | .ok pod => !isPodTerminating pod && !isPodRunning pod

/-- A pod factory for the sample runs: a pod with the given name and namespace. -/
def sampleFactory : String → String → List String → String → String → Pod :=
  fun podName podNamespace _ _ _ => ⟨podName, podNamespace, none, ⟨"", []⟩, ⟨""⟩⟩

/-- An attacher for the sample runs; the digest is left symbolic. -/
def sampleAttacher : attacher := ⟨sampleFactory, fun volumeId => volumeId⟩

/-- A pod as the lister reports it, in a phase and on a node. -/
def samplePod (phase : PodPhase) (nodeName : String) : Pod :=
  ⟨"attach-pod-v", "default", none, ⟨nodeName, [("kubernetes.io/hostname", nodeName)]⟩, ⟨phase⟩⟩

/-- The volume of the sample runs. -/
def sampleVolume : Volume := ⟨"v", 0, ["ReadWriteOnce"], "default", ["v-lower0", "v-lower1"], none⟩

/-- An environment in which the lister always reports the same answer, the context is
never done, and a create succeeds. -/
def steadyEnv (answer : Except GoError Pod) : AttachEnv :=
  ⟨answer, fun _ => none, fun _ => ⟨none, answer, none⟩⟩

/-- An iteration of the wait that lets `waitForDetach` go on: the context is not done
before the poll nor during the wait after it, and the poll still finds the pod, on the
expected node. -/
def PollStep.stillThere (expectedNodeId : String) (step : PollStep (Except GoError Pod)) : Bool :=
  step.doneBefore.isNone && step.doneDuringWait.isNone &&
    match step.observed with
    | .error _ => false
    | .ok pod => decide (pod.Spec.NodeName = expectedNodeId)

/-- An environment of `Detach` in which a delete succeeds and the context is never
done: the lister answers `onEntry` on entry and `atPoll j` at the poll `j`. -/
def detachEnv (onEntry : Except GoError Pod) (atPoll : Nat → Except GoError Pod) : DetachEnv :=
  ⟨onEntry, none, fun j => ⟨none, atPoll j, none⟩⟩

/-- The split store after `CreateSplit` for the volume `v` with 1024 bytes on the empty
store: the plan of `v` under `v-split`. -/
def sampleStore : KeyedStore :=
  ((NewSplitter "").CreateSplit "v" (sampleSpec "v" 1024) []).2

/-- A claim of 512 bytes in the namespace `default`, as `CreateLower` creates it for the
plan of `sampleStore`. -/
def sampleClaim (name : String) : PersistentVolumeClaim :=
  ⟨name, "default", ⟨["ReadWriteOnce"], ⟨[], [(ResourceStorage, NewQuantity 512 Format.BinarySI)]⟩,
    none⟩⟩

/-- A cluster with the two claims of the plan of `sampleStore` and the node `nodeA`. -/
def sampleCluster : ClusterState :=
  ⟨[sampleClaim "v-lower0", sampleClaim "v-lower1"], ["nodeA"]⟩

/-- The keyed cluster, except that the delete of the claim named `bad` fails with the
error `e`. -/
def flakyCluster (bad : String) (e : GoError) : ClusterInterface ClusterState :=
  { keyedCluster with
    claimDelete := fun cl ns name =>
      if name = bad then (some e, cl) else keyedCluster.claimDelete cl ns name }

/-- The four controller handlers that call the orchestrator. -/
inductive Handler where
  | CreateVolume
  | DeleteVolume
  | ControllerPublishVolume
  | ControllerUnpublishVolume
  deriving DecidableEq, Repr

/-- The error table of the protocol layer as the specification words it, from a handler
and the error of the orchestrator to the code of the returned status; `none` is a
success. An idempotency conflict of a create gives already-exists; a volume in use gives
failed-precondition, and a volume or node not found gives not-found, on publish; an
attachment not found is a success, and a volume or node not found gives not-found, on
unpublish; a volume not found is a success on delete; anything else is internal. -/
def statusTable (h : Handler) (err : GoError) : Option Code :=
  match h with
  | Handler.CreateVolume =>
    if errorsIs err UnionErr.ErrIdempotencyIncompatible then some Code.AlreadyExists
    else some Code.Internal
  | Handler.DeleteVolume =>
    if errorsIs err UnionErr.ErrVolumeNotFound then none else some Code.Internal
  | Handler.ControllerPublishVolume =>
    if errorsIs err UnionErr.ErrVolumeInUse then some Code.FailedPrecondition
    else if errorsIs err UnionErr.ErrVolumeNotFound ∨ errorsIs err UnionErr.ErrNodeNotFound then
      some Code.NotFound
    else some Code.Internal
  | Handler.ControllerUnpublishVolume =>
    if errorsIs err UnionErr.ErrAttachmentNotFound then none
    else if errorsIs err UnionErr.ErrVolumeNotFound ∨ errorsIs err UnionErr.ErrNodeNotFound then
      some Code.NotFound
    else some Code.Internal

/-- A validator that accepts every request, for the sample runs. -/
def acceptAll : ControllerValidator :=
  ⟨fun _ => Outcome.returned none, fun _ => Outcome.returned none,
    fun _ => Outcome.returned none, fun _ => Outcome.returned none⟩

/-- An orchestrator that answers every call with the error `err` (and the attachment
`attachment` on attach), for the sample runs. -/
def failingUnion (err : GoError) (attachment : Option VolumeAttachment) : Interface Unit :=
  ⟨fun w _ _ => (Outcome.returned (none, some err), w), fun w _ => (some err, w),
    fun w _ _ => (Outcome.returned (attachment, some err), w), fun w _ _ => (some err, w)⟩

/-- A controller server over `failingUnion`, with the ASCII lower casing of Lean in the
place of `strings.ToLower`. -/
def failingServer (err : GoError) (attachment : Option VolumeAttachment) :
    controllerServer Unit :=
  ⟨failingUnion err attachment, acceptAll, ⟨"union"⟩, String.toLower⟩

/-- A detach environment in which no attach pod exists: the lister reports not-found on
entry and at every poll. -/
def noPodEnv : DetachEnv :=
  detachEnv (.error (GoError.status StatusKind.NotFound "attach-pod-v"))
    (fun _ => .error (GoError.status StatusKind.NotFound "attach-pod-v"))

/-- A controller server over the orchestrator on the keyed stores, with the validation
of `controller_validator.go` for the delete and unpublish requests. -/
def sampleServer (attachEnv : AttachEnv) (detachEnv : DetachEnv) :
    controllerServer (KeyedStore × ClusterState) :=
  ⟨(New "" sampleAttacher).asInterface attachEnv detachEnv,
    ⟨fun _ => Outcome.returned none, DeleteVolumeRequestValidate,
      fun _ => Outcome.returned none, ControllerUnpublishVolumeRequestValidate⟩,
    ⟨"union"⟩, String.toLower⟩

/-- Whether a parameter key, lower-cased, is one of the three pass-through keys. -/
def isPassThrough (toLower : String → String) (k : String) : Bool :=
  decide (toLower k = PVCNameParamKey ∨ toLower k = PVCNamespaceParamKey ∨
    toLower k = PVNameParamKey)

/-- A lower casing of the ASCII letters, in the place of `strings.ToLower` for the
sample runs. -/
def asciiLower (k : String) : String :=
  String.mk (k.toList.map Char.toLower)

/-- A parameter map with a namespace, a pass-through key and a storage class, with keys
in mixed case. -/
def sampleParams : List (String × String) :=
  [("LowerNamespace", "tenant"), ("csi.storage.k8s.io/pvc/name", "data"),
    ("lowerStorageClassName", "fast")]

/-- A claim named `v-lower0` of 100 bytes with the access mode `ReadOnlyMany`, stored in
the namespace `default` before the volume `v` is created. -/
def earlierClaim : PersistentVolumeClaim :=
  ⟨"v-lower0", "default",
    ⟨["ReadOnlyMany"], ⟨[], [(ResourceStorage, NewQuantity 100 Format.BinarySI)]⟩, none⟩⟩

/-- The options of a `CreateLower` call for 1024 bytes in the namespace `default` with
one single-node writer mode. -/
def sampleOptions : CreateLowerOptions :=
  ⟨1024, "default", none, [VolumeCapability_AccessMode_SINGLE_NODE_WRITER]⟩

/-- The keyed cluster, except that every lookup of a claim in the lister fails with the
error `e`. -/
def brokenLister (e : GoError) : ClusterInterface ClusterState :=
  { keyedCluster with claimGet := fun _ _ _ => .error e }

/-- The directory under which the driver keeps the host directories of its volumes. -/
def volumesDir : String := "/var/lib/union-csi-driver.union.io/volumes"

/-- A cleaned path lies strictly below the directory `dir` and its final element is
`merged`: it starts with `dir` and a separator, none of its elements is `..`, and its
last element is `merged`. -/
def isBelowEndingMerged (dir p : String) : Bool :=
  (dir.toList ++ ['/']).isPrefixOf p.toList &&
    (splitSlash p.toList).all (fun e => e != ['.', '.']) &&
    (splitSlash p.toList).getLast? == some "merged".toList

/-- The elements of the volumes directory. -/
def volumesDirElements : List (List Char) :=
  ["var".toList, "lib".toList, "union-csi-driver.union.io".toList, "volumes".toList]

/-- The capabilities of the controller service, of the node service and of the volumes
that the driver declares (`capabilities.go`). -/
def controllerCapabilities : List ControllerServiceCapability_RPC_Type :=
  [ControllerServiceCapability_RPC_CREATE_DELETE_VOLUME,
    ControllerServiceCapability_RPC_PUBLISH_UNPUBLISH_VOLUME]

/-- The variable `nodeCapabilities` of `capabilities.go`. -/
def nodeCapabilities : List NodeServiceCapability_RPC_Type := []

/-- The variable `volumeCapabilities` of `capabilities.go`. -/
def volumeCapabilities : List VolumeCapability_AccessMode_Mode :=
  [VolumeCapability_AccessMode_SINGLE_NODE_WRITER]

/-- A mount volume capability with the single node writer mode. -/
def sampleCapability : VolumeCapability :=
  ⟨some (VolumeCapability_AccessType.Mount (some (some ⟨"ext4", ["noatime"]⟩))),
    some ⟨VolumeCapability_AccessMode_SINGLE_NODE_WRITER⟩⟩

/-- A create request for the volume `v` with the capability `sampleCapability`. -/
def sampleCreateRequest : CreateVolumeRequest :=
  ⟨"v", some ⟨1024, 0⟩, [some sampleCapability], [], none, none⟩

/-- A node publish request for the volume `v`, from the source `/src` to the target
`/target`. -/
def sampleNodePublishRequest : NodePublishVolumeRequest :=
  ⟨"v", [(PathPublishContextKey, "/src")], "", "/target", some sampleCapability, false⟩

/-- A mounter whose `Publish` succeeds when it is given options, and dereferences the
nil pointer otherwise. -/
def sampleMounter : Mounter Unit :=
  ⟨fun w _ _ options =>
    match options with
    | none => (Outcome.nilDereference, w)
    | some _ => (Outcome.returned none, w)⟩

/-- The error that `Publish` returns from its check of the mount references. -/
def mountRefsError (source target : String) (refs : List String) : GoError :=
  GoError.errorf "found more than one mount reference to source %s that is not target %s: %v"
    [source, target, sprintStrings refs]

/-- A run of `Publish` fails at the check of the mount references: it returns the error
of the check, and has neither probed the target nor changed the node. -/
def failsAtMountRefsCheck {μ : Type} (run : PublishRun μ) (w : μ) (source target : String)
    (refs : List String) : Prop :=
  run.outcome = Outcome.returned (some (mountRefsError source target refs)) ∧
    run.calls = [] ∧ run.node = w

/-- A node on which the source `/src` exists and is mounted nowhere else. -/
def freshNode : NodeState := ⟨["/src"], []⟩

/-- A node on which the source `/src` is bound to `/target` and to `/other`. -/
def sharedNode : NodeState :=
  ⟨["/src", "/target", "/other"], [("/src", "/target"), ("/src", "/other")]⟩

/-- A node on which the source `/src` is bound to `/other` only. -/
def otherNode : NodeState := ⟨["/src", "/other"], [("/src", "/other")]⟩

/-- The options of a publish call with no file system type and no mount option. -/
def plainOptions : PublishOptions := ⟨"", false, []⟩

/-- What `createLowerFromSplit` does for the entries of a plan, in order, from one state
of the cluster to another: for each entry the claim lister reports a claim of that name
in the namespace of the plan and nothing is written, or the lister reports not-found and
the claim with the access modes and the storage class of the plan and the resources of
the entry is created through the client. -/
def claimsEnsured {ω : Type} (cluster : ClusterInterface ω) (split : VolumeSplit) :
    List PersistentVolumeClaimSplit → ω → ω → Prop
  | [], cl, cl1 => cl1 = cl
  | e :: rest, cl, cl1 =>
    (∃ c, cluster.claimGet cl split.Spec.Namespace e.ClaimName = .ok c ∧
      claimsEnsured cluster split rest cl cl1) ∨
    (∃ err cl2, cluster.claimGet cl split.Spec.Namespace e.ClaimName = .error err ∧
      IsNotFound err = true ∧
      cluster.claimCreate cl split.Spec.Namespace
        ⟨e.ClaimName, split.Spec.Namespace,
          ⟨split.Spec.AccessModes, e.Resources, split.Spec.StorageClassName⟩⟩ = (none, cl2) ∧
      claimsEnsured cluster split rest cl2 cl1)

/-- A cluster with the local cache of the claim informer kept apart from the state of
the API server. -/
structure CachedCluster where
  cache : List PersistentVolumeClaim
  server : ClusterState
  deriving DecidableEq, Repr

/-- The cluster behind the clients when the informer cache may lag: the claim lister
reads the cache (`getClaimLocal`), the claim client and the node lister work on the
server as in `keyedCluster`, and the cache is not refreshed during a call. -/
def cachedCluster : ClusterInterface CachedCluster where
  claimGet := fun cl ns name =>
    match List.find? (fun c => c.Namespace == ns && c.Name == name) cl.cache with
    | some c => .ok c
    | none => .error (GoError.status StatusKind.NotFound name)
  claimCreate := fun cl ns claim =>
    ((keyedCluster.claimCreate cl.server ns claim).1,
      { cl with server := (keyedCluster.claimCreate cl.server ns claim).2 })
  claimDelete := fun cl ns name =>
    ((keyedCluster.claimDelete cl.server ns name).1,
      { cl with server := (keyedCluster.claimDelete cl.server ns name).2 })
  nodeGet := fun cl name => keyedCluster.nodeGet cl.server name

/-- A cluster whose cache still lists the two claims of the volume `v` after they were
deleted on the server. -/
def staleCluster : CachedCluster :=
  ⟨[sampleClaim "v-lower0", sampleClaim "v-lower1"], ⟨[], ["nodeA"]⟩⟩

/-! ## Properties of the compatibility check and of the capacity split -/

/-- Reading a mode from the map built over the old modes. -/
theorem lookup_foldl_modes (oldModes : List PersistentVolumeAccessMode)
    (acc : List (PersistentVolumeAccessMode × Bool)) (mode : PersistentVolumeAccessMode) :
    ((oldModes.foldl (fun m mode => (mode, true) :: m) acc).lookup mode).getD false = true ↔
      mode ∈ oldModes ∨ (acc.lookup mode).getD false = true := by
  induction oldModes generalizing acc with
  | nil => simp
  | cons x xs ih =>
    rw [List.foldl_cons, ih]
    by_cases h : mode = x
    · subst h
      simp [List.lookup]
    · have hb : (mode == x) = false := by simpa using h
      simp [List.lookup, hb, h]

/-- The access mode check holds exactly when every new mode is an old mode. -/
theorem isAccessModesCompatible_iff (oldModes newModes : List PersistentVolumeAccessMode) :
    isAccessModesCompatible oldModes newModes = true ↔ ∀ mode ∈ newModes, mode ∈ oldModes := by
  unfold isAccessModesCompatible
  simp only [List.all_eq_true]
  constructor
  · intro h mode hm
    have := (lookup_foldl_modes oldModes [] mode).1 (h mode hm)
    simpa using this
  · intro h mode hm
    exact (lookup_foldl_modes oldModes [] mode).2 (Or.inl (h mode hm))

/-- The comparison `q.Cmp(y) > 0` says that `q` is the larger quantity. -/
theorem Cmp_pos_iff (q y : Quantity) : q.Cmp y > 0 ↔ y.Value < q.Value := by
  unfold Quantity.Cmp
  split_ifs <;> omega

/-- C3: for non-nil specs, `isSplitSpecCompatible old new` is true exactly when the
namespaces are equal, the storage class names are both unset or both set and equal, the
total storage capacity of `new` is not greater than that of `old`, and every access mode
of `new` occurs among the access modes of `old`; it is false as soon as one of the two
specs is nil. -/
theorem isSplitSpecCompatible_iff :
    (∀ old new : VolumeSplitSpec,
      isSplitSpecCompatible (some old) (some new) = true ↔
        (old.Namespace = new.Namespace ∧
          ((old.StorageClassName = none ∧ new.StorageClassName = none) ∨
            (∃ o n, old.StorageClassName = some o ∧ new.StorageClassName = some n ∧ o = n)) ∧
          ¬ ((new.CapacityTotal.index ResourceStorage).Value >
              (old.CapacityTotal.index ResourceStorage).Value) ∧
          ∀ mode ∈ new.AccessModes, mode ∈ old.AccessModes)) ∧
    (∀ x : Option VolumeSplitSpec,
      isSplitSpecCompatible none x = false ∧ isSplitSpecCompatible x none = false) := by
  refine ⟨?_, ?_⟩
  · intro old new
    unfold isSplitSpecCompatible
    simp only []
    by_cases hns : old.Namespace = new.Namespace
    · rcases ho : old.StorageClassName with _ | o <;>
        rcases hn : new.StorageClassName with _ | n
      · by_cases hc : (new.CapacityTotal.index ResourceStorage).Cmp
            (old.CapacityTotal.index ResourceStorage) > 0
        · have := (Cmp_pos_iff _ _).1 hc
          simp [hns, hc, this]
        · have h2 : ¬ ((old.CapacityTotal.index ResourceStorage).Value <
              (new.CapacityTotal.index ResourceStorage).Value) :=
            fun h => hc ((Cmp_pos_iff _ _).2 h)
          simp [hns, hc, h2, isAccessModesCompatible_iff]
      · simp [hns]
      · simp [hns]
      · by_cases hon : o = n
        · by_cases hc : (new.CapacityTotal.index ResourceStorage).Cmp
              (old.CapacityTotal.index ResourceStorage) > 0
          · have := (Cmp_pos_iff _ _).1 hc
            simp [hns, hc, this, hon]
          · have h2 : ¬ ((old.CapacityTotal.index ResourceStorage).Value <
                (new.CapacityTotal.index ResourceStorage).Value) :=
              fun h => hc ((Cmp_pos_iff _ _).2 h)
            simp [hns, hc, h2, hon, isAccessModesCompatible_iff]
        · simp [hns, hon]
    · simp [hns]
  · intro x
    constructor
    · simp [isSplitSpecCompatible]
    · cases x <;> simp [isSplitSpecCompatible]

/-- C4: for a capacity `C ≥ 0`, `splitQuantitySuperDuperDummy` returns exactly two
shares, each equal to the floor of `C / 2` and non-negative, whose sum lies between
`C - 1` and `C`: it is `C` for an even `C` and `C - 1` for an odd `C`. -/
theorem splitQuantity_halves (q : Quantity) (h : 0 ≤ q.Value) :
    ∃ a b : Quantity, splitQuantitySuperDuperDummy q = [a, b] ∧
      a.Value = ⌊(q.Value : ℚ) / 2⌋ ∧ b.Value = ⌊(q.Value : ℚ) / 2⌋ ∧
      0 ≤ a.Value ∧ 0 ≤ b.Value ∧
      q.Value - 1 ≤ a.Value + b.Value ∧ a.Value + b.Value ≤ q.Value ∧
      (q.Value % 2 = 0 → a.Value + b.Value = q.Value) ∧
      (q.Value % 2 = 1 → a.Value + b.Value = q.Value - 1) := by
  have ht : Int.tdiv q.Value 2 = q.Value / 2 := Int.tdiv_eq_ediv h (by norm_num)
  have hf : ⌊(q.Value : ℚ) / 2⌋ = q.Value / 2 := by
    have := Rat.floor_intCast_div_natCast q.Value 2
    simpa using this
  refine ⟨NewQuantity (Int.tdiv q.Value 2) q.Format,
    NewQuantity (Int.tdiv q.Value 2) q.Format, rfl, ?_⟩
  simp only [NewQuantity]
  rw [hf, ht]
  omega

/-- C4 at the odd capacity 1025: two shares of 512, one unit lost. -/
theorem splitQuantity_halves_witness :
    (0 : Int) ≤ (NewQuantity 1025 Format.BinarySI).Value ∧
    ∃ a b : Quantity, splitQuantitySuperDuperDummy (NewQuantity 1025 Format.BinarySI) = [a, b] ∧
      a.Value = ⌊(((NewQuantity 1025 Format.BinarySI).Value : Int) : ℚ) / 2⌋ ∧
      b.Value = ⌊(((NewQuantity 1025 Format.BinarySI).Value : Int) : ℚ) / 2⌋ ∧
      0 ≤ a.Value ∧ 0 ≤ b.Value ∧
      (NewQuantity 1025 Format.BinarySI).Value - 1 ≤ a.Value + b.Value ∧
      a.Value + b.Value ≤ (NewQuantity 1025 Format.BinarySI).Value ∧
      ((NewQuantity 1025 Format.BinarySI).Value % 2 = 0 →
        a.Value + b.Value = (NewQuantity 1025 Format.BinarySI).Value) ∧
      ((NewQuantity 1025 Format.BinarySI).Value % 2 = 1 →
        a.Value + b.Value = (NewQuantity 1025 Format.BinarySI).Value - 1) :=
  ⟨by decide, splitQuantity_halves (NewQuantity 1025 Format.BinarySI) (by decide)⟩

/-! ## Properties of the splitter over the keyed store -/

/-- The method `doCreateSplit` sends `plannedSplit` to `Create` and returns it with the
error of `Create`. -/
theorem doCreateSplit_eq {σ : Type} (s : splitter σ) (volumeId splitName : String)
    (splitSpec : VolumeSplitSpec) (st : σ) :
    s.doCreateSplit volumeId splitName splitSpec st =
      ((plannedSplit s splitName splitSpec,
        (s.unionClient.Create st (plannedSplit s splitName splitSpec)).1.2),
       (s.unionClient.Create st (plannedSplit s splitName splitSpec)).2) := by
  simp [splitter.doCreateSplit, plannedSplit, splitQuantitySuperDuperDummy, List.enum,
    List.enumFrom]

/-- A name with the split suffix differs from the name. -/
theorem append_split_ne (x : String) : x ++ "-split" ≠ x := by
  intro h
  have := congrArg String.length h
  simp [String.length_append] at this
  revert this
  decide

/-- Looking a name up after one object was added to a store that lacked the name. -/
theorem find_append_single (st : KeyedStore) (plan : VolumeSplit) (name : String)
    (h : st.find name = none) :
    KeyedStore.find (st ++ [plan]) name = if plan.Name = name then some plan else none := by
  unfold KeyedStore.find at *
  rw [List.find?_append, h]
  by_cases hn : plan.Name = name
  · simp [List.find?, hn]
  · have hb : (plan.Name == name) = false := by simpa using hn
    simp [List.find?, hn, hb]

/-- The method `GetSplit` over the keyed store, when the plan is stored. -/
theorem GetSplit_found (p volumeId : String) (st : KeyedStore) (o : VolumeSplit)
    (h : st.find (volumeId ++ "-split") = some o) :
    (NewSplitter p).GetSplit volumeId st = ((o, none), st) := by
  simp [splitter.GetSplit, splitter.makeSplitName, NewSplitter, keyedClient, h]

/-- The method `GetSplit` over the keyed store, when no plan is stored. -/
theorem GetSplit_missing (p volumeId : String) (st : KeyedStore)
    (h : st.find (volumeId ++ "-split") = none) :
    (NewSplitter p).GetSplit volumeId st =
      ((VolumeSplit.zero, some (GoError.errorfWW (GoError.sentinel UnionErr.ErrVolumeNotFound)
        (GoError.status StatusKind.NotFound (volumeId ++ "-split")))), st) := by
  simp [splitter.GetSplit, splitter.makeSplitName, NewSplitter, keyedClient, h, IsNotFound,
    statusOf]

/-- Creating an object whose name the keyed store lacks. -/
theorem keyedClient_Create_absent (st : KeyedStore) (obj : VolumeSplit)
    (h : st.find obj.Name = none) :
    keyedClient.Create st obj = ((obj, none), st ++ [obj]) := by
  simp [keyedClient, h]

/-- Creating an object whose name the keyed store holds. -/
theorem keyedClient_Create_present (st : KeyedStore) (obj o : VolumeSplit)
    (h : st.find obj.Name = some o) :
    keyedClient.Create st obj =
      ((VolumeSplit.zero, some (GoError.status StatusKind.AlreadyExists obj.Name)), st) := by
  simp [keyedClient, h]

/-- On a store that holds nothing under `id-split` nor under `id-split-split`, a call of
`CreateSplit` stores the planned object under `id-split` and returns it; any further
call for the same id looks the plan up under `id-split-split`, finds nothing, is told by
`Create` that `id-split` exists, looks under `id-split-split` again and returns the
not-found error of that lookup. -/
theorem CreateSplit_after_create (p id : String) (specA specB : VolumeSplitSpec)
    (st : KeyedStore) (h1 : st.find (id ++ "-split") = none)
    (h2 : st.find (id ++ "-split" ++ "-split") = none) :
    (NewSplitter p).CreateSplit id specA st =
        ((some (plannedSplit (NewSplitter p) (id ++ "-split") specA), none),
          st ++ [plannedSplit (NewSplitter p) (id ++ "-split") specA]) ∧
      (NewSplitter p).CreateSplit id specB
          (st ++ [plannedSplit (NewSplitter p) (id ++ "-split") specA]) =
        ((none, some (GoError.errorfWW (GoError.sentinel UnionErr.ErrVolumeNotFound)
          (GoError.status StatusKind.NotFound (id ++ "-split" ++ "-split")))),
          st ++ [plannedSplit (NewSplitter p) (id ++ "-split") specA]) := by
  have hne : ¬ (id ++ "-split" = id ++ "-split" ++ "-split") :=
    fun h => append_split_ne _ h.symm
  have hc : (NewSplitter p).unionClient = keyedClient := rfl
  constructor
  · have hn : (plannedSplit (NewSplitter p) (id ++ "-split") specA).Name = id ++ "-split" := rfl
    simp only [splitter.CreateSplit, splitter.makeSplitName]
    rw [GetSplit_missing p _ st h2]
    simp only [IsNotFound, statusOf]
    rw [doCreateSplit_eq, hc, keyedClient_Create_absent st _ (by rw [hn]; exact h1)]
    simp
  · generalize hplan : plannedSplit (NewSplitter p) (id ++ "-split") specA = plan
    have hn : plan.Name = id ++ "-split" := by rw [← hplan]; rfl
    have f1 := find_append_single st plan _ h1
    have f2 := find_append_single st plan _ h2
    rw [hn] at f1 f2
    simp only [if_true, hne, if_false] at f1 f2
    have hn2 : (plannedSplit (NewSplitter p) (id ++ "-split") specB).Name = id ++ "-split" := rfl
    simp only [splitter.CreateSplit, splitter.makeSplitName]
    rw [GetSplit_missing p _ _ f2]
    simp only [IsNotFound, statusOf]
    rw [doCreateSplit_eq, hc, keyedClient_Create_present _ _ plan (by rw [hn2]; exact f1)]
    simp [IsAlreadyExists, statusOf, GetSplit_missing p _ _ f2]

/-- C1, as the code behaves: on a store where the first `CreateSplit(id, spec)` creates
the plan, the first call succeeds and stores the plan under `id-split`, but the second
call with the identical spec does not return that plan: it returns a nil plan and an
error that is `ErrVolumeNotFound`, leaving the store as the first call left it. -/
theorem CreateSplit_repeat_fails (p id : String) (spec : VolumeSplitSpec) (st : KeyedStore)
    (h1 : st.find (id ++ "-split") = none)
    (h2 : st.find (id ++ "-split" ++ "-split") = none) :
    ((NewSplitter p).CreateSplit id spec st).1 =
        (some (plannedSplit (NewSplitter p) (id ++ "-split") spec), none) ∧
      KeyedStore.find ((NewSplitter p).CreateSplit id spec st).2 (id ++ "-split") =
        some (plannedSplit (NewSplitter p) (id ++ "-split") spec) ∧
      ((NewSplitter p).CreateSplit id spec ((NewSplitter p).CreateSplit id spec st).2).1.1 = none ∧
      (∃ e, ((NewSplitter p).CreateSplit id spec
          ((NewSplitter p).CreateSplit id spec st).2).1.2 = some e ∧
        errorsIs e UnionErr.ErrVolumeNotFound = true) ∧
      ((NewSplitter p).CreateSplit id spec ((NewSplitter p).CreateSplit id spec st).2).2 =
        ((NewSplitter p).CreateSplit id spec st).2 := by
  obtain ⟨hfirst, hsecond⟩ := CreateSplit_after_create p id spec spec st h1 h2
  have hstore : ((NewSplitter p).CreateSplit id spec st).2 =
      st ++ [plannedSplit (NewSplitter p) (id ++ "-split") spec] := by rw [hfirst]
  have hres : ((NewSplitter p).CreateSplit id spec st).1 =
      (some (plannedSplit (NewSplitter p) (id ++ "-split") spec), none) := by rw [hfirst]
  rw [hstore, hsecond, hres]
  refine ⟨rfl, ?_, rfl, ⟨_, rfl, ?_⟩, rfl⟩
  · rw [find_append_single st _ _ h1]
    simp [plannedSplit]
  · simp [errorsIs]

/-- C1 on the empty store, for the volume `v` with 1024 bytes. -/
theorem CreateSplit_repeat_fails_witness :
    KeyedStore.find [] ("v" ++ "-split") = none ∧
    KeyedStore.find [] ("v" ++ "-split" ++ "-split") = none ∧
    ((NewSplitter "").CreateSplit "v" (sampleSpec "v" 1024) []).1 =
        (some (plannedSplit (NewSplitter "") ("v" ++ "-split") (sampleSpec "v" 1024)), none) ∧
      KeyedStore.find ((NewSplitter "").CreateSplit "v" (sampleSpec "v" 1024) []).2
          ("v" ++ "-split") =
        some (plannedSplit (NewSplitter "") ("v" ++ "-split") (sampleSpec "v" 1024)) ∧
      ((NewSplitter "").CreateSplit "v" (sampleSpec "v" 1024)
        ((NewSplitter "").CreateSplit "v" (sampleSpec "v" 1024) []).2).1.1 = none ∧
      (∃ e, ((NewSplitter "").CreateSplit "v" (sampleSpec "v" 1024)
          ((NewSplitter "").CreateSplit "v" (sampleSpec "v" 1024) []).2).1.2 = some e ∧
        errorsIs e UnionErr.ErrVolumeNotFound = true) ∧
      ((NewSplitter "").CreateSplit "v" (sampleSpec "v" 1024)
        ((NewSplitter "").CreateSplit "v" (sampleSpec "v" 1024) []).2).2 =
        ((NewSplitter "").CreateSplit "v" (sampleSpec "v" 1024) []).2 :=
  ⟨rfl, rfl, CreateSplit_repeat_fails "" "v" (sampleSpec "v" 1024) [] rfl rfl⟩

/-- C2, as the code behaves: after a `CreateSplit(id, specA)` that created the plan, a
call `CreateSplit(id, specB)`, for any `specB` and so for one that asks for a strictly
larger capacity, fails and leaves the store unchanged, but its error is
`ErrVolumeNotFound` and is not `ErrIdempotencyIncompatible`. -/
theorem CreateSplit_second_spec_wrong_error (p id : String) (specA specB : VolumeSplitSpec)
    (st : KeyedStore) (h1 : st.find (id ++ "-split") = none)
    (h2 : st.find (id ++ "-split" ++ "-split") = none) :
    ((NewSplitter p).CreateSplit id specA st).1.2 = none ∧
      ((NewSplitter p).CreateSplit id specA st).1.1.isSome = true ∧
      ((NewSplitter p).CreateSplit id specB ((NewSplitter p).CreateSplit id specA st).2).1.1 =
        none ∧
      (∃ e, ((NewSplitter p).CreateSplit id specB
          ((NewSplitter p).CreateSplit id specA st).2).1.2 = some e ∧
        errorsIs e UnionErr.ErrIdempotencyIncompatible = false ∧
        errorsIs e UnionErr.ErrVolumeNotFound = true) ∧
      ((NewSplitter p).CreateSplit id specB ((NewSplitter p).CreateSplit id specA st).2).2 =
        ((NewSplitter p).CreateSplit id specA st).2 := by
  obtain ⟨hfirst, hsecond⟩ := CreateSplit_after_create p id specA specB st h1 h2
  have hstore : ((NewSplitter p).CreateSplit id specA st).2 =
      st ++ [plannedSplit (NewSplitter p) (id ++ "-split") specA] := by rw [hfirst]
  have hres : ((NewSplitter p).CreateSplit id specA st).1 =
      (some (plannedSplit (NewSplitter p) (id ++ "-split") specA), none) := by rw [hfirst]
  rw [hstore, hsecond, hres]
  refine ⟨rfl, rfl, rfl, ⟨_, rfl, ?_, ?_⟩, rfl⟩ <;> simp [errorsIs]

/-- C2 on the empty store: 1024 bytes first, then 2048 bytes for the same volume. -/
theorem CreateSplit_second_spec_wrong_error_witness :
    KeyedStore.find [] ("v" ++ "-split") = none ∧
    KeyedStore.find [] ("v" ++ "-split" ++ "-split") = none ∧
    ((NewSplitter "").CreateSplit "v" (sampleSpec "v" 1024) []).1.2 = none ∧
      ((NewSplitter "").CreateSplit "v" (sampleSpec "v" 1024) []).1.1.isSome = true ∧
      ((NewSplitter "").CreateSplit "v" (sampleSpec "v" 2048)
        ((NewSplitter "").CreateSplit "v" (sampleSpec "v" 1024) []).2).1.1 = none ∧
      (∃ e, ((NewSplitter "").CreateSplit "v" (sampleSpec "v" 2048)
          ((NewSplitter "").CreateSplit "v" (sampleSpec "v" 1024) []).2).1.2 = some e ∧
        errorsIs e UnionErr.ErrIdempotencyIncompatible = false ∧
        errorsIs e UnionErr.ErrVolumeNotFound = true) ∧
      ((NewSplitter "").CreateSplit "v" (sampleSpec "v" 2048)
        ((NewSplitter "").CreateSplit "v" (sampleSpec "v" 1024) []).2).2 =
        ((NewSplitter "").CreateSplit "v" (sampleSpec "v" 1024) []).2 :=
  ⟨rfl, rfl,
    CreateSplit_second_spec_wrong_error "" "v" (sampleSpec "v" 1024) (sampleSpec "v" 2048) []
      rfl rfl⟩

/-- C5, as the code behaves: with the plan of the volume `v-split` in the store (under
`v-split-split`) and no plan stored for the volume `v`, `CreateSplit` for `v` persists
nothing under `v-split`; it returns the plan of the other volume, whose claim entries
are named after `v-split`. -/
theorem CreateSplit_returns_plan_of_other_volume :
    KeyedStore.find ((NewSplitter "").CreateSplit "v-split" (sampleSpec "v-split" 2048) []).2
        "v-split" = none ∧
      ((NewSplitter "").CreateSplit "v" (sampleSpec "v" 1024)
        ((NewSplitter "").CreateSplit "v-split" (sampleSpec "v-split" 2048) []).2).2 =
        ((NewSplitter "").CreateSplit "v-split" (sampleSpec "v-split" 2048) []).2 ∧
      KeyedStore.find ((NewSplitter "").CreateSplit "v" (sampleSpec "v" 1024)
        ((NewSplitter "").CreateSplit "v-split" (sampleSpec "v-split" 2048) []).2).2
        "v-split" = none ∧
      ((NewSplitter "").CreateSplit "v" (sampleSpec "v" 1024)
        ((NewSplitter "").CreateSplit "v-split" (sampleSpec "v-split" 2048) []).2).1.2 = none ∧
      (((NewSplitter "").CreateSplit "v" (sampleSpec "v" 1024)
        ((NewSplitter "").CreateSplit "v-split" (sampleSpec "v-split" 2048) []).2).1.1.map
          (fun split => (split.Name, split.Spec.Splits.map (fun c => c.ClaimName)))) =
        some ("v-split-split", ["v-split-lower0", "v-split-lower1"]) := by
  decide

/-- C6: over the keyed store, `DeleteSplit` and `GetSplit` of a volume id with no stored
plan each return an error that is `ErrVolumeNotFound`; and over any client, a failure of
the client that is not a not-found is returned as it is, and is not
`ErrVolumeNotFound`. -/
theorem missing_split_is_ErrVolumeNotFound :
    (∀ (p id : String) (st : KeyedStore), st.find (id ++ "-split") = none →
      (∃ e, ((NewSplitter p).DeleteSplit id st).1 = some e ∧
        errorsIs e UnionErr.ErrVolumeNotFound = true) ∧
      (∃ e, ((NewSplitter p).GetSplit id st).1.2 = some e ∧
        errorsIs e UnionErr.ErrVolumeNotFound = true)) ∧
    (∀ (σ : Type) (s : splitter σ) (id : String) (st : σ) (e : GoError),
      e.fromClient = true → IsNotFound e = false →
      ((s.unionClient.Delete st (id ++ "-split")).1 = some e →
        (s.DeleteSplit id st).1 = some e ∧ errorsIs e UnionErr.ErrVolumeNotFound = false) ∧
      ((s.unionClient.Get st (id ++ "-split")).1.2 = some e →
        (s.GetSplit id st).1.2 = some e ∧ errorsIs e UnionErr.ErrVolumeNotFound = false)) := by
  constructor
  · intro p id st h
    constructor
    · refine ⟨GoError.errorfWW (GoError.sentinel UnionErr.ErrVolumeNotFound)
        (GoError.status StatusKind.NotFound (id ++ "-split")), ?_, by simp [errorsIs]⟩
      simp [splitter.DeleteSplit, splitter.makeSplitName, NewSplitter, keyedClient, h,
        IsNotFound, statusOf]
    · refine ⟨_, congrArg (fun r => r.1.2) (GetSplit_missing p id st h), by simp [errorsIs]⟩
  · intro σ s id st e hfrom hnf
    have his : errorsIs e UnionErr.ErrVolumeNotFound = false := by
      cases e <;> simp_all [GoError.fromClient, errorsIs]
    constructor
    · intro hd
      refine ⟨?_, his⟩
      simp [splitter.DeleteSplit, splitter.makeSplitName, hd, hnf]
    · intro hg
      refine ⟨?_, his⟩
      simp [splitter.GetSplit, splitter.makeSplitName, hg, hnf]

/-- C6 on the empty keyed store and on a client that fails with a transport error. -/
theorem missing_split_is_ErrVolumeNotFound_witness :
    ((∃ e, ((NewSplitter "").DeleteSplit "v" []).1 = some e ∧
        errorsIs e UnionErr.ErrVolumeNotFound = true) ∧
      (∃ e, ((NewSplitter "").GetSplit "v" []).1.2 = some e ∧
        errorsIs e UnionErr.ErrVolumeNotFound = true)) ∧
    ((splitter.DeleteSplit ⟨failingClient (GoError.external "connection refused"), ""⟩
          "v" ()).1 = some (GoError.external "connection refused") ∧
        errorsIs (GoError.external "connection refused") UnionErr.ErrVolumeNotFound = false) ∧
    ((splitter.GetSplit ⟨failingClient (GoError.external "connection refused"), ""⟩
          "v" ()).1.2 = some (GoError.external "connection refused") ∧
        errorsIs (GoError.external "connection refused") UnionErr.ErrVolumeNotFound = false) :=
  ⟨missing_split_is_ErrVolumeNotFound.1 "" "v" [] rfl,
    (missing_split_is_ErrVolumeNotFound.2 Unit
      ⟨failingClient (GoError.external "connection refused"), ""⟩ "v" ()
      (GoError.external "connection refused") rfl rfl).1 rfl,
    (missing_split_is_ErrVolumeNotFound.2 Unit
      ⟨failingClient (GoError.external "connection refused"), ""⟩ "v" ()
      (GoError.external "connection refused") rfl rfl).2 rfl⟩

/-! ## Properties of the attach observation loop -/

/-- The loop runs the condition at most as many times as it has steps. -/
theorem backoffLoop_le {σ ι : Type} (condition : ι → σ → σ × Bool × Option GoError)
    (env : Nat → PollStep ι) : ∀ (n i : Nat) (s : σ), (backoffLoop condition env n i s).2 ≤ n := by
  intro n
  induction n with
  | zero => intro i s; simp [backoffLoop]
  | succ n ih =>
    intro i s
    rw [backoffLoop]
    split
    · simp
    · simp only []
      split_ifs
      · omega
      · omega
      · split
        · omega
        · have := ih (i + 1) (condition (env i).observed s).1
          omega

/-- An iteration whose condition is done or fails ends the loop after one poll. -/
theorem backoffLoop_decided {σ ι : Type} (condition : ι → σ → σ × Bool × Option GoError)
    (env : Nat → PollStep ι) (n i : Nat) (s : σ) (hd : (env i).doneBefore = none)
    (h : ((condition (env i).observed s).2.2.isSome || (condition (env i).observed s).2.1) = true) :
    backoffLoop condition env (n + 1) i s =
      (((condition (env i).observed s).1, (condition (env i).observed s).2.2), 1) := by
  rw [backoffLoop]
  simp only [hd]
  rw [if_pos h]

/-- On an iteration that keeps waiting, the context is not done and the condition of
`waitForAttach` answers `(false, nil)`. -/
theorem keepsWaiting_cond (volumeId node podKey : String) (step : PollStep (Except GoError Pod))
    (h : step.keepsWaiting = true) (s : Option Pod) :
    step.doneBefore = none ∧ step.doneDuringWait = none ∧
      (waitForAttachFunc volumeId node podKey step.observed s).2 = (false, none) := by
  unfold PollStep.keepsWaiting at h
  simp only [Bool.and_eq_true, Option.isNone_iff_eq_none] at h
  obtain ⟨⟨h1, h2⟩, h3⟩ := h
  refine ⟨h1, h2, ?_⟩
  unfold waitForAttachFunc
  rcases hobs : step.observed with e | pod
  · rw [hobs] at h3
    simp at h3
    simp [h3]
  · rw [hobs] at h3
    simp at h3
    simp [h3.1, h3.2]

/-- Iterations that keep waiting are passed over: after `k` of them the loop continues
with `k` steps less, and their polls are counted. -/
theorem backoffLoop_skip (volumeId node podKey : String) (env : Nat → PollStep (Except GoError Pod)) :
    ∀ (k n i : Nat) (s : Option Pod), k < n → (∀ j, j < k → (env (i + j)).keepsWaiting = true) →
      ∃ s', backoffLoop (waitForAttachFunc volumeId node podKey) env n i s =
        ((backoffLoop (waitForAttachFunc volumeId node podKey) env (n - k) (i + k) s').1,
          (backoffLoop (waitForAttachFunc volumeId node podKey) env (n - k) (i + k) s').2 + k) := by
  intro k
  induction k with
  | zero => intro n i s _ _; exact ⟨s, by simp⟩
  | succ k ih =>
    intro n i s hk hw
    obtain ⟨m, rfl⟩ : ∃ m, n = m + 1 := ⟨n - 1, by omega⟩
    have h0 := keepsWaiting_cond volumeId node podKey (env i) (by simpa using hw 0 (by omega)) s
    obtain ⟨s', hs'⟩ := ih m (i + 1) (waitForAttachFunc volumeId node podKey (env i).observed s).1
      (by omega) (fun j hj => by
        have := hw (j + 1) (by omega)
        rwa [show i + (j + 1) = i + 1 + j by omega] at this)
    refine ⟨s', ?_⟩
    rw [backoffLoop]
    simp only [h0.1, h0.2.1]
    have hc := h0.2.2
    have hm : ¬ (m + 1 = 1) := by omega
    simp only [hc, Option.isSome_none, Bool.or_self, Bool.false_eq_true, if_false, hm]
    rw [hs']
    simp only [show m + 1 - (k + 1) = m - k by omega, show i + 1 + k = i + (k + 1) by omega]
    rfl

/-- The loop of `waitForAttach` ends either with an error that is not `ErrVolumeInUse`, or
with the captured pod set to a running pod that some poll observed. -/
theorem backoffLoop_waitForAttach_cases (volumeId node podKey : String)
    (env : Nat → PollStep (Except GoError Pod)) : ∀ (n i : Nat) (s : Option Pod),
    (∃ e, (backoffLoop (waitForAttachFunc volumeId node podKey) env n i s).1.2 = some e ∧
        errorsIs e UnionErr.ErrVolumeInUse = false) ∨
      (∃ j pod, (env j).observed = .ok pod ∧ isPodRunning pod = true ∧
        (backoffLoop (waitForAttachFunc volumeId node podKey) env n i s).1.1 = some pod) := by
  intro n
  induction n with
  | zero => intro i s; left; exact ⟨_, rfl, rfl⟩
  | succ n ih =>
    intro i s
    rw [backoffLoop]
    rcases hd : (env i).doneBefore with _ | c
    · simp only []
      rcases hobs : (env i).observed with e | pod
      · by_cases hnf : IsNotFound e = true
        · simp only [waitForAttachFunc, hnf]
          simp only [Bool.not_true, Bool.false_eq_true, if_false, Option.isSome_none, Bool.or_self]
          split_ifs
          · left; exact ⟨_, rfl, rfl⟩
          · split
            · left; exact ⟨_, rfl, rfl⟩
            · exact ih _ _
        · simp only [waitForAttachFunc, hnf]
          left
          exact ⟨_, rfl, rfl⟩
      · by_cases ht : isPodTerminating pod = true
        · simp only [waitForAttachFunc, ht]
          left
          exact ⟨_, rfl, rfl⟩
        · by_cases hr : isPodRunning pod = true
          · right
            refine ⟨i, pod, hobs, hr, ?_⟩
            simp only [waitForAttachFunc, ht, hr]
            by_cases hn : pod.Spec.NodeName = node <;> simp [hn]
          · simp only [waitForAttachFunc, ht, hr]
            simp only [Bool.not_false, Bool.false_eq_true, if_false, if_true, Option.isSome_none, Bool.or_self]
            split_ifs
            · left; exact ⟨_, rfl, rfl⟩
            · split
              · left; exact ⟨_, rfl, rfl⟩
              · exact ih _ _
    · left
      exact ⟨_, rfl, rfl⟩

/-- The method `waitForAttach` never dereferences a nil pod: it returns either a nil
attachment with an error that is not `ErrVolumeInUse`, or an attachment on the node of a
running pod that some poll observed. -/
theorem waitForAttach_cases (a : attacher) (polls : Nat → PollStep (Except GoError Pod))
    (volumeId node podName podNamespace : String) :
    (∃ e, (a.waitForAttach polls volumeId node podName podNamespace).1 =
        Outcome.returned (none, some e) ∧ errorsIs e UnionErr.ErrVolumeInUse = false) ∨
      (∃ j pod err, (polls j).observed = .ok pod ∧ isPodRunning pod = true ∧
        (a.waitForAttach polls volumeId node podName podNamespace).1 =
          Outcome.returned (some ⟨volumeId, pod.Spec.NodeName, ""⟩, err)) := by
  unfold attacher.waitForAttach ExponentialBackoffWithContext
  simp only []
  rcases backoffLoop_waitForAttach_cases volumeId node (podNamespace ++ "/" ++ podName) polls 12 0
    none with ⟨e, he, hne⟩ | ⟨j, pod, hobs, hrun, hpod⟩
  · left
    refine ⟨e, ?_, hne⟩
    simp [he, hne]
  · rcases herr : (backoffLoop (waitForAttachFunc volumeId node (podNamespace ++ "/" ++ podName))
        polls 12 0 none).1.2 with _ | e
    · right
      refine ⟨j, pod, none, hobs, hrun, ?_⟩
      simp [herr, hpod]
    · by_cases hin : errorsIs e UnionErr.ErrVolumeInUse = true
      · right
        refine ⟨j, pod, some e, hobs, hrun, ?_⟩
        simp [herr, hpod, hin]
      · left
        have hin2 : errorsIs e UnionErr.ErrVolumeInUse = false := by simpa using hin
        refine ⟨e, ?_, hin2⟩
        simp [herr, hin2]

/-- The method `waitForAttach` polls at most 12 times. -/
theorem waitForAttach_polls_le (a : attacher) (polls : Nat → PollStep (Except GoError Pod))
    (volumeId node podName podNamespace : String) :
    (a.waitForAttach polls volumeId node podName podNamespace).2 ≤ 12 := by
  unfold attacher.waitForAttach ExponentialBackoffWithContext
  simp only []
  have := backoffLoop_le (waitForAttachFunc volumeId node (podNamespace ++ "/" ++ podName)) polls
    12 0 none
  split_ifs
  · exact this
  · split <;> exact this

/-- The tail of `Attach` creates nothing, polls as `waitForAttach` does, and passes its
result on with the host path set. -/
theorem attachWait_cases (a : attacher) (env : AttachEnv) (volume : Volume) (nodeId : String)
    (created : List Pod) :
    (a.attachWait env volume nodeId created).created = created ∧
    (a.attachWait env volume nodeId created).polls =
      (a.waitForAttach env.polls volume.VolumeId nodeId
        (makeAttachPodName a.sha256Hex volume.VolumeId) volume.Namespace).2 ∧
    ((∃ e, (a.waitForAttach env.polls volume.VolumeId nodeId
          (makeAttachPodName a.sha256Hex volume.VolumeId) volume.Namespace).1 =
          Outcome.returned (none, some e) ∧
        (a.attachWait env volume nodeId created).outcome = Outcome.returned (none, some e) ∧
        errorsIs e UnionErr.ErrVolumeInUse = false) ∨
      (∃ j pod err, (env.polls j).observed = .ok pod ∧ isPodRunning pod = true ∧
        (a.waitForAttach env.polls volume.VolumeId nodeId
          (makeAttachPodName a.sha256Hex volume.VolumeId) volume.Namespace).1 =
          Outcome.returned (some ⟨volume.VolumeId, pod.Spec.NodeName, ""⟩, err) ∧
        (a.attachWait env volume nodeId created).outcome =
          Outcome.returned
            (some ⟨volume.VolumeId, pod.Spec.NodeName, makeHostPath volume.VolumeId⟩, err))) := by
  rcases waitForAttach_cases a env.polls volume.VolumeId nodeId
    (makeAttachPodName a.sha256Hex volume.VolumeId) volume.Namespace with
    ⟨e, he, hne⟩ | ⟨j, pod, err, hobs, hrun, hw⟩
  · refine ⟨?_, ?_, Or.inl ⟨e, he, ?_, hne⟩⟩ <;> simp [attacher.attachWait, he]
  · refine ⟨?_, ?_, Or.inr ⟨j, pod, err, hobs, hrun, hw, ?_⟩⟩ <;> simp [attacher.attachWait, hw]

/-- Every run of `Attach` polls at most 12 times and returns either a nil attachment with
an error that is not `ErrVolumeInUse`, or an attachment on the node of a running pod
that some poll observed. -/
theorem Attach_cases (a : attacher) (env : AttachEnv) (volume : Volume) (nodeId : String) :
    (a.Attach env volume nodeId).polls ≤ 12 ∧
    ((∃ e, (a.Attach env volume nodeId).outcome = Outcome.returned (none, some e) ∧
        errorsIs e UnionErr.ErrVolumeInUse = false) ∨
      (∃ j pod err, (env.polls j).observed = .ok pod ∧ isPodRunning pod = true ∧
        (a.Attach env volume nodeId).outcome =
          Outcome.returned
            (some ⟨volume.VolumeId, pod.Spec.NodeName, makeHostPath volume.VolumeId⟩, err))) := by
  have key : ∀ created : List Pod,
      (a.attachWait env volume nodeId created).polls ≤ 12 ∧
      ((∃ e, (a.attachWait env volume nodeId created).outcome = Outcome.returned (none, some e) ∧
          errorsIs e UnionErr.ErrVolumeInUse = false) ∨
        (∃ j pod err, (env.polls j).observed = .ok pod ∧ isPodRunning pod = true ∧
          (a.attachWait env volume nodeId created).outcome =
            Outcome.returned
              (some ⟨volume.VolumeId, pod.Spec.NodeName, makeHostPath volume.VolumeId⟩, err))) := by
    intro created
    obtain ⟨_, hp, hc⟩ := attachWait_cases a env volume nodeId created
    refine ⟨?_, ?_⟩
    · rw [hp]
      exact waitForAttach_polls_le _ _ _ _ _ _
    · rcases hc with ⟨e, _, ho, hne⟩ | ⟨j, pod, err, hobs, hrun, _, ho⟩
      · exact Or.inl ⟨e, ho, hne⟩
      · exact Or.inr ⟨j, pod, err, hobs, hrun, ho⟩
  unfold attacher.Attach
  simp only []
  rcases hg : env.listerGet with e | p0
  · simp only []
    by_cases hnf : IsNotFound e = true
    · simp only [hnf, Bool.not_true, Bool.false_eq_true, if_false]
      split
      · exact key _
      · split_ifs
        · exact key _
        · exact ⟨Nat.zero_le _, Or.inl ⟨_, rfl, rfl⟩⟩
    · have hnf2 : IsNotFound e = false := by simpa using hnf
      simp only [hnf2, Bool.not_false, if_true]
      exact ⟨Nat.zero_le _, Or.inl ⟨_, rfl, rfl⟩⟩
  · exact key _

/-- A pod in the Running phase with a non-empty node name is running and is not
terminating. -/
theorem isPodRunning_of (pod : Pod) (node : String) (hphase : pod.Status.Phase = PodRunning)
    (hnode : pod.Spec.NodeName = node) (hne : node ≠ "") :
    isPodRunning pod = true ∧ isPodTerminating pod = false := by
  have hlen : 0 < node.length := by
    rcases node with ⟨l⟩
    cases l with
    | nil => exact absurd rfl hne
    | cons c cs => simp [String.length]
  constructor
  · simp [isPodRunning, hphase, hnode, hlen]
  · simp [isPodTerminating, hphase, PodRunning, PodFailed, PodSucceeded]

/-- When the first poll finds a running pod, `waitForAttach` returns after that poll with
the node of the pod, and with `ErrVolumeInUse` exactly when that node is not the
expected one. -/
theorem waitForAttach_first_poll_running (a : attacher)
    (polls : Nat → PollStep (Except GoError Pod)) (volumeId node podName podNamespace : String)
    (pod : Pod) (hd : (polls 0).doneBefore = none) (hobs : (polls 0).observed = .ok pod)
    (hrun : isPodRunning pod = true) (hterm : isPodTerminating pod = false) :
    a.waitForAttach polls volumeId node podName podNamespace =
      (Outcome.returned (some ⟨volumeId, pod.Spec.NodeName, ""⟩,
        if pod.Spec.NodeName ≠ node then some (GoError.sentinel UnionErr.ErrVolumeInUse)
        else none), 1) := by
  unfold attacher.waitForAttach ExponentialBackoffWithContext
  simp only []
  have hcond : waitForAttachFunc volumeId node (podNamespace ++ "/" ++ podName)
      (polls 0).observed none =
      (some pod, true, if pod.Spec.NodeName ≠ node then
        some (GoError.sentinel UnionErr.ErrVolumeInUse) else none) := by
    rw [hobs]
    by_cases hn : pod.Spec.NodeName = node <;> simp [waitForAttachFunc, hrun, hterm, hn]
  rw [backoffLoop_decided _ _ 11 0 none hd (by rw [hcond]; simp)]
  rw [hcond]
  by_cases hn : pod.Spec.NodeName = node <;> simp [hn, errorsIs]

/-- C7: for distinct nodes `nodeA` and `nodeB`, when the delegate unit of the volume is
in the Running phase on node `nodeB` (a unit on a node has a non-empty node name) and
the lister reports it on entry and at the first poll of a context that is not done,
`Attach(volume, nodeA)` creates no unit and returns `ErrVolumeInUse` together with a
non-nil attachment whose `NodeId` is `nodeB`. -/
theorem Attach_running_elsewhere (a : attacher) (env : AttachEnv) (volume : Volume)
    (nodeA nodeB : String) (pod : Pod) (hne : nodeA ≠ nodeB) (hB : nodeB ≠ "")
    (hphase : pod.Status.Phase = PodRunning) (hnode : pod.Spec.NodeName = nodeB)
    (hget : env.listerGet = .ok pod) (hd : (env.polls 0).doneBefore = none)
    (hobs : (env.polls 0).observed = .ok pod) :
    (a.Attach env volume nodeA).created = [] ∧
      (a.Attach env volume nodeA).outcome =
        Outcome.returned (some ⟨volume.VolumeId, nodeB, makeHostPath volume.VolumeId⟩,
          some (GoError.sentinel UnionErr.ErrVolumeInUse)) ∧
      errorsIs (GoError.sentinel UnionErr.ErrVolumeInUse) UnionErr.ErrVolumeInUse = true := by
  obtain ⟨hrun, hterm⟩ := isPodRunning_of pod nodeB hphase hnode hB
  have hw := waitForAttach_first_poll_running a env.polls volume.VolumeId nodeA
    (makeAttachPodName a.sha256Hex volume.VolumeId) volume.Namespace pod hd hobs hrun hterm
  have hne2 : pod.Spec.NodeName ≠ nodeA := by rw [hnode]; exact fun h => hne h.symm
  rw [if_pos hne2] at hw
  unfold attacher.Attach
  simp only [hget]
  refine ⟨?_, ?_, by simp [errorsIs]⟩ <;> simp [attacher.attachWait, hw, hnode]

/-- When the unit is running on the requested node, `Attach` creates nothing and returns
the attachment of the volume on that node. -/
theorem Attach_on_requested_node (a : attacher) (env : AttachEnv) (volume : Volume)
    (nodeA : String) (pod : Pod) (hA : nodeA ≠ "")
    (hphase : pod.Status.Phase = PodRunning) (hnode : pod.Spec.NodeName = nodeA)
    (hget : env.listerGet = .ok pod) (hd : (env.polls 0).doneBefore = none)
    (hobs : (env.polls 0).observed = .ok pod) :
    (a.Attach env volume nodeA).created = [] ∧
      (a.Attach env volume nodeA).outcome =
        Outcome.returned (some ⟨volume.VolumeId, nodeA, makeHostPath volume.VolumeId⟩, none) := by
  obtain ⟨hrun, hterm⟩ := isPodRunning_of pod nodeA hphase hnode hA
  have hw := waitForAttach_first_poll_running a env.polls volume.VolumeId nodeA
    (makeAttachPodName a.sha256Hex volume.VolumeId) volume.Namespace pod hd hobs hrun hterm
  have hne2 : ¬ (pod.Spec.NodeName ≠ nodeA) := by simp [hnode]
  rw [if_neg hne2] at hw
  unfold attacher.Attach
  simp only [hget]
  refine ⟨?_, ?_⟩ <;> simp [attacher.attachWait, hw, hnode]

/-- C8: when the delegate unit of the volume is in the Running phase on node `nodeA` (a
non-empty node name) and the lister reports it on entry and at the first poll of a
context that is not done, `Attach(volume, nodeA)` issues no create and returns a nil
error with the attachment made of the volume id, `nodeA` and `makeHostPath` of the
volume id; two such calls, in any two such environments, return equal attachments. -/
theorem Attach_running_here (a : attacher) (env env2 : AttachEnv) (volume : Volume)
    (nodeA : String) (pod pod2 : Pod) (hA : nodeA ≠ "")
    (hphase : pod.Status.Phase = PodRunning) (hnode : pod.Spec.NodeName = nodeA)
    (hget : env.listerGet = .ok pod) (hd : (env.polls 0).doneBefore = none)
    (hobs : (env.polls 0).observed = .ok pod)
    (hphase2 : pod2.Status.Phase = PodRunning) (hnode2 : pod2.Spec.NodeName = nodeA)
    (hget2 : env2.listerGet = .ok pod2) (hd2 : (env2.polls 0).doneBefore = none)
    (hobs2 : (env2.polls 0).observed = .ok pod2) :
    (a.Attach env volume nodeA).created = [] ∧
      (a.Attach env volume nodeA).outcome =
        Outcome.returned (some ⟨volume.VolumeId, nodeA, makeHostPath volume.VolumeId⟩, none) ∧
      (a.Attach env2 volume nodeA).created = [] ∧
      (a.Attach env2 volume nodeA).outcome = (a.Attach env volume nodeA).outcome := by
  obtain ⟨h1, h2⟩ := Attach_on_requested_node a env volume nodeA pod hA hphase hnode hget hd hobs
  obtain ⟨h3, h4⟩ :=
    Attach_on_requested_node a env2 volume nodeA pod2 hA hphase2 hnode2 hget2 hd2 hobs2
  exact ⟨h1, h2, h3, by rw [h4, h2]⟩

/-- When the polls before the `k`-th keep waiting and the `k`-th finds a terminating pod,
`waitForAttach` returns after that poll with the terminating error. -/
theorem waitForAttach_terminating (a : attacher)
    (polls : Nat → PollStep (Except GoError Pod)) (volumeId node podName podNamespace : String)
    (k : Nat) (pod : Pod) (hk : k < 12) (hw : ∀ j, j < k → (polls j).keepsWaiting = true)
    (hd : (polls k).doneBefore = none) (hobs : (polls k).observed = .ok pod)
    (hterm : isPodTerminating pod = true) :
    a.waitForAttach polls volumeId node podName podNamespace =
      (Outcome.returned (none,
        some (GoError.errorf "attach pod %q for volume %q is terminating"
          [podNamespace ++ "/" ++ podName, volumeId])), k + 1) := by
  unfold attacher.waitForAttach ExponentialBackoffWithContext
  simp only []
  obtain ⟨s', hs'⟩ := backoffLoop_skip volumeId node (podNamespace ++ "/" ++ podName) polls k 12 0
    none hk (fun j hj => by simpa using hw j hj)
  have hcond : waitForAttachFunc volumeId node (podNamespace ++ "/" ++ podName)
      (polls k).observed s' =
      (some pod, false, some (GoError.errorf "attach pod %q for volume %q is terminating"
          [podNamespace ++ "/" ++ podName, volumeId])) := by
    rw [hobs]
    simp [waitForAttachFunc, hterm]
  obtain ⟨m, hm⟩ : ∃ m, 12 - k = m + 1 := ⟨12 - k - 1, by omega⟩
  have hd2 : (polls (0 + k)).doneBefore = none := by simpa using hd
  have hcond2 : waitForAttachFunc volumeId node (podNamespace ++ "/" ++ podName)
      (polls (0 + k)).observed s' =
      (some pod, false, some (GoError.errorf "attach pod %q for volume %q is terminating"
          [podNamespace ++ "/" ++ podName, volumeId])) := by simpa using hcond
  rw [hs', hm, backoffLoop_decided _ _ m (0 + k) s' hd2 (by rw [hcond2]; simp), hcond2]
  simp [errorsIs, Nat.add_comm]

/-- C9: when the polls before the `k`-th keep waiting and the `k`-th poll (`k < 12`)
finds the delegate unit with phase Failed or Succeeded, whatever node it is assigned to,
the wait ends at that poll with the terminating error, and `Attach` returns a nil
attachment and a non-nil error that is not `ErrVolumeInUse`, after at most `k + 1`
polls. -/
theorem Attach_terminating_aborts (a : attacher) (env : AttachEnv) (volume : Volume)
    (nodeId : String) (k : Nat) (pod : Pod) (hk : k < 12)
    (hw : ∀ j, j < k → (env.polls j).keepsWaiting = true)
    (hd : (env.polls k).doneBefore = none) (hobs : (env.polls k).observed = .ok pod)
    (hphase : pod.Status.Phase = PodFailed ∨ pod.Status.Phase = PodSucceeded) :
    a.waitForAttach env.polls volume.VolumeId nodeId
        (makeAttachPodName a.sha256Hex volume.VolumeId) volume.Namespace =
      (Outcome.returned (none,
        some (GoError.errorf "attach pod %q for volume %q is terminating"
          [volume.Namespace ++ "/" ++ makeAttachPodName a.sha256Hex volume.VolumeId,
            volume.VolumeId])), k + 1) ∧
    (∃ e, (a.Attach env volume nodeId).outcome = Outcome.returned (none, some e) ∧
      errorsIs e UnionErr.ErrVolumeInUse = false) ∧
    (a.Attach env volume nodeId).polls ≤ k + 1 := by
  have hterm : isPodTerminating pod = true := by
    rcases hphase with h | h <;> simp [isPodTerminating, h]
  have hwait := waitForAttach_terminating a env.polls volume.VolumeId nodeId
    (makeAttachPodName a.sha256Hex volume.VolumeId) volume.Namespace k pod hk hw hd hobs hterm
  have key : ∀ created : List Pod,
      (∃ e, (a.attachWait env volume nodeId created).outcome = Outcome.returned (none, some e) ∧
        errorsIs e UnionErr.ErrVolumeInUse = false) ∧
      (a.attachWait env volume nodeId created).polls ≤ k + 1 := by
    intro created
    refine ⟨⟨GoError.errorf "attach pod %q for volume %q is terminating"
      [volume.Namespace ++ "/" ++ makeAttachPodName a.sha256Hex volume.VolumeId,
        volume.VolumeId], ?_, rfl⟩, ?_⟩
    · simp only [attacher.attachWait, hwait]
    · simp [attacher.attachWait, hwait]
  refine ⟨hwait, ?_⟩
  unfold attacher.Attach
  simp only []
  rcases hg : env.listerGet with e | p0
  · simp only []
    by_cases hnf : IsNotFound e = true
    · simp only [hnf, Bool.not_true, Bool.false_eq_true, if_false]
      split
      · exact key _
      · split_ifs
        · exact key _
        · exact ⟨⟨_, rfl, rfl⟩, Nat.zero_le _⟩
    · have hnf2 : IsNotFound e = false := by simpa using hnf
      simp only [hnf2, Bool.not_false, if_true]
      exact ⟨⟨_, rfl, rfl⟩, Nat.zero_le _⟩
  · exact key _

/-- C10: `Attach` polls the delegate unit at most 12 times; and when every poll finds the
unit absent or not running, whatever the context does, `Attach` returns a nil attachment
and a non-nil error that is not `ErrVolumeInUse`. -/
theorem Attach_bounded_wait :
    (∀ (a : attacher) (env : AttachEnv) (volume : Volume) (nodeId : String),
      (a.Attach env volume nodeId).polls ≤ 12) ∧
    (∀ (a : attacher) (env : AttachEnv) (volume : Volume) (nodeId : String),
      (∀ j, match (env.polls j).observed with
        | .error e => IsNotFound e = true
        | .ok pod => isPodRunning pod = false) →
      ∃ e, (a.Attach env volume nodeId).outcome = Outcome.returned (none, some e) ∧
        errorsIs e UnionErr.ErrVolumeInUse = false) := by
  refine ⟨fun a env volume nodeId => (Attach_cases a env volume nodeId).1, ?_⟩
  intro a env volume nodeId h
  rcases (Attach_cases a env volume nodeId).2 with hc | ⟨j, pod, err, hobs, hrun, _⟩
  · exact hc
  · have := h j
    rw [hobs] at this
    simp only [] at this
    rw [hrun] at this
    exact absurd this (by decide)

/-- C7 on a unit running on `nodeB` while the attachment is requested on `nodeA`. -/
theorem Attach_running_elsewhere_witness :
    "nodeA" ≠ "nodeB" ∧ (samplePod PodRunning "nodeB").Status.Phase = PodRunning ∧
    (sampleAttacher.Attach (steadyEnv (.ok (samplePod PodRunning "nodeB"))) sampleVolume
        "nodeA").created = [] ∧
      (sampleAttacher.Attach (steadyEnv (.ok (samplePod PodRunning "nodeB"))) sampleVolume
        "nodeA").outcome =
        Outcome.returned (some ⟨sampleVolume.VolumeId, "nodeB",
          makeHostPath sampleVolume.VolumeId⟩,
          some (GoError.sentinel UnionErr.ErrVolumeInUse)) ∧
      errorsIs (GoError.sentinel UnionErr.ErrVolumeInUse) UnionErr.ErrVolumeInUse = true :=
  ⟨by decide, rfl,
    Attach_running_elsewhere sampleAttacher (steadyEnv (.ok (samplePod PodRunning "nodeB")))
      sampleVolume "nodeA" "nodeB" (samplePod PodRunning "nodeB") (by decide) (by decide)
      rfl rfl rfl rfl rfl⟩

/-- C8 on a unit running on `nodeA`, seen in two environments that differ in what a
create would answer and in the later polls. -/
theorem Attach_running_here_witness :
    (samplePod PodRunning "nodeA").Spec.NodeName = "nodeA" ∧
    (sampleAttacher.Attach (steadyEnv (.ok (samplePod PodRunning "nodeA"))) sampleVolume
        "nodeA").created = [] ∧
      (sampleAttacher.Attach (steadyEnv (.ok (samplePod PodRunning "nodeA"))) sampleVolume
        "nodeA").outcome =
        Outcome.returned (some ⟨sampleVolume.VolumeId, "nodeA",
          makeHostPath sampleVolume.VolumeId⟩, none) ∧
      (sampleAttacher.Attach
        ⟨.ok (samplePod PodRunning "nodeA"), fun _ => some (GoError.external "refused"),
          fun j => ⟨if j = 0 then none else some CtxErr.Canceled,
            .ok (samplePod PodRunning "nodeA"), none⟩⟩
        sampleVolume "nodeA").created = [] ∧
      (sampleAttacher.Attach
        ⟨.ok (samplePod PodRunning "nodeA"), fun _ => some (GoError.external "refused"),
          fun j => ⟨if j = 0 then none else some CtxErr.Canceled,
            .ok (samplePod PodRunning "nodeA"), none⟩⟩
        sampleVolume "nodeA").outcome =
        (sampleAttacher.Attach (steadyEnv (.ok (samplePod PodRunning "nodeA"))) sampleVolume
          "nodeA").outcome :=
  ⟨rfl,
    Attach_running_here sampleAttacher (steadyEnv (.ok (samplePod PodRunning "nodeA")))
      ⟨.ok (samplePod PodRunning "nodeA"), fun _ => some (GoError.external "refused"),
        fun j => ⟨if j = 0 then none else some CtxErr.Canceled,
          .ok (samplePod PodRunning "nodeA"), none⟩⟩
      sampleVolume "nodeA" (samplePod PodRunning "nodeA") (samplePod PodRunning "nodeA")
      (by decide) rfl rfl rfl rfl rfl rfl rfl rfl rfl rfl⟩

/-- C9 on a unit that is absent at the first poll, pending at the second and failed, on
the requested node, at the third. -/
theorem Attach_terminating_aborts_witness :
    (samplePod PodFailed "nodeA").Status.Phase = PodFailed ∧
    sampleAttacher.waitForAttach
        (fun j => ⟨none,
          if j = 0 then .error (GoError.status StatusKind.NotFound "attach-pod-v")
          else if j = 1 then .ok (samplePod PodPending "")
          else .ok (samplePod PodFailed "nodeA"), none⟩)
        sampleVolume.VolumeId "nodeA"
        (makeAttachPodName sampleAttacher.sha256Hex sampleVolume.VolumeId)
        sampleVolume.Namespace =
      (Outcome.returned (none,
        some (GoError.errorf "attach pod %q for volume %q is terminating"
          [sampleVolume.Namespace ++ "/" ++
            makeAttachPodName sampleAttacher.sha256Hex sampleVolume.VolumeId,
            sampleVolume.VolumeId])), 2 + 1) ∧
    (∃ e, (sampleAttacher.Attach
        ⟨.error (GoError.status StatusKind.NotFound "attach-pod-v"), fun _ => none,
          fun j => ⟨none,
            if j = 0 then .error (GoError.status StatusKind.NotFound "attach-pod-v")
            else if j = 1 then .ok (samplePod PodPending "")
            else .ok (samplePod PodFailed "nodeA"), none⟩⟩
        sampleVolume "nodeA").outcome = Outcome.returned (none, some e) ∧
      errorsIs e UnionErr.ErrVolumeInUse = false) ∧
    (sampleAttacher.Attach
        ⟨.error (GoError.status StatusKind.NotFound "attach-pod-v"), fun _ => none,
          fun j => ⟨none,
            if j = 0 then .error (GoError.status StatusKind.NotFound "attach-pod-v")
            else if j = 1 then .ok (samplePod PodPending "")
            else .ok (samplePod PodFailed "nodeA"), none⟩⟩
        sampleVolume "nodeA").polls ≤ 2 + 1 :=
  ⟨rfl,
    Attach_terminating_aborts sampleAttacher
      ⟨.error (GoError.status StatusKind.NotFound "attach-pod-v"), fun _ => none,
        fun j => ⟨none,
          if j = 0 then .error (GoError.status StatusKind.NotFound "attach-pod-v")
          else if j = 1 then .ok (samplePod PodPending "")
          else .ok (samplePod PodFailed "nodeA"), none⟩⟩
      sampleVolume "nodeA" 2 (samplePod PodFailed "nodeA") (by decide) (by decide) rfl rfl
      (Or.inl rfl)⟩

/-- C10 on a unit that no poll ever finds. -/
theorem Attach_bounded_wait_witness :
    (sampleAttacher.Attach
        (steadyEnv (.error (GoError.status StatusKind.NotFound "attach-pod-v")))
        sampleVolume "nodeA").polls ≤ 12 ∧
    ∃ e, (sampleAttacher.Attach
        (steadyEnv (.error (GoError.status StatusKind.NotFound "attach-pod-v")))
        sampleVolume "nodeA").outcome = Outcome.returned (none, some e) ∧
      errorsIs e UnionErr.ErrVolumeInUse = false :=
  ⟨Attach_bounded_wait.1 sampleAttacher
      (steadyEnv (.error (GoError.status StatusKind.NotFound "attach-pod-v")))
      sampleVolume "nodeA",
    Attach_bounded_wait.2 sampleAttacher
      (steadyEnv (.error (GoError.status StatusKind.NotFound "attach-pod-v")))
      sampleVolume "nodeA" (fun _ => rfl)⟩

/-! ## Properties of the detach path -/

/-- Iterations on which the condition answers `(false, nil)` and the context is not done
are passed over, for any condition: after `k` of them the loop continues with `k` steps
less, and their polls are counted. -/
theorem backoffLoop_pass {σ ι : Type} (condition : ι → σ → σ × Bool × Option GoError)
    (env : Nat → PollStep ι) :
    ∀ (k n i : Nat) (s : σ), k < n →
      (∀ j, j < k → (env (i + j)).doneBefore = none ∧ (env (i + j)).doneDuringWait = none ∧
        ∀ t, (condition (env (i + j)).observed t).2 = (false, none)) →
      ∃ s', backoffLoop condition env n i s =
        ((backoffLoop condition env (n - k) (i + k) s').1,
          (backoffLoop condition env (n - k) (i + k) s').2 + k) := by
  intro k
  induction k with
  | zero => intro n i s _ _; exact ⟨s, by simp⟩
  | succ k ih =>
    intro n i s hk hw
    obtain ⟨m, rfl⟩ : ∃ m, n = m + 1 := ⟨n - 1, by omega⟩
    obtain ⟨h1, h2, h3⟩ := hw 0 (by omega)
    simp only [Nat.add_zero] at h1 h2 h3
    obtain ⟨s', hs'⟩ := ih m (i + 1) (condition (env i).observed s).1
      (by omega) (fun j hj => by
        have := hw (j + 1) (by omega)
        rwa [show i + (j + 1) = i + 1 + j by omega] at this)
    refine ⟨s', ?_⟩
    rw [backoffLoop]
    simp only [h1, h2]
    have hc := h3 s
    have hm : ¬ (m + 1 = 1) := by omega
    simp only [hc, Option.isSome_none, Bool.or_self, Bool.false_eq_true, if_false, hm]
    rw [hs']
    simp only [show m + 1 - (k + 1) = m - k by omega, show i + 1 + k = i + (k + 1) by omega]
    rfl

/-- When the loop returns a nil error, one of its polls made the condition answer
`(true, nil)`. -/
theorem backoffLoop_nil {σ ι : Type} (condition : ι → σ → σ × Bool × Option GoError)
    (env : Nat → PollStep ι) :
    ∀ (n i : Nat) (s : σ), (backoffLoop condition env n i s).1.2 = none →
      ∃ j t, i ≤ j ∧ j < i + (backoffLoop condition env n i s).2 ∧
        (condition (env j).observed t).2 = (true, none) := by
  intro n
  induction n with
  | zero => intro i s h; simp [backoffLoop] at h
  | succ n ih =>
    intro i s
    rw [backoffLoop]
    rcases hd : (env i).doneBefore with _ | c
    · simp only []
      rcases hc : condition (env i).observed s with ⟨s1, ok, err⟩
      simp only []
      by_cases h1 : (err.isSome || ok) = true
      · rw [if_pos h1]
        intro herr
        simp only [] at herr
        subst herr
        simp only [Option.isSome_none, Bool.false_or] at h1
        subst h1
        exact ⟨i, s, le_refl _, by omega, by rw [hc]⟩
      · rw [if_neg h1]
        split_ifs
        · intro herr; simp at herr
        · split
          · intro herr; simp at herr
          · intro herr
            obtain ⟨j, t, h1, h2, h3⟩ := ih (i + 1) s1 herr
            exact ⟨j, t, by omega, by simp only []; omega, h3⟩
    · intro herr
      simp at herr

/-- A string of length zero is the empty string. -/
theorem string_length_zero (x : String) : x.length = 0 ↔ x = "" := by
  rcases x with ⟨l⟩
  cases l with
  | nil => simp [String.length]
  | cons c cs =>
    simp only [String.length, List.length_cons, Nat.add_one_ne_zero, false_iff]
    intro h
    have := congrArg String.data h
    simp at this

/-- The method `waitForDetach` polls at most 12 times. -/
theorem waitForDetach_polls_le (a : attacher) (polls : Nat → PollStep (Except GoError Pod))
    (volumeId node podName podNamespace : String) :
    (a.waitForDetach polls volumeId node podName podNamespace).2 ≤ 12 := by
  unfold attacher.waitForDetach ExponentialBackoffWithContext
  exact backoffLoop_le _ polls 12 0 ()

/-- When `waitForDetach` returns nil, one of its polls found the pod absent. -/
theorem waitForDetach_nil (a : attacher) (polls : Nat → PollStep (Except GoError Pod))
    (volumeId node podName podNamespace : String)
    (h : (a.waitForDetach polls volumeId node podName podNamespace).1 = none) :
    ∃ j e, j < (a.waitForDetach polls volumeId node podName podNamespace).2 ∧
      (polls j).observed = .error e ∧ IsNotFound e = true := by
  unfold attacher.waitForDetach ExponentialBackoffWithContext at h ⊢
  simp only [] at h ⊢
  obtain ⟨j, t, _, h2, h3⟩ := backoffLoop_nil _ polls 12 0 () h
  refine ⟨j, ?_⟩
  rcases hobs : (polls j).observed with e | pod
  · refine ⟨e, by omega, rfl, ?_⟩
    rw [hobs] at h3
    by_cases hnf : IsNotFound e = true
    · exact hnf
    · simp [waitForDetachFunc, hnf] at h3
  · rw [hobs] at h3
    by_cases hn : pod.Spec.NodeName = node <;> simp [waitForDetachFunc, hn] at h3

/-- When the polls before the `k`-th still find the pod on the expected node and the
`k`-th finds it with another node name, `waitForDetach` returns
`ErrAttachmentNotFound` after that poll. -/
theorem waitForDetach_mismatch (a : attacher) (polls : Nat → PollStep (Except GoError Pod))
    (volumeId node podName podNamespace : String) (k : Nat) (pod : Pod) (hk : k < 12)
    (hw : ∀ j, j < k → (polls j).stillThere node = true)
    (hd : (polls k).doneBefore = none) (hobs : (polls k).observed = .ok pod)
    (hne : pod.Spec.NodeName ≠ node) :
    a.waitForDetach polls volumeId node podName podNamespace =
      (some (GoError.sentinel UnionErr.ErrAttachmentNotFound), k + 1) := by
  unfold attacher.waitForDetach ExponentialBackoffWithContext
  simp only []
  obtain ⟨s', hs'⟩ := backoffLoop_pass
    (waitForDetachFunc volumeId node (podNamespace ++ "/" ++ podName)) polls k 12 0 () hk
    (fun j hj => by
      have h := hw j hj
      unfold PollStep.stillThere at h
      simp only [Bool.and_eq_true, Option.isNone_iff_eq_none] at h
      obtain ⟨⟨h1, h2⟩, h3⟩ := h
      simp only [Nat.zero_add]
      refine ⟨h1, h2, ?_⟩
      intro t
      rcases hobs : (polls j).observed with e | p
      · rw [hobs] at h3; simp at h3
      · rw [hobs] at h3
        simp only [decide_eq_true_eq] at h3
        simp [waitForDetachFunc, h3])
  obtain ⟨m, hm⟩ : ∃ m, 12 - k = m + 1 := ⟨12 - k - 1, by omega⟩
  have hd2 : (polls (0 + k)).doneBefore = none := by simpa using hd
  have hcond : waitForDetachFunc volumeId node (podNamespace ++ "/" ++ podName)
      (polls (0 + k)).observed s' =
      ((), false, some (GoError.sentinel UnionErr.ErrAttachmentNotFound)) := by
    simp only [Nat.zero_add, hobs]
    simp [waitForDetachFunc, hne]
  rw [hs', hm, backoffLoop_decided _ _ m (0 + k) s' hd2 (by rw [hcond]; simp), hcond]
  simp [Nat.add_comm]

/-- C11: when no delegate unit exists for the volume, or the unit has an empty node
name, or the node name of the unit differs from the requested node id, `Detach` returns
an error that is `ErrAttachmentNotFound`, requests no deletion and does not poll. -/
theorem Detach_not_attached (a : attacher) (env : DetachEnv) (volume : Volume)
    (nodeId : String)
    (h : (∃ e, env.listerGet = .error e ∧ IsNotFound e = true) ∨
      (∃ pod, env.listerGet = .ok pod ∧ pod.Spec.NodeName = "") ∨
      (∃ pod, env.listerGet = .ok pod ∧ pod.Spec.NodeName ≠ nodeId)) :
    (∃ e, (a.Detach env volume nodeId).err = some e ∧
      errorsIs e UnionErr.ErrAttachmentNotFound = true) ∧
    (a.Detach env volume nodeId).deleted = [] ∧
    (a.Detach env volume nodeId).polls = 0 := by
  unfold attacher.Detach
  simp only []
  rcases h with ⟨e, hg, hnf⟩ | ⟨pod, hg, hn⟩ | ⟨pod, hg, hn⟩
  · simp [hg, hnf, errorsIs]
  · simp [hg, hn, errorsIs]
  · rw [hg]
    simp only []
    by_cases h0 : pod.Spec.NodeName.length = 0
    · simp [h0, errorsIs]
    · simp [h0, hn, errorsIs]

/-- C12: when the delegate unit is scheduled on the requested node, `Detach` polls at
most 12 times; it returns nil only if one of its polls, which all come after the delete
step, found the unit absent, and then the delete it requested (none for a unit that was
already being deleted) had succeeded; and when the polls before the `k`-th still find
the unit on the requested node and the `k`-th poll finds it with another node name,
`Detach` returns `ErrAttachmentNotFound` right after that poll. -/
theorem Detach_waits_for_removal (a : attacher) (env : DetachEnv) (volume : Volume)
    (nodeId : String) (pod : Pod) (hget : env.listerGet = .ok pod)
    (hnode : pod.Spec.NodeName = nodeId) (hne : nodeId ≠ "") :
    (a.Detach env volume nodeId).polls ≤ 12 ∧
    ((a.Detach env volume nodeId).err = none →
      (∃ j e, j < (a.Detach env volume nodeId).polls ∧
        (env.polls j).observed = .error e ∧ IsNotFound e = true) ∧
      (pod.DeletionTimestamp = none →
        env.delete = none ∧
        (a.Detach env volume nodeId).deleted =
          [makeAttachPodName a.sha256Hex volume.VolumeId])) ∧
    (∀ (k : Nat) (seen : Pod), k < 12 →
      (pod.DeletionTimestamp = none → env.delete = none) →
      (∀ j, j < k → (env.polls j).stillThere nodeId = true) →
      (env.polls k).doneBefore = none → (env.polls k).observed = .ok seen →
      seen.Spec.NodeName ≠ nodeId →
      (a.Detach env volume nodeId).err =
          some (GoError.sentinel UnionErr.ErrAttachmentNotFound) ∧
        errorsIs (GoError.sentinel UnionErr.ErrAttachmentNotFound)
          UnionErr.ErrAttachmentNotFound = true ∧
        (a.Detach env volume nodeId).polls = k + 1) := by
  have hlen : ¬ (pod.Spec.NodeName.length = 0) := by
    rw [string_length_zero, hnode]; exact hne
  have hnn : ¬ (pod.Spec.NodeName ≠ nodeId) := by simp [hnode]
  have hple := waitForDetach_polls_le a env.polls volume.VolumeId nodeId
    (makeAttachPodName a.sha256Hex volume.VolumeId) volume.Namespace
  unfold attacher.Detach
  simp only [hget, hlen, hnn, if_false]
  rcases hdt : pod.DeletionTimestamp with _ | ts
  · simp only [Option.isNone_none, if_true]
    rcases hdel : env.delete with _ | e
    · simp only []
      refine ⟨hple, ?_, ?_⟩
      · intro herr
        refine ⟨waitForDetach_nil a env.polls _ _ _ _ herr, ?_⟩
        intro _
        constructor <;> first | rfl | trivial
      · intro k seen hk _ hw hd hobs hsn
        rw [waitForDetach_mismatch a env.polls _ nodeId _ _ k seen hk hw hd hobs hsn]
        exact ⟨rfl, by simp [errorsIs], rfl⟩
    · simp only []
      refine ⟨?_, ?_, ?_⟩
      · split_ifs <;> simp
      · split_ifs <;> simp
      · intro k seen _ hdel2
        have : (some e : Option GoError) = none := by
          first | exact hdel2 rfl | exact hdel2 trivial
        simp at this
  · simp only [Option.isNone_some, Bool.false_eq_true, if_false]
    refine ⟨hple, ?_, ?_⟩
    · intro herr
      exact ⟨waitForDetach_nil a env.polls _ _ _ _ herr, fun h => by simp at h⟩
    · intro k seen hk _ hw hd hobs hsn
      rw [waitForDetach_mismatch a env.polls _ nodeId _ _ k seen hk hw hd hobs hsn]
      exact ⟨rfl, by simp [errorsIs], rfl⟩

/-- C11 on the three cases: no unit, a unit that is not scheduled, a unit on `nodeB`
while the detachment is requested from `nodeA`. -/
theorem Detach_not_attached_witness :
    ((∃ e, (sampleAttacher.Detach
          (detachEnv (.error (GoError.status StatusKind.NotFound "attach-pod-v"))
            (fun _ => .error (GoError.status StatusKind.NotFound "attach-pod-v")))
          sampleVolume "nodeA").err = some e ∧
        errorsIs e UnionErr.ErrAttachmentNotFound = true) ∧
      (sampleAttacher.Detach
          (detachEnv (.error (GoError.status StatusKind.NotFound "attach-pod-v"))
            (fun _ => .error (GoError.status StatusKind.NotFound "attach-pod-v")))
          sampleVolume "nodeA").deleted = [] ∧
      (sampleAttacher.Detach
          (detachEnv (.error (GoError.status StatusKind.NotFound "attach-pod-v"))
            (fun _ => .error (GoError.status StatusKind.NotFound "attach-pod-v")))
          sampleVolume "nodeA").polls = 0) ∧
    ((∃ e, (sampleAttacher.Detach
          (detachEnv (.ok (samplePod PodPending "")) (fun _ => .ok (samplePod PodPending "")))
          sampleVolume "nodeA").err = some e ∧
        errorsIs e UnionErr.ErrAttachmentNotFound = true) ∧
      (sampleAttacher.Detach
          (detachEnv (.ok (samplePod PodPending "")) (fun _ => .ok (samplePod PodPending "")))
          sampleVolume "nodeA").deleted = [] ∧
      (sampleAttacher.Detach
          (detachEnv (.ok (samplePod PodPending "")) (fun _ => .ok (samplePod PodPending "")))
          sampleVolume "nodeA").polls = 0) ∧
    ((∃ e, (sampleAttacher.Detach
          (detachEnv (.ok (samplePod PodRunning "nodeB"))
            (fun _ => .ok (samplePod PodRunning "nodeB")))
          sampleVolume "nodeA").err = some e ∧
        errorsIs e UnionErr.ErrAttachmentNotFound = true) ∧
      (sampleAttacher.Detach
          (detachEnv (.ok (samplePod PodRunning "nodeB"))
            (fun _ => .ok (samplePod PodRunning "nodeB")))
          sampleVolume "nodeA").deleted = [] ∧
      (sampleAttacher.Detach
          (detachEnv (.ok (samplePod PodRunning "nodeB"))
            (fun _ => .ok (samplePod PodRunning "nodeB")))
          sampleVolume "nodeA").polls = 0) :=
  ⟨Detach_not_attached sampleAttacher
      (detachEnv (.error (GoError.status StatusKind.NotFound "attach-pod-v"))
        (fun _ => .error (GoError.status StatusKind.NotFound "attach-pod-v")))
      sampleVolume "nodeA" (Or.inl ⟨_, rfl, rfl⟩),
    Detach_not_attached sampleAttacher
      (detachEnv (.ok (samplePod PodPending "")) (fun _ => .ok (samplePod PodPending "")))
      sampleVolume "nodeA" (Or.inr (Or.inl ⟨_, rfl, rfl⟩)),
    Detach_not_attached sampleAttacher
      (detachEnv (.ok (samplePod PodRunning "nodeB"))
        (fun _ => .ok (samplePod PodRunning "nodeB")))
      sampleVolume "nodeA" (Or.inr (Or.inr ⟨_, rfl, by decide⟩))⟩

/-- C12 on a unit on `nodeA` that two polls still find and the third finds absent, and
on a unit that the second poll finds on `nodeB`. -/
theorem Detach_waits_for_removal_witness :
    (sampleAttacher.Detach
        (detachEnv (.ok (samplePod PodRunning "nodeA"))
          (fun j => if j < 2 then .ok (samplePod PodRunning "nodeA")
            else .error (GoError.status StatusKind.NotFound "attach-pod-v")))
        sampleVolume "nodeA").polls ≤ 12 ∧
    ((∃ j e, j < (sampleAttacher.Detach
          (detachEnv (.ok (samplePod PodRunning "nodeA"))
            (fun j => if j < 2 then .ok (samplePod PodRunning "nodeA")
              else .error (GoError.status StatusKind.NotFound "attach-pod-v")))
          sampleVolume "nodeA").polls ∧
        ((detachEnv (.ok (samplePod PodRunning "nodeA"))
            (fun j => if j < 2 then .ok (samplePod PodRunning "nodeA")
              else .error (GoError.status StatusKind.NotFound "attach-pod-v"))).polls
          j).observed = .error e ∧ IsNotFound e = true) ∧
      ((samplePod PodRunning "nodeA").DeletionTimestamp = none →
        (detachEnv (.ok (samplePod PodRunning "nodeA"))
            (fun j => if j < 2 then .ok (samplePod PodRunning "nodeA")
              else .error (GoError.status StatusKind.NotFound "attach-pod-v"))).delete = none ∧
        (sampleAttacher.Detach
          (detachEnv (.ok (samplePod PodRunning "nodeA"))
            (fun j => if j < 2 then .ok (samplePod PodRunning "nodeA")
              else .error (GoError.status StatusKind.NotFound "attach-pod-v")))
          sampleVolume "nodeA").deleted =
          [makeAttachPodName sampleAttacher.sha256Hex sampleVolume.VolumeId])) ∧
    ((sampleAttacher.Detach
        (detachEnv (.ok (samplePod PodRunning "nodeA"))
          (fun j => if j < 1 then .ok (samplePod PodRunning "nodeA")
            else .ok (samplePod PodRunning "nodeB")))
        sampleVolume "nodeA").err = some (GoError.sentinel UnionErr.ErrAttachmentNotFound) ∧
      errorsIs (GoError.sentinel UnionErr.ErrAttachmentNotFound)
        UnionErr.ErrAttachmentNotFound = true ∧
      (sampleAttacher.Detach
        (detachEnv (.ok (samplePod PodRunning "nodeA"))
          (fun j => if j < 1 then .ok (samplePod PodRunning "nodeA")
            else .ok (samplePod PodRunning "nodeB")))
        sampleVolume "nodeA").polls = 1 + 1) :=
  ⟨(Detach_waits_for_removal sampleAttacher
      (detachEnv (.ok (samplePod PodRunning "nodeA"))
        (fun j => if j < 2 then .ok (samplePod PodRunning "nodeA")
          else .error (GoError.status StatusKind.NotFound "attach-pod-v")))
      sampleVolume "nodeA" (samplePod PodRunning "nodeA") rfl rfl (by decide)).1,
    (Detach_waits_for_removal sampleAttacher
      (detachEnv (.ok (samplePod PodRunning "nodeA"))
        (fun j => if j < 2 then .ok (samplePod PodRunning "nodeA")
          else .error (GoError.status StatusKind.NotFound "attach-pod-v")))
      sampleVolume "nodeA" (samplePod PodRunning "nodeA") rfl rfl (by decide)).2.1 (by decide),
    (Detach_waits_for_removal sampleAttacher
      (detachEnv (.ok (samplePod PodRunning "nodeA"))
        (fun j => if j < 1 then .ok (samplePod PodRunning "nodeA")
          else .ok (samplePod PodRunning "nodeB")))
      sampleVolume "nodeA" (samplePod PodRunning "nodeA") rfl rfl (by decide)).2.2
      1 (samplePod PodRunning "nodeB") (by decide) (fun _ => rfl) (by decide) rfl rfl
      (by decide)⟩

/-! ## Properties of the access mode conversion -/

/-- The conversion of one mode fails exactly on `MULTI_NODE_SINGLE_WRITER` and on the
values outside the seven named modes. -/
theorem csiToK8sAccessMode_fails_iff (mode : VolumeCapability_AccessMode_Mode) :
    (csiToK8sAccessMode mode).2.isSome = true ↔
      (mode = VolumeCapability_AccessMode_MULTI_NODE_SINGLE_WRITER ∨
        mode ∉ [VolumeCapability_AccessMode_SINGLE_NODE_WRITER,
          VolumeCapability_AccessMode_SINGLE_NODE_READER_ONLY,
          VolumeCapability_AccessMode_MULTI_NODE_READER_ONLY,
          VolumeCapability_AccessMode_MULTI_NODE_SINGLE_WRITER,
          VolumeCapability_AccessMode_MULTI_NODE_MULTI_WRITER,
          VolumeCapability_AccessMode_SINGLE_NODE_SINGLE_WRITER,
          VolumeCapability_AccessMode_SINGLE_NODE_MULTI_WRITER]) := by
  unfold csiToK8sAccessMode
  simp only [VolumeCapability_AccessMode_SINGLE_NODE_WRITER,
    VolumeCapability_AccessMode_SINGLE_NODE_READER_ONLY,
    VolumeCapability_AccessMode_MULTI_NODE_READER_ONLY,
    VolumeCapability_AccessMode_MULTI_NODE_SINGLE_WRITER,
    VolumeCapability_AccessMode_MULTI_NODE_MULTI_WRITER,
    VolumeCapability_AccessMode_SINGLE_NODE_SINGLE_WRITER,
    VolumeCapability_AccessMode_SINGLE_NODE_MULTI_WRITER, List.mem_cons, List.mem_singleton,
    List.not_mem_nil, or_false]
  split_ifs with h1 h2 h3 h4 <;> simp only [Option.isSome_none, Option.isSome_some,
    Bool.false_eq_true, false_iff, true_iff] <;>
    (unfold VolumeCapability_AccessMode_Mode at *; omega)

/-- The relation between a protocol mode and the access mode it is converted to. -/
theorem csiToK8sAccessMode_value (mode : VolumeCapability_AccessMode_Mode)
    (h : (csiToK8sAccessMode mode).2 = none) :
    ((mode = VolumeCapability_AccessMode_SINGLE_NODE_WRITER ∨
        mode = VolumeCapability_AccessMode_SINGLE_NODE_SINGLE_WRITER ∨
        mode = VolumeCapability_AccessMode_SINGLE_NODE_MULTI_WRITER) ∧
      (csiToK8sAccessMode mode).1 = ReadWriteOnce) ∨
    ((mode = VolumeCapability_AccessMode_SINGLE_NODE_READER_ONLY ∨
        mode = VolumeCapability_AccessMode_MULTI_NODE_READER_ONLY) ∧
      (csiToK8sAccessMode mode).1 = ReadOnlyMany) ∨
    (mode = VolumeCapability_AccessMode_MULTI_NODE_MULTI_WRITER ∧
      (csiToK8sAccessMode mode).1 = ReadWriteMany) := by
  unfold csiToK8sAccessMode at h ⊢
  split_ifs at h ⊢ with h1 h2 h3 h4
  · exact Or.inl ⟨h1, rfl⟩
  · exact Or.inr (Or.inl ⟨h2, rfl⟩)
  · exact Or.inr (Or.inr ⟨h4, rfl⟩)

/-- The loop of `getAccessModes` fails exactly when one of the modes left fails, and
otherwise appends the conversions of the modes, in order. -/
theorem getAccessModesLoop_spec (modes : List VolumeCapability_AccessMode_Mode) :
    ∀ acc : List PersistentVolumeAccessMode,
      ((getAccessModesLoop modes acc).2.isSome = true ↔
        ∃ m ∈ modes, (csiToK8sAccessMode m).2.isSome = true) ∧
      ((getAccessModesLoop modes acc).2 = none →
        (getAccessModesLoop modes acc).1 =
          acc ++ modes.map (fun m => (csiToK8sAccessMode m).1)) := by
  induction modes with
  | nil => intro acc; simp [getAccessModesLoop]
  | cons m ms ih =>
    intro acc
    rw [getAccessModesLoop]
    rcases hc : csiToK8sAccessMode m with ⟨r, _ | e⟩
    · simp only []
      obtain ⟨h1, h2⟩ := ih (acc ++ [r])
      refine ⟨?_, ?_⟩
      · rw [h1]
        simp [hc]
      · intro h
        rw [h2 h]
        simp [hc]
    · simp [hc]

/-- C13: `getAccessModes` fails exactly when some element is `MULTI_NODE_SINGLE_WRITER`
or is none of the seven named modes (so `UNKNOWN` fails); otherwise it returns a list of
the same length and order in which the single node writer modes give `ReadWriteOnce`,
the reader only modes give `ReadOnlyMany` and `MULTI_NODE_MULTI_WRITER` gives
`ReadWriteMany`. -/
theorem getAccessModes_spec (modes : List VolumeCapability_AccessMode_Mode) :
    ((getAccessModes modes).2.isSome = true ↔
      ∃ m ∈ modes, m = VolumeCapability_AccessMode_MULTI_NODE_SINGLE_WRITER ∨
        m ∉ [VolumeCapability_AccessMode_SINGLE_NODE_WRITER,
          VolumeCapability_AccessMode_SINGLE_NODE_READER_ONLY,
          VolumeCapability_AccessMode_MULTI_NODE_READER_ONLY,
          VolumeCapability_AccessMode_MULTI_NODE_SINGLE_WRITER,
          VolumeCapability_AccessMode_MULTI_NODE_MULTI_WRITER,
          VolumeCapability_AccessMode_SINGLE_NODE_SINGLE_WRITER,
          VolumeCapability_AccessMode_SINGLE_NODE_MULTI_WRITER]) ∧
    ((getAccessModes modes).2.isSome = false →
      List.Forall₂
        (fun (m : VolumeCapability_AccessMode_Mode) (r : PersistentVolumeAccessMode) =>
          ((m = VolumeCapability_AccessMode_SINGLE_NODE_WRITER ∨
              m = VolumeCapability_AccessMode_SINGLE_NODE_SINGLE_WRITER ∨
              m = VolumeCapability_AccessMode_SINGLE_NODE_MULTI_WRITER) ∧ r = ReadWriteOnce) ∨
          ((m = VolumeCapability_AccessMode_SINGLE_NODE_READER_ONLY ∨
              m = VolumeCapability_AccessMode_MULTI_NODE_READER_ONLY) ∧ r = ReadOnlyMany) ∨
          (m = VolumeCapability_AccessMode_MULTI_NODE_MULTI_WRITER ∧ r = ReadWriteMany))
        modes (getAccessModes modes).1) := by
  obtain ⟨h1, h2⟩ := getAccessModesLoop_spec modes []
  unfold getAccessModes
  refine ⟨?_, ?_⟩
  · rw [h1]
    constructor
    · rintro ⟨m, hm, hf⟩
      exact ⟨m, hm, (csiToK8sAccessMode_fails_iff m).1 hf⟩
    · rintro ⟨m, hm, hf⟩
      exact ⟨m, hm, (csiToK8sAccessMode_fails_iff m).2 hf⟩
  · intro hnone
    have hnone2 : (getAccessModesLoop modes []).2 = none := by
      rcases h : (getAccessModesLoop modes []).2 with _ | e
      · rfl
      · rw [h] at hnone; simp at hnone
    rw [h2 hnone2]
    simp only [List.nil_append]
    have hall : ∀ m ∈ modes, (csiToK8sAccessMode m).2 = none := by
      intro m hm
      rcases h : (csiToK8sAccessMode m).2 with _ | e
      · rfl
      · have : (getAccessModesLoop modes []).2.isSome = true :=
          h1.2 ⟨m, hm, by rw [h]; rfl⟩
        rw [hnone2] at this
        simp at this
    clear h1 h2 hnone hnone2
    induction modes with
    | nil => exact List.Forall₂.nil
    | cons m ms ih =>
      simp only [List.map_cons]
      refine List.Forall₂.cons ?_ (ih (fun x hx => hall x (List.mem_cons_of_mem _ hx)))
      exact csiToK8sAccessMode_value m (hall m (List.mem_cons_self _ _))

/-- C13 on a list of three supported modes. -/
theorem getAccessModes_spec_witness :
    (getAccessModes [VolumeCapability_AccessMode_SINGLE_NODE_WRITER,
      VolumeCapability_AccessMode_MULTI_NODE_READER_ONLY,
      VolumeCapability_AccessMode_MULTI_NODE_MULTI_WRITER]).2.isSome = false ∧
    List.Forall₂
      (fun (m : VolumeCapability_AccessMode_Mode) (r : PersistentVolumeAccessMode) =>
        ((m = VolumeCapability_AccessMode_SINGLE_NODE_WRITER ∨
            m = VolumeCapability_AccessMode_SINGLE_NODE_SINGLE_WRITER ∨
            m = VolumeCapability_AccessMode_SINGLE_NODE_MULTI_WRITER) ∧ r = ReadWriteOnce) ∨
        ((m = VolumeCapability_AccessMode_SINGLE_NODE_READER_ONLY ∨
            m = VolumeCapability_AccessMode_MULTI_NODE_READER_ONLY) ∧ r = ReadOnlyMany) ∨
        (m = VolumeCapability_AccessMode_MULTI_NODE_MULTI_WRITER ∧ r = ReadWriteMany))
      [VolumeCapability_AccessMode_SINGLE_NODE_WRITER,
        VolumeCapability_AccessMode_MULTI_NODE_READER_ONLY,
        VolumeCapability_AccessMode_MULTI_NODE_MULTI_WRITER]
      (getAccessModes [VolumeCapability_AccessMode_SINGLE_NODE_WRITER,
        VolumeCapability_AccessMode_MULTI_NODE_READER_ONLY,
        VolumeCapability_AccessMode_MULTI_NODE_MULTI_WRITER]).1 :=
  ⟨rfl, (getAccessModes_spec [VolumeCapability_AccessMode_SINGLE_NODE_WRITER,
      VolumeCapability_AccessMode_MULTI_NODE_READER_ONLY,
      VolumeCapability_AccessMode_MULTI_NODE_MULTI_WRITER]).2 rfl⟩

/-! ## Properties of the orchestrator -/

/-- The loop of `deleteLowerFromSplit` makes claim deletes only. When it returns nil it
has made one delete per entry, in order, each answered by nil or by a not-found; and a
delete answered by another error is the error it returns. -/
theorem deleteLowerLoop_spec {σ ω : Type} (u : union σ ω) (split : VolumeSplit) :
    ∀ (entries : List PersistentVolumeClaimSplit) (cl : ω),
      (∀ c ∈ (u.deleteLowerLoop split entries cl).2.2, ∀ id r, c ≠ DeleteCall.splitDelete id r) ∧
      ((u.deleteLowerLoop split entries cl).1 = none →
        ∃ results : List (Option GoError), results.length = entries.length ∧
          (u.deleteLowerLoop split entries cl).2.2 =
            List.zipWith (fun c r => DeleteCall.claimDelete split.Spec.Namespace c.ClaimName r)
              entries results ∧
          ∀ r ∈ results, r = none ∨ ∃ e, r = some e ∧ IsNotFound e = true) ∧
      (∀ ns name e, DeleteCall.claimDelete ns name (some e) ∈
          (u.deleteLowerLoop split entries cl).2.2 →
        IsNotFound e = false → (u.deleteLowerLoop split entries cl).1 = some e) := by
  intro entries
  induction entries with
  | nil =>
    intro cl
    refine ⟨by simp [union.deleteLowerLoop], fun _ => ⟨[], by simp [union.deleteLowerLoop]⟩,
      by simp [union.deleteLowerLoop]⟩
  | cons c rest ih =>
    intro cl
    rw [union.deleteLowerLoop]
    unfold union.deleteLowerClaimFromSplit
    simp only []
    rcases hd : (u.cluster.claimDelete cl split.Spec.Namespace c.ClaimName).1 with _ | e
    · simp only []
      obtain ⟨h1, h2, h3⟩ := ih (u.cluster.claimDelete cl split.Spec.Namespace c.ClaimName).2
      refine ⟨?_, ?_, ?_⟩
      · intro x hx id r
        rcases List.mem_cons.1 hx with rfl | hx
        · simp
        · exact h1 x hx id r
      · intro hnone
        obtain ⟨results, hl, hc, hr⟩ := h2 hnone
        refine ⟨none :: results, by simp [hl], by simp [hc], ?_⟩
        intro r hr2
        rcases List.mem_cons.1 hr2 with rfl | hr2
        · exact Or.inl rfl
        · exact hr r hr2
      · intro ns name e hmem hnf
        rcases List.mem_cons.1 hmem with heq | hmem
        · simp at heq
        · exact h3 ns name e hmem hnf
    · by_cases hnf : IsNotFound e = true
      · simp only [hnf, Bool.not_true, Bool.false_eq_true, if_false]
        obtain ⟨h1, h2, h3⟩ := ih (u.cluster.claimDelete cl split.Spec.Namespace c.ClaimName).2
        refine ⟨?_, ?_, ?_⟩
        · intro x hx id r
          rcases List.mem_cons.1 hx with rfl | hx
          · simp
          · exact h1 x hx id r
        · intro hnone
          obtain ⟨results, hl, hc, hr⟩ := h2 hnone
          refine ⟨some e :: results, by simp [hl], by simp [hc], ?_⟩
          intro r hr2
          rcases List.mem_cons.1 hr2 with rfl | hr2
          · exact Or.inr ⟨e, rfl, hnf⟩
          · exact hr r hr2
        · intro ns name e2 hmem hnf2
          rcases List.mem_cons.1 hmem with heq | hmem
          · simp only [DeleteCall.claimDelete.injEq, Option.some.injEq] at heq
            rw [heq.2.2, hnf] at hnf2
            simp at hnf2
          · exact h3 ns name e2 hmem hnf2
      · have hnf2 : IsNotFound e = false := by simpa using hnf
        simp only [hnf2, Bool.not_false, if_true]
        refine ⟨by simp, by simp, ?_⟩
        intro ns name e2 hmem _
        simp only [List.mem_singleton, DeleteCall.claimDelete.injEq, Option.some.injEq] at hmem
        rw [hmem.2.2]

/-- C15: over the keyed split store and any cluster, `DeleteLower` asks for the deletion
of the plan only after it has asked, in the order of the plan, for the deletion of every
claim named in the plan, each of these deletes having succeeded or reported not-found;
and when a claim delete fails with another error, `DeleteLower` returns that error,
asks for no deletion of the plan, and the plan is still in the store. -/
theorem DeleteLower_claims_before_plan {ω : Type} (cluster : ClusterInterface ω) (p : String)
    (a : attacher) (st : KeyedStore) (cl : ω) (volumeId : String) :
    (∀ r, DeleteCall.splitDelete volumeId r ∈
        (union.DeleteLower ⟨cluster, NewSplitter p, a⟩ st cl volumeId).calls →
      ∃ plan : VolumeSplit, st.find (volumeId ++ "-split") = some plan ∧
        ∃ results : List (Option GoError), results.length = plan.Spec.Splits.length ∧
          (union.DeleteLower ⟨cluster, NewSplitter p, a⟩ st cl volumeId).calls =
            List.zipWith (fun c r => DeleteCall.claimDelete plan.Spec.Namespace c.ClaimName r)
              plan.Spec.Splits results ++ [DeleteCall.splitDelete volumeId r] ∧
          ∀ r' ∈ results, r' = none ∨ ∃ e, r' = some e ∧ IsNotFound e = true) ∧
    (∀ ns name e, DeleteCall.claimDelete ns name (some e) ∈
        (union.DeleteLower ⟨cluster, NewSplitter p, a⟩ st cl volumeId).calls →
      IsNotFound e = false →
      (union.DeleteLower ⟨cluster, NewSplitter p, a⟩ st cl volumeId).err = some e ∧
        (∀ r, DeleteCall.splitDelete volumeId r ∉
          (union.DeleteLower ⟨cluster, NewSplitter p, a⟩ st cl volumeId).calls) ∧
        ∃ plan : VolumeSplit, st.find (volumeId ++ "-split") = some plan ∧
          KeyedStore.find (union.DeleteLower ⟨cluster, NewSplitter p, a⟩ st cl volumeId).splits
            (volumeId ++ "-split") = some plan) := by
  unfold union.DeleteLower
  simp only []
  rcases hf : st.find (volumeId ++ "-split") with _ | plan
  · rw [GetSplit_missing p volumeId st hf]
    simp
  · rw [GetSplit_found p volumeId st plan hf]
    simp only []
    unfold union.deleteLowerFromSplit
    obtain ⟨h1, h2, h3⟩ := deleteLowerLoop_spec
      (⟨cluster, NewSplitter p, a⟩ : union KeyedStore ω) plan plan.Spec.Splits cl
    rcases hl : union.deleteLowerLoop ⟨cluster, NewSplitter p, a⟩ plan plan.Spec.Splits cl with
      ⟨err, cl1, calls⟩
    rw [hl] at h1 h2 h3
    simp only [] at h1 h2 h3
    rcases err with _ | e
    · simp only []
      obtain ⟨results, hlen, hcalls, hres⟩ := h2 rfl
      have hsplit : ∀ (x : Option GoError × KeyedStore),
          (∀ r, DeleteCall.splitDelete volumeId r ∈
              (match x.1 with
                | some err => (⟨some err, x.2, cl1,
                    calls ++ [DeleteCall.splitDelete volumeId (some err)]⟩ :
                    DeleteLowerRun KeyedStore ω)
                | none => ⟨none, x.2, cl1, calls ++ [DeleteCall.splitDelete volumeId none]⟩).calls →
            (match x.1 with
                | some err => (⟨some err, x.2, cl1,
                    calls ++ [DeleteCall.splitDelete volumeId (some err)]⟩ :
                    DeleteLowerRun KeyedStore ω)
                | none => ⟨none, x.2, cl1, calls ++ [DeleteCall.splitDelete volumeId none]⟩).calls =
              calls ++ [DeleteCall.splitDelete volumeId r]) ∧
          (∀ ns name e, DeleteCall.claimDelete ns name (some e) ∈
              (match x.1 with
                | some err => (⟨some err, x.2, cl1,
                    calls ++ [DeleteCall.splitDelete volumeId (some err)]⟩ :
                    DeleteLowerRun KeyedStore ω)
                | none => ⟨none, x.2, cl1, calls ++ [DeleteCall.splitDelete volumeId none]⟩).calls →
            DeleteCall.claimDelete ns name (some e) ∈ calls) := by
        intro x
        rcases x with ⟨_ | err, s2⟩
        · refine ⟨?_, ?_⟩
          · intro r hr
            simp only [List.mem_append, List.mem_singleton] at hr
            rcases hr with hr | hr
            · exact absurd rfl (h1 _ hr volumeId r)
            · simp only [DeleteCall.splitDelete.injEq, true_and] at hr
              rw [hr]
          · intro ns name e hmem
            simpa using hmem
        · refine ⟨?_, ?_⟩
          · intro r hr
            simp only [List.mem_append, List.mem_singleton] at hr
            rcases hr with hr | hr
            · exact absurd rfl (h1 _ hr volumeId r)
            · simp only [DeleteCall.splitDelete.injEq, true_and] at hr
              rw [hr]
          · intro ns name e hmem
            simpa using hmem
      obtain ⟨hs1, hs2⟩ := hsplit ((NewSplitter p).DeleteSplit volumeId st)
      refine ⟨?_, ?_⟩
      · intro r hr
        exact ⟨plan, rfl, results, hlen, by rw [hs1 r hr, hcalls], hres⟩
      · intro ns name e hmem hnf
        have := h3 ns name e (hs2 ns name e hmem) hnf
        simp at this
    · simp only []
      refine ⟨?_, ?_⟩
      · intro r hr
        exact absurd rfl (h1 _ hr volumeId r)
      · intro ns name e2 hmem hnf
        have := h3 ns name e2 hmem hnf
        refine ⟨this, fun r hr => absurd rfl (h1 _ hr volumeId r), plan, rfl, hf⟩

/-- C15 on the plan of the volume `v` with its two claims: a run in which every delete
succeeds, and a run in which the delete of the second claim fails with a transport
error. -/
theorem DeleteLower_claims_before_plan_witness :
    (∃ plan : VolumeSplit, KeyedStore.find sampleStore ("v" ++ "-split") = some plan ∧
      ∃ results : List (Option GoError), results.length = plan.Spec.Splits.length ∧
        (union.DeleteLower ⟨keyedCluster, NewSplitter "", sampleAttacher⟩ sampleStore
            sampleCluster "v").calls =
          List.zipWith (fun c r => DeleteCall.claimDelete plan.Spec.Namespace c.ClaimName r)
            plan.Spec.Splits results ++ [DeleteCall.splitDelete "v" none] ∧
        ∀ r' ∈ results, r' = none ∨ ∃ e, r' = some e ∧ IsNotFound e = true) ∧
    ((union.DeleteLower ⟨flakyCluster "v-lower1" (GoError.external "refused"),
          NewSplitter "", sampleAttacher⟩ sampleStore sampleCluster "v").err =
        some (GoError.external "refused") ∧
      (∀ r, DeleteCall.splitDelete "v" r ∉
        (union.DeleteLower ⟨flakyCluster "v-lower1" (GoError.external "refused"),
          NewSplitter "", sampleAttacher⟩ sampleStore sampleCluster "v").calls) ∧
      ∃ plan : VolumeSplit, KeyedStore.find sampleStore ("v" ++ "-split") = some plan ∧
        KeyedStore.find
          (union.DeleteLower ⟨flakyCluster "v-lower1" (GoError.external "refused"),
            NewSplitter "", sampleAttacher⟩ sampleStore sampleCluster "v").splits
          ("v" ++ "-split") = some plan) :=
  ⟨(DeleteLower_claims_before_plan keyedCluster "" sampleAttacher sampleStore sampleCluster
      "v").1 none (by decide),
    (DeleteLower_claims_before_plan (flakyCluster "v-lower1" (GoError.external "refused")) ""
      sampleAttacher sampleStore sampleCluster "v").2 "default" "v-lower1"
      (GoError.external "refused") (by decide) rfl⟩

/-- C17: over the keyed split store and any cluster, `AttachLower` returns an error that
is `ErrVolumeNotFound` when no plan is stored for the volume, whatever the node lister
would answer, and an error that is `ErrNodeNotFound` when the plan is stored and the
node lister reports the node as not found; in both cases the Attacher is not invoked. -/
theorem AttachLower_not_found {ω : Type} (cluster : ClusterInterface ω) (p : String)
    (a : attacher) (st : KeyedStore) (cl : ω) (env : AttachEnv) (volumeId nodeId : String) :
    (st.find (volumeId ++ "-split") = none →
      (∃ e, (union.AttachLower ⟨cluster, NewSplitter p, a⟩ st cl env volumeId nodeId).1.outcome =
          Outcome.returned (none, some e) ∧ errorsIs e UnionErr.ErrVolumeNotFound = true) ∧
        (union.AttachLower ⟨cluster, NewSplitter p, a⟩ st cl env volumeId nodeId).1.attacherRun =
          none) ∧
    (∀ (plan : VolumeSplit) (e : GoError), st.find (volumeId ++ "-split") = some plan →
      cluster.nodeGet cl nodeId = .error e → IsNotFound e = true →
      (∃ e', (union.AttachLower ⟨cluster, NewSplitter p, a⟩ st cl env volumeId nodeId).1.outcome =
          Outcome.returned (none, some e') ∧ errorsIs e' UnionErr.ErrNodeNotFound = true) ∧
        (union.AttachLower ⟨cluster, NewSplitter p, a⟩ st cl env volumeId nodeId).1.attacherRun =
          none) := by
  unfold union.AttachLower
  simp only []
  refine ⟨?_, ?_⟩
  · intro hf
    rw [GetSplit_missing p volumeId st hf]
    simp [errorsIs]
  · intro plan e hf hn hnf
    rw [GetSplit_found p volumeId st plan hf]
    simp [union.getNodeLocal, hn, hnf, errorsIs]

/-- C17 on the empty store with a known node, and on the plan of `v` with an unknown
node; the lister would report a running unit in both. -/
theorem AttachLower_not_found_witness :
    ((∃ e, (union.AttachLower ⟨keyedCluster, NewSplitter "", sampleAttacher⟩ [] sampleCluster
          (steadyEnv (.ok (samplePod PodRunning "nodeA"))) "v" "nodeA").1.outcome =
          Outcome.returned (none, some e) ∧ errorsIs e UnionErr.ErrVolumeNotFound = true) ∧
      (union.AttachLower ⟨keyedCluster, NewSplitter "", sampleAttacher⟩ [] sampleCluster
          (steadyEnv (.ok (samplePod PodRunning "nodeA"))) "v" "nodeA").1.attacherRun = none) ∧
    ((∃ e', (union.AttachLower ⟨keyedCluster, NewSplitter "", sampleAttacher⟩ sampleStore
          sampleCluster (steadyEnv (.ok (samplePod PodRunning "nodeZ"))) "v"
          "nodeZ").1.outcome =
          Outcome.returned (none, some e') ∧ errorsIs e' UnionErr.ErrNodeNotFound = true) ∧
      (union.AttachLower ⟨keyedCluster, NewSplitter "", sampleAttacher⟩ sampleStore
          sampleCluster (steadyEnv (.ok (samplePod PodRunning "nodeZ"))) "v"
          "nodeZ").1.attacherRun = none) :=
  ⟨(AttachLower_not_found keyedCluster "" sampleAttacher [] sampleCluster
      (steadyEnv (.ok (samplePod PodRunning "nodeA"))) "v" "nodeA").1 rfl,
    (AttachLower_not_found keyedCluster "" sampleAttacher sampleStore sampleCluster
      (steadyEnv (.ok (samplePod PodRunning "nodeZ"))) "v" "nodeZ").2
      (plannedSplit (NewSplitter "") "v-split" (sampleSpec "v" 1024))
      (GoError.status StatusKind.NotFound "nodeZ") (by decide) rfl rfl⟩

/-! ## Properties of the controller handlers -/

/-- C19: for a request that passed validation and an error `err` returned by the
orchestrator, each handler answers as the error table says. `CreateVolume` returns a
status whose code is already-exists for an idempotency conflict and internal otherwise;
`ControllerPublishVolume` returns failed-precondition for a volume in use, with the node
of the attachment that came with the error among the operands of its message, not-found
for a volume or node not found, internal otherwise; `ControllerUnpublishVolume`
succeeds for an attachment not found, returns not-found for a volume or node not found,
internal otherwise; `DeleteVolume` succeeds for a volume not found and returns internal
otherwise; and the table has no other success. -/
theorem handlers_follow_status_table {W : Type} (s : controllerServer W) (w w1 : W)
    (err : GoError) :
    (∀ (req : CreateVolumeRequest) (opts : CreateLowerOptions) (v : Option Volume),
      s.validator.CreateVolumeRequestValidate req = Outcome.returned none →
      req.VolumeCapabilities.any isBlock = false →
      parseParameters s.toLower req.Parameters ⟨0, s.options.defaultLowerNamespace, none, []⟩ =
        (none, opts) →
      s.union.CreateLower w req.Name
        { opts with
          CapacityBytes := getCapacityBytes req.CapacityRange
          CSIAccessModes := opts.CSIAccessModes ++
            req.VolumeCapabilities.map VolumeCapability.GetMode } =
        (Outcome.returned (v, some err), w1) →
      ∃ st : Status, (s.CreateVolume w req).1 = Outcome.returned (none, some st) ∧
        statusTable Handler.CreateVolume err = some st.Code) ∧
    (∀ (req : DeleteVolumeRequest),
      s.validator.DeleteVolumeRequestValidate req = Outcome.returned none →
      s.union.DeleteLower w req.VolumeId = (some err, w1) →
      (statusTable Handler.DeleteVolume err = none →
        (s.DeleteVolume w req).1 = Outcome.returned (some (), none)) ∧
      (∀ c, statusTable Handler.DeleteVolume err = some c →
        ∃ st : Status, (s.DeleteVolume w req).1 = Outcome.returned (none, some st) ∧
          st.Code = c)) ∧
    (∀ (req : ControllerPublishVolumeRequest) (attachment : Option VolumeAttachment),
      s.validator.ControllerPublishVolumeRequestValidate req = Outcome.returned none →
      s.union.AttachLower w req.VolumeId req.NodeId =
        (Outcome.returned (attachment, some err), w1) →
      (errorsIs err UnionErr.ErrVolumeInUse = true → attachment ≠ none) →
      ∃ st : Status, (s.ControllerPublishVolume w req).1 = Outcome.returned (none, some st) ∧
        statusTable Handler.ControllerPublishVolume err = some st.Code ∧
        (errorsIs err UnionErr.ErrVolumeInUse = true → ∀ a, attachment = some a →
          ∃ format operands, st.Message = Message.sprintf format operands ∧
            Operand.str a.NodeId ∈ operands)) ∧
    (∀ (req : ControllerUnpublishVolumeRequest),
      s.validator.ControllerUnpublishVolumeRequestValidate req = Outcome.returned none →
      req.NodeId ≠ "" →
      s.union.DetachLower w req.VolumeId req.NodeId = (some err, w1) →
      (statusTable Handler.ControllerUnpublishVolume err = none →
        (s.ControllerUnpublishVolume w req).1 = Outcome.returned (some (), none)) ∧
      (∀ c, statusTable Handler.ControllerUnpublishVolume err = some c →
        ∃ st : Status,
          (s.ControllerUnpublishVolume w req).1 = Outcome.returned (none, some st) ∧
          st.Code = c)) ∧
    (∀ h : Handler, statusTable h err = none ↔
      (h = Handler.DeleteVolume ∧ errorsIs err UnionErr.ErrVolumeNotFound = true) ∨
      (h = Handler.ControllerUnpublishVolume ∧
        errorsIs err UnionErr.ErrAttachmentNotFound = true)) := by
  refine ⟨?_, ?_, ?_, ?_, ?_⟩
  · intro req opts v hv hb hp hc
    simp only [controllerServer.CreateVolume, hv, hb, hp, hc, statusTable]
    by_cases h : errorsIs err UnionErr.ErrIdempotencyIncompatible = true <;> simp [h]
  · intro req hv hd
    simp only [controllerServer.DeleteVolume, hv, hd, statusTable]
    by_cases h : errorsIs err UnionErr.ErrVolumeNotFound = true <;> simp [h]
  · intro req attachment hv ha hatt
    simp only [controllerServer.ControllerPublishVolume, hv, ha, statusTable]
    by_cases h : errorsIs err UnionErr.ErrVolumeInUse = true
    · rcases attachment with _ | a
      · exact absurd rfl (hatt h)
      · simp only [h, if_true]
        refine ⟨_, rfl, rfl, fun _ a2 ha2 => ⟨_, _, rfl, ?_⟩⟩
        simp only [Option.some.injEq] at ha2
        simp [ha2]
    · by_cases h2 : errorsIs err UnionErr.ErrVolumeNotFound = true <;>
        by_cases h3 : errorsIs err UnionErr.ErrNodeNotFound = true <;> simp [h, h2, h3]
  · intro req hv hn hd
    have hlen : ¬ (req.NodeId.length = 0) := by rw [string_length_zero]; exact hn
    simp only [controllerServer.ControllerUnpublishVolume, hv, hlen, hd, statusTable, if_false]
    by_cases h : errorsIs err UnionErr.ErrAttachmentNotFound = true
    · simp [h]
    · by_cases h2 : errorsIs err UnionErr.ErrVolumeNotFound = true <;>
        by_cases h3 : errorsIs err UnionErr.ErrNodeNotFound = true <;> simp [h, h2, h3]
  · intro h
    cases h <;> simp only [statusTable] <;> split_ifs <;> simp_all

/-- C19 on an orchestrator that answers a volume in use on `nodeB`, one that answers an
idempotency conflict, one that answers a volume not found and one that answers an
attachment not found. -/
theorem handlers_follow_status_table_witness :
    (∃ st : Status,
      ((failingServer (GoError.sentinel UnionErr.ErrVolumeInUse)
          (some ⟨"v", "nodeB", makeHostPath "v"⟩)).ControllerPublishVolume ()
          ⟨"v", "nodeA", none, false⟩).1 = Outcome.returned (none, some st) ∧
        statusTable Handler.ControllerPublishVolume (GoError.sentinel UnionErr.ErrVolumeInUse) =
          some st.Code ∧
        (errorsIs (GoError.sentinel UnionErr.ErrVolumeInUse) UnionErr.ErrVolumeInUse = true →
          ∀ a, some (⟨"v", "nodeB", makeHostPath "v"⟩ : VolumeAttachment) = some a →
            ∃ format operands, st.Message = Message.sprintf format operands ∧
              Operand.str a.NodeId ∈ operands)) ∧
    (∃ st : Status,
      ((failingServer (GoError.sentinel UnionErr.ErrIdempotencyIncompatible) none).CreateVolume ()
          ⟨"v", none, [], [], none, none⟩).1 = Outcome.returned (none, some st) ∧
        statusTable Handler.CreateVolume (GoError.sentinel UnionErr.ErrIdempotencyIncompatible) =
          some st.Code) ∧
    ((statusTable Handler.DeleteVolume (GoError.sentinel UnionErr.ErrVolumeNotFound) = none →
        ((failingServer (GoError.sentinel UnionErr.ErrVolumeNotFound) none).DeleteVolume ()
          ⟨"v"⟩).1 = Outcome.returned (some (), none)) ∧
      (∀ c, statusTable Handler.DeleteVolume (GoError.sentinel UnionErr.ErrVolumeNotFound) =
          some c →
        ∃ st : Status,
          ((failingServer (GoError.sentinel UnionErr.ErrVolumeNotFound) none).DeleteVolume ()
            ⟨"v"⟩).1 = Outcome.returned (none, some st) ∧ st.Code = c)) ∧
    ((statusTable Handler.ControllerUnpublishVolume
          (GoError.sentinel UnionErr.ErrAttachmentNotFound) = none →
        ((failingServer (GoError.sentinel UnionErr.ErrAttachmentNotFound)
            none).ControllerUnpublishVolume () ⟨"v", "nodeA"⟩).1 =
          Outcome.returned (some (), none)) ∧
      (∀ c, statusTable Handler.ControllerUnpublishVolume
          (GoError.sentinel UnionErr.ErrAttachmentNotFound) = some c →
        ∃ st : Status,
          ((failingServer (GoError.sentinel UnionErr.ErrAttachmentNotFound)
            none).ControllerUnpublishVolume () ⟨"v", "nodeA"⟩).1 =
            Outcome.returned (none, some st) ∧ st.Code = c)) :=
  ⟨(handlers_follow_status_table
      (failingServer (GoError.sentinel UnionErr.ErrVolumeInUse)
        (some ⟨"v", "nodeB", makeHostPath "v"⟩)) () ()
      (GoError.sentinel UnionErr.ErrVolumeInUse)).2.2.1 ⟨"v", "nodeA", none, false⟩
      (some ⟨"v", "nodeB", makeHostPath "v"⟩) rfl rfl (fun _ => by simp),
    (handlers_follow_status_table
      (failingServer (GoError.sentinel UnionErr.ErrIdempotencyIncompatible) none) () ()
      (GoError.sentinel UnionErr.ErrIdempotencyIncompatible)).1 ⟨"v", none, [], [], none, none⟩
      ⟨0, "union", none, []⟩ none rfl rfl rfl rfl,
    (handlers_follow_status_table
      (failingServer (GoError.sentinel UnionErr.ErrVolumeNotFound) none) () ()
      (GoError.sentinel UnionErr.ErrVolumeNotFound)).2.1 ⟨"v"⟩ rfl rfl,
    (handlers_follow_status_table
      (failingServer (GoError.sentinel UnionErr.ErrAttachmentNotFound) none) () ()
      (GoError.sentinel UnionErr.ErrAttachmentNotFound)).2.2.2.1 ⟨"v", "nodeA"⟩ rfl
      (by decide) rfl⟩

/-- With the orchestrator over the keyed stores, an error of `AttachLower` that is
`ErrVolumeInUse` always comes with an attachment, so the message of
`ControllerPublishVolume` never reads a nil attachment. -/
theorem AttachLower_in_use_has_attachment (p : String) (a : attacher) (st : KeyedStore)
    (cl : ClusterState) (env : AttachEnv) (volumeId nodeId : String)
    (attachment : Option VolumeAttachment) (err : GoError)
    (h : ((New p a).AttachLower st cl env volumeId nodeId).1.outcome =
      Outcome.returned (attachment, some err))
    (hin : errorsIs err UnionErr.ErrVolumeInUse = true) : attachment ≠ none := by
  unfold union.AttachLower New at h
  simp only [] at h
  rcases hf : st.find (volumeId ++ "-split") with _ | plan
  · rw [GetSplit_missing p volumeId st hf] at h
    simp only [Outcome.returned.injEq, Prod.mk.injEq, Option.some.injEq] at h
    rw [← h.2] at hin
    simp [errorsIs] at hin
  · rw [GetSplit_found p volumeId st plan hf] at h
    simp only [union.getNodeLocal, keyedCluster] at h
    by_cases hn : nodeId ∈ cl.nodes
    · simp only [hn, if_true] at h
      rcases (Attach_cases a env (NewVolumeFromVolumeSplit plan) nodeId).2 with
        ⟨e, he, hne⟩ | ⟨j, pod, err2, _, _, ho⟩
      · rw [he] at h
        simp only [Outcome.returned.injEq, Prod.mk.injEq, Option.some.injEq] at h
        rw [h.2] at hne
        rw [hne] at hin
        simp at hin
      · rw [ho] at h
        simp only [Outcome.returned.injEq, Prod.mk.injEq] at h
        rw [← h.1]
        simp
    · simp only [hn, if_false] at h
      simp only [IsNotFound, statusOf, beq_self_eq_true, if_true, Outcome.returned.injEq,
        Prod.mk.injEq, Option.some.injEq] at h
      rw [← h.2] at hin
      simp [errorsIs] at hin

/-- C18, as the code behaves: with no attach pod in the cluster, `DetachLower` for a
volume that has no plan returns an error that is `ErrVolumeNotFound` and is not
`ErrAttachmentNotFound`, and for a volume with a plan and an unknown node an error that
is `ErrNodeNotFound` and is not `ErrAttachmentNotFound`; the Attacher is not asked in
either case, and `ControllerUnpublishVolume` answers not-found instead of success. -/
theorem DetachLower_checks_volume_before_attachment :
    (((New "" sampleAttacher).DetachLower [] sampleCluster noPodEnv "v" "nodeA").1.err.map
        (fun e => (errorsIs e UnionErr.ErrVolumeNotFound,
          errorsIs e UnionErr.ErrAttachmentNotFound)) = some (true, false)) ∧
    ((New "" sampleAttacher).DetachLower [] sampleCluster noPodEnv "v" "nodeA").1.attacherRun =
      none ∧
    (((sampleServer (steadyEnv (.ok (samplePod PodRunning "nodeA")))
        noPodEnv).ControllerUnpublishVolume ([], sampleCluster) ⟨"v", "nodeA"⟩).1 =
      Outcome.returned (none, some ⟨Code.NotFound,
        Message.sprintf "Failed to detach volume %s at node %s: %v"
          [Operand.str "v", Operand.str "nodeA",
            Operand.err (GoError.errorfWW (GoError.sentinel UnionErr.ErrVolumeNotFound)
              (GoError.status StatusKind.NotFound "v-split"))]⟩)) ∧
    (((New "" sampleAttacher).DetachLower sampleStore sampleCluster noPodEnv "v"
        "nodeZ").1.err.map
        (fun e => (errorsIs e UnionErr.ErrNodeNotFound,
          errorsIs e UnionErr.ErrAttachmentNotFound)) = some (true, false)) ∧
    ((New "" sampleAttacher).DetachLower sampleStore sampleCluster noPodEnv "v"
        "nodeZ").1.attacherRun = none ∧
    (((sampleServer (steadyEnv (.ok (samplePod PodRunning "nodeA")))
        noPodEnv).ControllerUnpublishVolume (sampleStore, sampleCluster) ⟨"v", "nodeZ"⟩).1 =
      Outcome.returned (none, some ⟨Code.NotFound,
        Message.sprintf "Failed to detach volume %s at node %s: %v"
          [Operand.str "v", Operand.str "nodeZ",
            Operand.err (GoError.errorfWV (GoError.sentinel UnionErr.ErrNodeNotFound)
              (GoError.status StatusKind.NotFound "nodeZ"))]⟩)) := by
  decide

/-- With the volume and the node known and no attach pod, `DetachLower` does ask the
Attacher and returns its `ErrAttachmentNotFound`, which `ControllerUnpublishVolume`
turns into a success: the first case of the doc comment of `DetachLower`. -/
theorem DetachLower_known_volume_no_pod :
    (((New "" sampleAttacher).DetachLower sampleStore sampleCluster noPodEnv "v"
        "nodeA").1.err.map (fun e => errorsIs e UnionErr.ErrAttachmentNotFound) = some true) ∧
    (((sampleServer (steadyEnv (.ok (samplePod PodRunning "nodeA")))
        noPodEnv).ControllerUnpublishVolume (sampleStore, sampleCluster) ⟨"v", "nodeA"⟩).1 =
      Outcome.returned (some (), none)) := by
  decide

/-! ## Properties of the create parameters -/

/-- The success condition of `parseParameters`, the code of its status, and the fields it
leaves untouched. -/
theorem parseParameters_ok_iff (toLower : String → String) (params : List (String × String)) :
    ∀ options : CreateLowerOptions,
      ((parseParameters toLower params options).1 = none ↔
        (∀ kv ∈ params, toLower kv.1 ∈ [LowerNamespaceParamKey, LowerStorageClassNameParamKey,
          PVCNameParamKey, PVCNamespaceParamKey, PVNameParamKey]) ∧
        (∀ kv ∈ params, toLower kv.1 = LowerStorageClassNameParamKey → kv.2 ≠ "")) ∧
      (∀ st, (parseParameters toLower params options).1 = some st →
        st.Code = Code.InvalidArgument) ∧
      (parseParameters toLower params options).2.CapacityBytes = options.CapacityBytes ∧
      (parseParameters toLower params options).2.CSIAccessModes = options.CSIAccessModes := by
  induction params with
  | nil => intro options; simp [parseParameters]
  | cons kv rest ih =>
    intro options
    obtain ⟨k, v⟩ := kv
    rw [parseParameters]
    have d1 : LowerNamespaceParamKey ≠ LowerStorageClassNameParamKey := by decide
    have d2 : ¬ (LowerStorageClassNameParamKey = LowerNamespaceParamKey) := by decide
    by_cases h1 : toLower k = LowerNamespaceParamKey
    · simp only [h1, if_true]
      obtain ⟨i1, i2, i3, i4⟩ := ih { options with LowerNamespace := v }
      refine ⟨?_, i2, i3, i4⟩
      rw [i1]
      have hmem : toLower k ∈ [LowerNamespaceParamKey, LowerStorageClassNameParamKey,
          PVCNameParamKey, PVCNamespaceParamKey, PVNameParamKey] := by
        rw [h1]; exact List.mem_cons_self _ _
      simp only [List.forall_mem_cons]
      constructor
      · rintro ⟨x, y⟩
        exact ⟨⟨hmem, x⟩, ⟨fun hk => absurd (h1.symm.trans hk) d1, y⟩⟩
      · rintro ⟨⟨_, x⟩, ⟨_, y⟩⟩
        exact ⟨x, y⟩
    · by_cases h2 : toLower k = LowerStorageClassNameParamKey
      · simp only [h2, d2, if_false, if_true]
        by_cases hv : v = ""
        · subst hv
          refine ⟨?_, by simp, rfl, rfl⟩
          simp only [List.forall_mem_cons]
          constructor
          · intro h; simp at h
          · rintro ⟨_, ⟨hk, _⟩⟩
            exact absurd rfl (hk h2)
        · simp only [hv, if_false]
          obtain ⟨i1, i2, i3, i4⟩ := ih { options with LowerStorageClassName := some v }
          refine ⟨?_, i2, i3, i4⟩
          rw [i1]
          have hmem : toLower k ∈ [LowerNamespaceParamKey, LowerStorageClassNameParamKey,
              PVCNameParamKey, PVCNamespaceParamKey, PVNameParamKey] := by
            rw [h2]; exact List.mem_cons_of_mem _ (List.mem_cons_self _ _)
          simp only [List.forall_mem_cons]
          constructor
          · rintro ⟨x, y⟩
            exact ⟨⟨hmem, x⟩, ⟨fun _ => hv, y⟩⟩
          · rintro ⟨⟨_, x⟩, ⟨_, y⟩⟩
            exact ⟨x, y⟩
      · by_cases h3 : toLower k = PVCNameParamKey ∨ toLower k = PVCNamespaceParamKey ∨
            toLower k = PVNameParamKey
        · simp only [h1, h2, h3, if_false, if_true]
          obtain ⟨i1, i2, i3, i4⟩ := ih options
          refine ⟨?_, i2, i3, i4⟩
          rw [i1]
          have hmem : toLower k ∈ [LowerNamespaceParamKey, LowerStorageClassNameParamKey,
              PVCNameParamKey, PVCNamespaceParamKey, PVNameParamKey] := by
            simp only [List.mem_cons, List.mem_singleton, List.not_mem_nil, or_false]
            tauto
          simp only [List.forall_mem_cons]
          constructor
          · rintro ⟨x, y⟩
            exact ⟨⟨hmem, x⟩, ⟨fun hk => absurd hk h2, y⟩⟩
          · rintro ⟨⟨_, x⟩, ⟨_, y⟩⟩
            exact ⟨x, y⟩
        · simp only [h1, h2, h3, if_false]
          refine ⟨?_, by simp, trivial, trivial⟩
          simp only [List.forall_mem_cons]
          constructor
          · intro h; simp at h
          · rintro ⟨⟨hk, _⟩, _⟩
            simp only [List.mem_cons, List.mem_singleton, List.not_mem_nil, or_false] at hk
            exact absurd hk (by tauto)

/-- On success, the namespace and the storage class that `parseParameters` leaves in the
options. -/
theorem parseParameters_values (toLower : String → String) (params : List (String × String)) :
    ∀ options : CreateLowerOptions, (parseParameters toLower params options).1 = none →
      ((∃ kv ∈ params, toLower kv.1 = LowerNamespaceParamKey) →
        ∃ kv ∈ params, toLower kv.1 = LowerNamespaceParamKey ∧
          (parseParameters toLower params options).2.LowerNamespace = kv.2) ∧
      ((¬ ∃ kv ∈ params, toLower kv.1 = LowerNamespaceParamKey) →
        (parseParameters toLower params options).2.LowerNamespace = options.LowerNamespace) ∧
      ((∃ kv ∈ params, toLower kv.1 = LowerStorageClassNameParamKey) →
        ∃ kv ∈ params, toLower kv.1 = LowerStorageClassNameParamKey ∧
          (parseParameters toLower params options).2.LowerStorageClassName = some kv.2) ∧
      ((¬ ∃ kv ∈ params, toLower kv.1 = LowerStorageClassNameParamKey) →
        (parseParameters toLower params options).2.LowerStorageClassName =
          options.LowerStorageClassName) := by
  induction params with
  | nil => intro options _; simp [parseParameters]
  | cons kv rest ih =>
    intro options
    obtain ⟨k, v⟩ := kv
    rw [parseParameters]
    have d1 : LowerNamespaceParamKey ≠ LowerStorageClassNameParamKey := by decide
    have d2 : ¬ (LowerStorageClassNameParamKey = LowerNamespaceParamKey) := by decide
    by_cases h1 : toLower k = LowerNamespaceParamKey
    · have h2 : toLower k ≠ LowerStorageClassNameParamKey := by rw [h1]; exact d1
      simp only [h1, if_true]
      intro hok
      obtain ⟨i1, i2, i3, i4⟩ := ih { options with LowerNamespace := v } hok
      refine ⟨?_, ?_, ?_, ?_⟩
      · intro _
        by_cases hr : ∃ kv ∈ rest, toLower kv.1 = LowerNamespaceParamKey
        · obtain ⟨kv, hm, hk, hv⟩ := i1 hr
          exact ⟨kv, List.mem_cons_of_mem _ hm, hk, hv⟩
        · exact ⟨(k, v), List.mem_cons_self _ _, h1, i2 hr⟩
      · intro hn
        exact absurd ⟨(k, v), List.mem_cons_self _ _, h1⟩ hn
      · rintro ⟨kv, hm, hk⟩
        rcases List.mem_cons.1 hm with rfl | hm
        · exact absurd (h1 ▸ hk) d1
        · obtain ⟨kv2, hm2, hk2, hv2⟩ := i3 ⟨kv, hm, hk⟩
          exact ⟨kv2, List.mem_cons_of_mem _ hm2, hk2, hv2⟩
      · intro hn
        exact i4 (fun ⟨kv, hm, hk⟩ => hn ⟨kv, List.mem_cons_of_mem _ hm, hk⟩)
    · by_cases h2 : toLower k = LowerStorageClassNameParamKey
      · simp only [h2, d2, if_false, if_true]
        by_cases hv : v = ""
        · simp [hv]
        · simp only [hv, if_false]
          intro hok
          obtain ⟨i1, i2, i3, i4⟩ := ih { options with LowerStorageClassName := some v } hok
          refine ⟨?_, ?_, ?_, ?_⟩
          · rintro ⟨kv, hm, hk⟩
            rcases List.mem_cons.1 hm with rfl | hm
            · exact absurd hk h1
            · obtain ⟨kv2, hm2, hk2, hv2⟩ := i1 ⟨kv, hm, hk⟩
              exact ⟨kv2, List.mem_cons_of_mem _ hm2, hk2, hv2⟩
          · intro hn
            exact i2 (fun ⟨kv, hm, hk⟩ => hn ⟨kv, List.mem_cons_of_mem _ hm, hk⟩)
          · intro _
            by_cases hr : ∃ kv ∈ rest, toLower kv.1 = LowerStorageClassNameParamKey
            · obtain ⟨kv, hm, hk, hv⟩ := i3 hr
              exact ⟨kv, List.mem_cons_of_mem _ hm, hk, hv⟩
            · exact ⟨(k, v), List.mem_cons_self _ _, h2, i4 hr⟩
          · intro hn
            exact absurd ⟨(k, v), List.mem_cons_self _ _, h2⟩ hn
      · by_cases h3 : toLower k = PVCNameParamKey ∨ toLower k = PVCNamespaceParamKey ∨
            toLower k = PVNameParamKey
        · simp only [h1, h2, h3, if_false, if_true]
          intro hok
          obtain ⟨i1, i2, i3, i4⟩ := ih options hok
          refine ⟨?_, ?_, ?_, ?_⟩
          · rintro ⟨kv, hm, hk⟩
            rcases List.mem_cons.1 hm with rfl | hm
            · exact absurd hk h1
            · obtain ⟨kv2, hm2, hk2, hv2⟩ := i1 ⟨kv, hm, hk⟩
              exact ⟨kv2, List.mem_cons_of_mem _ hm2, hk2, hv2⟩
          · intro hn
            exact i2 (fun ⟨kv, hm, hk⟩ => hn ⟨kv, List.mem_cons_of_mem _ hm, hk⟩)
          · rintro ⟨kv, hm, hk⟩
            rcases List.mem_cons.1 hm with rfl | hm
            · exact absurd hk h2
            · obtain ⟨kv2, hm2, hk2, hv2⟩ := i3 ⟨kv, hm, hk⟩
              exact ⟨kv2, List.mem_cons_of_mem _ hm2, hk2, hv2⟩
          · intro hn
            exact i4 (fun ⟨kv, hm, hk⟩ => hn ⟨kv, List.mem_cons_of_mem _ hm, hk⟩)
        · simp [h1, h2, h3]

/-- The pass-through entries have no effect on the result of `parseParameters`. -/
theorem parseParameters_pass_through (toLower : String → String)
    (params : List (String × String)) :
    ∀ options : CreateLowerOptions,
      parseParameters toLower (params.filter (fun kv => !isPassThrough toLower kv.1)) options =
        parseParameters toLower params options := by
  induction params with
  | nil => intro options; rfl
  | cons kv rest ih =>
    intro options
    obtain ⟨k, v⟩ := kv
    have d1 : PVCNameParamKey ≠ LowerNamespaceParamKey ∧
        PVCNamespaceParamKey ≠ LowerNamespaceParamKey ∧
        PVNameParamKey ≠ LowerNamespaceParamKey ∧
        PVCNameParamKey ≠ LowerStorageClassNameParamKey ∧
        PVCNamespaceParamKey ≠ LowerStorageClassNameParamKey ∧
        PVNameParamKey ≠ LowerStorageClassNameParamKey := by decide
    by_cases h3 : toLower k = PVCNameParamKey ∨ toLower k = PVCNamespaceParamKey ∨
        toLower k = PVNameParamKey
    · have hp : isPassThrough toLower k = true := by simp [isPassThrough, h3]
      have h1 : toLower k ≠ LowerNamespaceParamKey := by
        rcases h3 with h | h | h <;> rw [h] <;> tauto
      have h2 : toLower k ≠ LowerStorageClassNameParamKey := by
        rcases h3 with h | h | h <;> rw [h] <;> tauto
      rw [List.filter_cons]
      simp only [hp, Bool.not_true, Bool.false_eq_true, if_false]
      rw [ih options]
      conv_rhs => rw [parseParameters]
      simp only [h1, h2, h3, if_false, if_true]
    · have hp : isPassThrough toLower k = false := by simp [isPassThrough, h3]
      rw [List.filter_cons]
      simp only [hp, Bool.not_false, if_true]
      rw [parseParameters]
      conv_rhs => rw [parseParameters]
      by_cases h1 : toLower k = LowerNamespaceParamKey
      · simp only [h1, if_true]
        exact ih _
      · by_cases h2 : toLower k = LowerStorageClassNameParamKey
        · have d2 : ¬ (LowerStorageClassNameParamKey = LowerNamespaceParamKey) := by decide
          simp only [h2, d2, if_false, if_true]
          by_cases hv : v = ""
          · simp [hv]
          · simp only [hv, if_false]
            exact ih _
        · simp only [h1, h2, h3, if_false]

/-- C20: `parseParameters` succeeds exactly when every key, lower-cased, is one of the
five known keys and no storage class key has an empty value, and a failure is an
invalid-argument status. On success the namespace is the value of a namespace key when
there is one and the namespace of the options passed in otherwise, the storage class is
the value of a storage class key when there is one and the storage class of the options
passed in (unset at the call site) otherwise, and the other options are unchanged; and
the entries with a pass-through key have no effect on the result. -/
theorem parseParameters_spec (toLower : String → String) (params : List (String × String))
    (options : CreateLowerOptions) :
    ((parseParameters toLower params options).1 = none ↔
      (∀ kv ∈ params, toLower kv.1 ∈ [LowerNamespaceParamKey, LowerStorageClassNameParamKey,
        PVCNameParamKey, PVCNamespaceParamKey, PVNameParamKey]) ∧
      (∀ kv ∈ params, toLower kv.1 = LowerStorageClassNameParamKey → kv.2 ≠ "")) ∧
    (∀ st, (parseParameters toLower params options).1 = some st →
      st.Code = Code.InvalidArgument) ∧
    ((parseParameters toLower params options).1 = none →
      ((∃ kv ∈ params, toLower kv.1 = LowerNamespaceParamKey) →
        ∃ kv ∈ params, toLower kv.1 = LowerNamespaceParamKey ∧
          (parseParameters toLower params options).2.LowerNamespace = kv.2) ∧
      ((¬ ∃ kv ∈ params, toLower kv.1 = LowerNamespaceParamKey) →
        (parseParameters toLower params options).2.LowerNamespace = options.LowerNamespace) ∧
      ((∃ kv ∈ params, toLower kv.1 = LowerStorageClassNameParamKey) →
        ∃ kv ∈ params, toLower kv.1 = LowerStorageClassNameParamKey ∧
          (parseParameters toLower params options).2.LowerStorageClassName = some kv.2) ∧
      ((¬ ∃ kv ∈ params, toLower kv.1 = LowerStorageClassNameParamKey) →
        (parseParameters toLower params options).2.LowerStorageClassName =
          options.LowerStorageClassName) ∧
      (parseParameters toLower params options).2.CapacityBytes = options.CapacityBytes ∧
      (parseParameters toLower params options).2.CSIAccessModes = options.CSIAccessModes) ∧
    parseParameters toLower (params.filter (fun kv => !isPassThrough toLower kv.1)) options =
      parseParameters toLower params options := by
  obtain ⟨h1, h2, h3, h4⟩ := parseParameters_ok_iff toLower params options
  refine ⟨h1, h2, ?_, parseParameters_pass_through toLower params options⟩
  intro hok
  obtain ⟨v1, v2, v3, v4⟩ := parseParameters_values toLower params options hok
  exact ⟨v1, v2, v3, v4, h3, h4⟩

/-- C20 on `sampleParams` with the options of the call site, and on a map with only a
pass-through key. -/
theorem parseParameters_spec_witness :
    (parseParameters asciiLower sampleParams ⟨0, "union", none, []⟩).1 = none ∧
    ((∃ kv ∈ sampleParams, asciiLower kv.1 = LowerNamespaceParamKey ∧
        (parseParameters asciiLower sampleParams ⟨0, "union", none, []⟩).2.LowerNamespace =
          kv.2) ∧
      (∃ kv ∈ sampleParams, asciiLower kv.1 = LowerStorageClassNameParamKey ∧
        (parseParameters asciiLower sampleParams
          ⟨0, "union", none, []⟩).2.LowerStorageClassName = some kv.2)) ∧
    ((parseParameters asciiLower [("csi.storage.k8s.io/pv/name", "pv-1")]
        ⟨0, "union", none, []⟩).2.LowerNamespace = "union" ∧
      (parseParameters asciiLower [("csi.storage.k8s.io/pv/name", "pv-1")]
        ⟨0, "union", none, []⟩).2.LowerStorageClassName = none) :=
  ⟨by decide,
    ⟨((parseParameters_spec asciiLower sampleParams ⟨0, "union", none, []⟩).2.2.1
        (by decide)).1 ⟨("LowerNamespace", "tenant"), by decide, by decide⟩,
      ((parseParameters_spec asciiLower sampleParams ⟨0, "union", none, []⟩).2.2.1
        (by decide)).2.2.1 ⟨("lowerStorageClassName", "fast"), by decide, by decide⟩⟩,
    ⟨((parseParameters_spec asciiLower [("csi.storage.k8s.io/pv/name", "pv-1")]
        ⟨0, "union", none, []⟩).2.2.1 (by decide)).2.1 (by decide),
      ((parseParameters_spec asciiLower [("csi.storage.k8s.io/pv/name", "pv-1")]
        ⟨0, "union", none, []⟩).2.2.1 (by decide)).2.2.2.1 (by decide)⟩⟩

/-! ## Properties of the delete path over the keyed stores -/

/-- After the deletion of a claim from the keyed cluster, the claim is absent. -/
theorem keyed_claimDelete_absent (cl : ClusterState) (ns name : String) :
    (keyedCluster.claimDelete cl ns name).2.findClaim ns name = none := by
  simp only [keyedCluster]
  rcases hf : cl.findClaim ns name with _ | c
  · simpa using hf
  · simp only [ClusterState.findClaim, List.find?_eq_none, List.mem_filter]
    rintro x ⟨_, hx⟩ hx2
    rw [hx2] at hx
    simp at hx

/-- The deletion of a claim from the keyed cluster leaves absent claims absent. -/
theorem keyed_claimDelete_mono (cl : ClusterState) (ns name ns2 name2 : String)
    (h : cl.findClaim ns2 name2 = none) :
    (keyedCluster.claimDelete cl ns name).2.findClaim ns2 name2 = none := by
  simp only [keyedCluster]
  rcases hf : cl.findClaim ns name with _ | c
  · simpa using h
  · simp only [ClusterState.findClaim, List.find?_eq_none, List.mem_filter] at h ⊢
    rintro x ⟨hx, _⟩
    exact h x hx

/-- A delete of the keyed cluster answers nil or a not-found. -/
theorem keyed_claimDelete_result (cl : ClusterState) (ns name : String) :
    (keyedCluster.claimDelete cl ns name).1 = none ∨
      (keyedCluster.claimDelete cl ns name).1 = some (GoError.status StatusKind.NotFound name) := by
  simp only [keyedCluster]
  rcases cl.findClaim ns name with _ | c <;> simp

/-- Over the keyed cluster the loop of `deleteLowerFromSplit` returns nil, leaves every
claim of the entries absent, and leaves absent claims absent. -/
theorem deleteLowerLoop_keyed (p : String) (a : attacher) (split : VolumeSplit) :
    ∀ (entries : List PersistentVolumeClaimSplit) (cl : ClusterState),
      ((New p a).deleteLowerLoop split entries cl).1 = none ∧
      (∀ e ∈ entries, ((New p a).deleteLowerLoop split entries cl).2.1.findClaim
        split.Spec.Namespace e.ClaimName = none) ∧
      (∀ ns2 name2, cl.findClaim ns2 name2 = none →
        ((New p a).deleteLowerLoop split entries cl).2.1.findClaim ns2 name2 = none) := by
  intro entries
  induction entries with
  | nil => intro cl; simp [union.deleteLowerLoop]
  | cons c rest ih =>
    intro cl
    rw [union.deleteLowerLoop]
    unfold union.deleteLowerClaimFromSplit
    have hc : (New p a).cluster = keyedCluster := rfl
    simp only [hc]
    obtain ⟨i1, i2, i3⟩ := ih (keyedCluster.claimDelete cl split.Spec.Namespace c.ClaimName).2
    have hmono := keyed_claimDelete_mono cl split.Spec.Namespace c.ClaimName
    have habs := keyed_claimDelete_absent cl split.Spec.Namespace c.ClaimName
    rcases keyed_claimDelete_result cl split.Spec.Namespace c.ClaimName with hr | hr
    · simp only [hr]
      refine ⟨i1, ?_, fun ns2 name2 h => i3 ns2 name2 (hmono ns2 name2 h)⟩
      intro e he
      rcases List.mem_cons.1 he with rfl | he
      · exact i3 _ _ habs
      · exact i2 e he
    · simp only [hr, IsNotFound, statusOf, beq_self_eq_true, Bool.not_true, Bool.false_eq_true,
        if_false]
      refine ⟨i1, ?_, fun ns2 name2 h => i3 ns2 name2 (hmono ns2 name2 h)⟩
      intro e he
      rcases List.mem_cons.1 he with rfl | he
      · exact i3 _ _ habs
      · exact i2 e he

/-- Over the keyed store, `DeleteSplit` of a stored plan returns nil and leaves no plan
under the name. -/
theorem DeleteSplit_found (p volumeId : String) (st : KeyedStore) (plan : VolumeSplit)
    (h : st.find (volumeId ++ "-split") = some plan) :
    ((NewSplitter p).DeleteSplit volumeId st).1 = none ∧
      KeyedStore.find ((NewSplitter p).DeleteSplit volumeId st).2 (volumeId ++ "-split") =
        none := by
  simp only [splitter.DeleteSplit, splitter.makeSplitName, NewSplitter, keyedClient, h]
  refine ⟨trivial, ?_⟩
  simp only [KeyedStore.find, List.find?_eq_none, List.mem_filter]
  rintro x ⟨_, hx⟩ hx2
  simp only [bne, hx2, Bool.not_true, Bool.false_eq_true] at hx

/-- Over the keyed stores `DeleteLower` fails only for a volume without a plan, with an
error that is `ErrVolumeNotFound` and an unchanged world; for a stored plan it returns
nil and leaves neither the plan nor any claim named in it. -/
theorem DeleteLower_keyed (p : String) (a : attacher) (st : KeyedStore) (cl : ClusterState)
    (volumeId : String) :
    (st.find (volumeId ++ "-split") = none →
      (∃ e, ((New p a).DeleteLower st cl volumeId).err = some e ∧
        errorsIs e UnionErr.ErrVolumeNotFound = true) ∧
      ((New p a).DeleteLower st cl volumeId).splits = st ∧
      ((New p a).DeleteLower st cl volumeId).cluster = cl) ∧
    (∀ plan, st.find (volumeId ++ "-split") = some plan →
      ((New p a).DeleteLower st cl volumeId).err = none ∧
      KeyedStore.find ((New p a).DeleteLower st cl volumeId).splits (volumeId ++ "-split") =
        none ∧
      ∀ e ∈ plan.Spec.Splits, ((New p a).DeleteLower st cl volumeId).cluster.findClaim
        plan.Spec.Namespace e.ClaimName = none) := by
  have hs : (New p a).splitter = NewSplitter p := rfl
  refine ⟨?_, ?_⟩
  · intro hf
    unfold union.DeleteLower
    simp only [hs]
    rw [GetSplit_missing p volumeId st hf]
    simp [errorsIs]
  · intro plan hf
    unfold union.DeleteLower
    simp only [hs]
    rw [GetSplit_found p volumeId st plan hf]
    simp only []
    unfold union.deleteLowerFromSplit
    obtain ⟨h1, h2, _⟩ := deleteLowerLoop_keyed p a plan plan.Spec.Splits cl
    rcases hl : (New p a).deleteLowerLoop plan plan.Spec.Splits cl with ⟨err, cl1, calls⟩
    rw [hl] at h1 h2
    simp only [] at h1 h2
    subst h1
    simp only []
    obtain ⟨d1, d2⟩ := DeleteSplit_found p volumeId st plan hf
    rcases hd : (NewSplitter p).DeleteSplit volumeId st with ⟨derr, st2⟩
    rw [hd] at d1 d2
    simp only [] at d1 d2
    subst d1
    exact ⟨rfl, d2, h2⟩

/-- Over the orchestrator on the keyed stores, `DeleteVolume` of a non-empty volume id
always succeeds, leaves the world as `DeleteLower` leaves it, and leaves no plan for the
id. -/
theorem DeleteVolume_keyed (p : String) (a : attacher) (attachEnv : AttachEnv)
    (detachEnv : DetachEnv) (v : ControllerValidator) (o : driverOptions)
    (tl : String → String) (hv : v.DeleteVolumeRequestValidate = DeleteVolumeRequestValidate)
    (volumeId : String) (hid : volumeId ≠ "") (st : KeyedStore) (cl : ClusterState) :
    (controllerServer.DeleteVolume ⟨(New p a).asInterface attachEnv detachEnv, v, o, tl⟩ (st, cl)
        ⟨volumeId⟩).1 = Outcome.returned (some (), none) ∧
    (controllerServer.DeleteVolume ⟨(New p a).asInterface attachEnv detachEnv, v, o, tl⟩ (st, cl)
        ⟨volumeId⟩).2 =
      (((New p a).DeleteLower st cl volumeId).splits,
        ((New p a).DeleteLower st cl volumeId).cluster) ∧
    KeyedStore.find ((New p a).DeleteLower st cl volumeId).splits (volumeId ++ "-split") =
      none := by
  have hlen : ¬ (volumeId.length = 0) := by rw [string_length_zero]; exact hid
  obtain ⟨k1, k2⟩ := DeleteLower_keyed p a st cl volumeId
  simp only [controllerServer.DeleteVolume, hv, DeleteVolumeRequestValidate,
    ValidateDeleteVolumeRequest, hlen, if_false, List.length_nil, gt_iff_lt, lt_self_iff_false,
    union.asInterface]
  rcases hf : st.find (volumeId ++ "-split") with _ | plan
  · obtain ⟨⟨e, he, hin⟩, hs, _⟩ := k1 hf
    simp only [he, hin, if_true]
    refine ⟨trivial, trivial, ?_⟩
    rw [hs]; exact hf
  · obtain ⟨he, hs, _⟩ := k2 plan hf
    simp only [he]
    exact ⟨trivial, trivial, hs⟩

/-- C16: over the orchestrator on the keyed stores, for a non-empty volume id, after a
successful `DeleteVolume` neither the plan of the id nor any claim named in it is left in
the stores, a further identical `DeleteVolume` succeeds, and a `DeleteVolume` for an id
with no stored plan succeeds. -/
theorem DeleteVolume_idempotent (p : String) (a : attacher) (attachEnv : AttachEnv)
    (detachEnv : DetachEnv) (v : ControllerValidator) (o : driverOptions)
    (tl : String → String) (hv : v.DeleteVolumeRequestValidate = DeleteVolumeRequestValidate)
    (volumeId : String) (hid : volumeId ≠ "") (st : KeyedStore) (cl : ClusterState) :
    ((controllerServer.DeleteVolume ⟨(New p a).asInterface attachEnv detachEnv, v, o, tl⟩
        (st, cl) ⟨volumeId⟩).1 = Outcome.returned (some (), none) →
      KeyedStore.find
        (controllerServer.DeleteVolume ⟨(New p a).asInterface attachEnv detachEnv, v, o, tl⟩
          (st, cl) ⟨volumeId⟩).2.1 (volumeId ++ "-split") = none ∧
      (∀ plan, st.find (volumeId ++ "-split") = some plan → ∀ e ∈ plan.Spec.Splits,
        (controllerServer.DeleteVolume ⟨(New p a).asInterface attachEnv detachEnv, v, o, tl⟩
          (st, cl) ⟨volumeId⟩).2.2.findClaim plan.Spec.Namespace e.ClaimName = none) ∧
      (controllerServer.DeleteVolume ⟨(New p a).asInterface attachEnv detachEnv, v, o, tl⟩
        (controllerServer.DeleteVolume ⟨(New p a).asInterface attachEnv detachEnv, v, o, tl⟩
          (st, cl) ⟨volumeId⟩).2 ⟨volumeId⟩).1 = Outcome.returned (some (), none)) ∧
    (st.find (volumeId ++ "-split") = none →
      (controllerServer.DeleteVolume ⟨(New p a).asInterface attachEnv detachEnv, v, o, tl⟩
        (st, cl) ⟨volumeId⟩).1 = Outcome.returned (some (), none)) := by
  obtain ⟨h1, h2, h3⟩ := DeleteVolume_keyed p a attachEnv detachEnv v o tl hv volumeId hid st cl
  refine ⟨fun _ => ⟨?_, ?_, ?_⟩, fun _ => h1⟩
  · rw [h2]; exact h3
  · intro plan hf e he
    rw [h2]
    exact ((DeleteLower_keyed p a st cl volumeId).2 plan hf).2.2 e he
  · rw [h2]
    exact (DeleteVolume_keyed p a attachEnv detachEnv v o tl hv volumeId hid _ _).1

/-- C16 on the plan of the volume `v` with its two claims: the first `DeleteVolume`
succeeds and leaves neither the plan nor the claims, and the second succeeds. -/
theorem DeleteVolume_idempotent_witness :
    ((sampleServer (steadyEnv (.ok (samplePod PodRunning "nodeA"))) noPodEnv).DeleteVolume
        (sampleStore, sampleCluster) ⟨"v"⟩).1 = Outcome.returned (some (), none) ∧
    (KeyedStore.find
        ((sampleServer (steadyEnv (.ok (samplePod PodRunning "nodeA"))) noPodEnv).DeleteVolume
          (sampleStore, sampleCluster) ⟨"v"⟩).2.1 ("v" ++ "-split") = none ∧
      (∀ plan, KeyedStore.find sampleStore ("v" ++ "-split") = some plan →
        ∀ e ∈ plan.Spec.Splits,
          ((sampleServer (steadyEnv (.ok (samplePod PodRunning "nodeA")))
            noPodEnv).DeleteVolume (sampleStore, sampleCluster) ⟨"v"⟩).2.2.findClaim
            plan.Spec.Namespace e.ClaimName = none) ∧
      ((sampleServer (steadyEnv (.ok (samplePod PodRunning "nodeA"))) noPodEnv).DeleteVolume
        ((sampleServer (steadyEnv (.ok (samplePod PodRunning "nodeA"))) noPodEnv).DeleteVolume
          (sampleStore, sampleCluster) ⟨"v"⟩).2 ⟨"v"⟩).1 = Outcome.returned (some (), none)) :=
  ⟨by decide,
    (DeleteVolume_idempotent "" sampleAttacher (steadyEnv (.ok (samplePod PodRunning "nodeA")))
      noPodEnv _ ⟨"union"⟩ String.toLower rfl "v" (by decide) sampleStore sampleCluster).1
      (by decide)⟩

/-! ## Properties of the create path over the keyed stores -/

/-- Looking a claim up after one claim was added to a cluster. -/
theorem findClaim_append (cl : ClusterState) (c : PersistentVolumeClaim) (ns name : String) :
    ClusterState.findClaim { cl with claims := cl.claims ++ [c] } ns name =
      match cl.findClaim ns name with
      | some x => some x
      | none => if c.Namespace = ns ∧ c.Name = name then some c else none := by
  simp only [ClusterState.findClaim, List.find?_append]
  generalize List.find? (fun c => c.Namespace == ns && c.Name == name) cl.claims = r
  cases r with
  | none =>
    by_cases h : c.Namespace = ns ∧ c.Name = name
    · simp [List.find?, h]
    · have hb : (c.Namespace == ns && c.Name == name) = false := by
        simpa using h
      simp [List.find?, h, hb]
  | some x => simp

/-- Over the keyed cluster `createLowerClaimFromSplit` never fails: it returns a claim
that is stored, and the cluster unchanged; or it finds no claim under the name and adds
the claim built from the plan and the entry. -/
theorem createLowerClaimFromSplit_keyed (p : String) (a : attacher) (cl : ClusterState)
    (split : VolumeSplit) (claimSplit : PersistentVolumeClaimSplit) :
    (∃ c, cl.findClaim split.Spec.Namespace claimSplit.ClaimName = some c ∧
      (New p a).createLowerClaimFromSplit cl split claimSplit =
        (Outcome.returned (some c, false, none), cl)) ∨
    (cl.findClaim split.Spec.Namespace claimSplit.ClaimName = none ∧
      (New p a).createLowerClaimFromSplit cl split claimSplit =
        (Outcome.returned
          (some ⟨claimSplit.ClaimName, split.Spec.Namespace,
            ⟨split.Spec.AccessModes, claimSplit.Resources, split.Spec.StorageClassName⟩⟩,
            true, none),
          { cl with claims := cl.claims ++
            [⟨claimSplit.ClaimName, split.Spec.Namespace,
              ⟨split.Spec.AccessModes, claimSplit.Resources,
                split.Spec.StorageClassName⟩⟩] })) := by
  rcases hf : cl.findClaim split.Spec.Namespace claimSplit.ClaimName with _ | c
  · right
    refine ⟨rfl, ?_⟩
    simp [union.createLowerClaimFromSplit, New, keyedCluster, hf, IsNotFound, statusOf]
  · left
    refine ⟨c, rfl, ?_⟩
    simp [union.createLowerClaimFromSplit, New, keyedCluster, hf, isValidLowerClaimFromSplit]

/-- Over the keyed cluster the loop of `createLowerFromSplit` returns nil; afterwards
every entry has its claim, the claims that were stored are stored unchanged, and a claim
that was absent is the one built from the plan and an entry of that name. -/
theorem createLowerLoop_keyed (p : String) (a : attacher) (split : VolumeSplit) :
    ∀ (entries : List PersistentVolumeClaimSplit) (cl : ClusterState),
      ((New p a).createLowerLoop split entries cl).1 = Outcome.returned none ∧
      (∀ ns name c, cl.findClaim ns name = some c →
        ((New p a).createLowerLoop split entries cl).2.findClaim ns name = some c) ∧
      (∀ e ∈ entries, (((New p a).createLowerLoop split entries cl).2.findClaim
        split.Spec.Namespace e.ClaimName).isSome = true) ∧
      (∀ e ∈ entries, cl.findClaim split.Spec.Namespace e.ClaimName = none →
        ∃ e2 ∈ entries, e2.ClaimName = e.ClaimName ∧
          ((New p a).createLowerLoop split entries cl).2.findClaim split.Spec.Namespace
              e.ClaimName =
            some ⟨e.ClaimName, split.Spec.Namespace,
              ⟨split.Spec.AccessModes, e2.Resources, split.Spec.StorageClassName⟩⟩) := by
  intro entries
  induction entries with
  | nil => intro cl; simp [union.createLowerLoop]
  | cons x rest ih =>
    intro cl
    rw [union.createLowerLoop]
    rcases createLowerClaimFromSplit_keyed p a cl split x with ⟨c, hc, heq⟩ | ⟨hn, heq⟩
    · rw [heq]
      simp only []
      obtain ⟨i1, i2, i3, i4⟩ := ih cl
      refine ⟨i1, i2, ?_, ?_⟩
      · intro e he
        rcases List.mem_cons.1 he with rfl | he
        · rw [i2 _ _ c hc]; rfl
        · exact i3 e he
      · intro e he habs
        rcases List.mem_cons.1 he with rfl | he
        · rw [hc] at habs; simp at habs
        · obtain ⟨e2, he2, hn2, hv⟩ := i4 e he habs
          exact ⟨e2, List.mem_cons_of_mem _ he2, hn2, hv⟩
    · rw [heq]
      simp only []
      obtain ⟨i1, i2, i3, i4⟩ := ih { cl with claims := cl.claims ++
        [⟨x.ClaimName, split.Spec.Namespace,
          ⟨split.Spec.AccessModes, x.Resources, split.Spec.StorageClassName⟩⟩] }
      have hnew : ClusterState.findClaim { cl with claims := cl.claims ++
          [⟨x.ClaimName, split.Spec.Namespace,
            ⟨split.Spec.AccessModes, x.Resources, split.Spec.StorageClassName⟩⟩] }
          split.Spec.Namespace x.ClaimName =
          some ⟨x.ClaimName, split.Spec.Namespace,
            ⟨split.Spec.AccessModes, x.Resources, split.Spec.StorageClassName⟩⟩ := by
        rw [findClaim_append, hn]
        simp
      refine ⟨i1, ?_, ?_, ?_⟩
      · intro ns name c hc
        apply i2
        rw [findClaim_append, hc]
      · intro e he
        rcases List.mem_cons.1 he with rfl | he
        · rw [i2 _ _ _ hnew]; rfl
        · exact i3 e he
      · intro e he habs
        by_cases hname : e.ClaimName = x.ClaimName
        · refine ⟨x, List.mem_cons_self _ _, hname.symm, ?_⟩
          rw [hname]
          exact i2 _ _ _ hnew
        · have habs2 : ClusterState.findClaim { cl with claims := cl.claims ++
              [⟨x.ClaimName, split.Spec.Namespace,
                ⟨split.Spec.AccessModes, x.Resources, split.Spec.StorageClassName⟩⟩] }
              split.Spec.Namespace e.ClaimName = none := by
            rw [findClaim_append, habs]
            simp only []
            rw [if_neg]
            rintro ⟨_, h2⟩
            exact hname h2.symm
          rcases List.mem_cons.1 he with rfl | he
          · exact absurd rfl hname
          · obtain ⟨e2, he2, hn2, hv⟩ := i4 e he habs2
            exact ⟨e2, List.mem_cons_of_mem _ he2, hn2, hv⟩

/-- Over the keyed stores, where the lister reads the state the client writes, whenever
`CreateLower` succeeds the plan that `CreateSplit` returned has, for every entry, a claim
of that name in the namespace of the plan; the claims that were stored before are stored
unchanged; a claim that was absent is the one created with the access modes and the
storage class of the plan and the resources of an entry of that name; and the returned
volume, made from the plan, reports the capacity 0. -/
theorem CreateLower_keyed (p : String) (a : attacher) (st st1 : KeyedStore)
    (cl cl1 : ClusterState) (volumeName : String) (options : CreateLowerOptions)
    (volume : Volume)
    (h : (New p a).CreateLower st cl volumeName options =
      (Outcome.returned (some volume, none), st1, cl1)) :
    ∃ (splitSpec : VolumeSplitSpec) (split : VolumeSplit),
      (NewSplitter p).CreateSplit volumeName splitSpec st = ((some split, none), st1) ∧
      volume = { NewVolumeFromVolumeSplit split with CapacityBytes := 0 } ∧
      volume.CapacityBytes = 0 ∧
      (∀ e ∈ split.Spec.Splits,
        (cl1.findClaim split.Spec.Namespace e.ClaimName).isSome = true) ∧
      (∀ ns name c, cl.findClaim ns name = some c → cl1.findClaim ns name = some c) ∧
      (∀ e ∈ split.Spec.Splits, cl.findClaim split.Spec.Namespace e.ClaimName = none →
        ∃ e2 ∈ split.Spec.Splits, e2.ClaimName = e.ClaimName ∧
          cl1.findClaim split.Spec.Namespace e.ClaimName =
            some ⟨e.ClaimName, split.Spec.Namespace,
              ⟨split.Spec.AccessModes, e2.Resources, split.Spec.StorageClassName⟩⟩) := by
  unfold union.CreateLower at h
  have hs : (New p a).splitter = NewSplitter p := rfl
  rcases hm : getAccessModes options.CSIAccessModes with ⟨modes, _ | merr⟩
  · rw [hm] at h
    simp only [hs] at h
    rcases hc : (NewSplitter p).CreateSplit volumeName
        { VolumeName := volumeName
          CapacityTotal := [(ResourceStorage, getQuantity options.CapacityBytes)]
          AccessModes := modes
          Namespace := options.LowerNamespace
          StorageClassName := options.LowerStorageClassName
          Splits := [] } st with ⟨⟨osplit, oerr⟩, st2⟩
    rw [hc] at h
    rcases oerr with _ | cerr
    · rcases osplit with _ | split
      · simp at h
      · simp only [] at h
        unfold union.createLowerFromSplit at h
        by_cases hlen : split.Spec.Splits.length = 0
        · simp [hlen] at h
        · simp only [hlen, if_false] at h
          obtain ⟨k1, k2, k3, k4⟩ := createLowerLoop_keyed p a split split.Spec.Splits cl
          rcases hl : (New p a).createLowerLoop split split.Spec.Splits cl with ⟨o, cl2⟩
          rw [hl] at h k1 k2 k3 k4
          simp only [] at k1 k2 k3 k4
          subst k1
          simp only [Prod.mk.injEq, Outcome.returned.injEq, Option.some.injEq, and_true] at h
          obtain ⟨hvol, hst, hcl⟩ := h
          subst hst hcl
          exact ⟨_, split, hc, hvol.symm, by rw [← hvol], k3, k2, k4⟩
    · simp at h
  · rw [hm] at h
    simp at h


/-! ## Further properties of the compatibility check and of the create paths -/

/-- For non-nil specs the check compares the namespaces, the storage class names, the
total storage capacities and the access modes. -/
theorem isSplitSpecCompatible_some (old new : VolumeSplitSpec) :
    isSplitSpecCompatible (some old) (some new) = true ↔
      old.Namespace = new.Namespace ∧ old.StorageClassName = new.StorageClassName ∧
      (new.CapacityTotal.index ResourceStorage).Value ≤
        (old.CapacityTotal.index ResourceStorage).Value ∧
      ∀ mode ∈ new.AccessModes, mode ∈ old.AccessModes := by
  unfold isSplitSpecCompatible
  simp only []
  have hcmp : ((new.CapacityTotal.index ResourceStorage).Cmp
      (old.CapacityTotal.index ResourceStorage) > 0) ↔
      ¬ ((new.CapacityTotal.index ResourceStorage).Value ≤
        (old.CapacityTotal.index ResourceStorage).Value) := by
    rw [Cmp_pos_iff]; omega
  by_cases hns : old.Namespace = new.Namespace
  · rcases ho : old.StorageClassName with _ | o <;>
      rcases hn : new.StorageClassName with _ | n
    · by_cases hc : (new.CapacityTotal.index ResourceStorage).Cmp
          (old.CapacityTotal.index ResourceStorage) > 0
      · simp [hns, hc, hcmp.1 hc]
      · have h2 := not_not.1 (fun h => hc (hcmp.2 h))
        simp [hns, hc, h2, isAccessModesCompatible_iff]
    · simp [hns]
    · simp [hns]
    · by_cases hon : o = n
      · by_cases hc : (new.CapacityTotal.index ResourceStorage).Cmp
            (old.CapacityTotal.index ResourceStorage) > 0
        · simp [hns, hc, hcmp.1 hc, hon]
        · have h2 := not_not.1 (fun h => hc (hcmp.2 h))
          simp [hns, hc, h2, hon, isAccessModesCompatible_iff]
      · simp [hns, hon]
  · simp [hns]

/-- C28: on non-nil specs `isSplitSpecCompatible` is reflexive and transitive. -/
theorem isSplitSpecCompatible_preorder :
    (∀ a : VolumeSplitSpec, isSplitSpecCompatible (some a) (some a) = true) ∧
    (∀ a b c : VolumeSplitSpec, isSplitSpecCompatible (some a) (some b) = true →
      isSplitSpecCompatible (some b) (some c) = true →
      isSplitSpecCompatible (some a) (some c) = true) := by
  refine ⟨?_, ?_⟩
  · intro a
    exact (isSplitSpecCompatible_some a a).2 ⟨rfl, rfl, le_refl _, fun _ h => h⟩
  · intro a b c hab hbc
    obtain ⟨n1, s1, c1, m1⟩ := (isSplitSpecCompatible_some a b).1 hab
    obtain ⟨n2, s2, c2, m2⟩ := (isSplitSpecCompatible_some b c).1 hbc
    exact (isSplitSpecCompatible_some a c).2
      ⟨n1.trans n2, s1.trans s2, le_trans c2 c1, fun mode h => m1 mode (m2 mode h)⟩

/-- C28 on three specs of 2048, 1024 and 512 bytes. -/
theorem isSplitSpecCompatible_preorder_witness :
    isSplitSpecCompatible (some (sampleSpec "v" 2048)) (some (sampleSpec "v" 1024)) = true ∧
    isSplitSpecCompatible (some (sampleSpec "v" 1024)) (some (sampleSpec "w" 512)) = true ∧
    isSplitSpecCompatible (some (sampleSpec "v" 2048)) (some (sampleSpec "w" 512)) = true :=
  ⟨by decide, by decide,
    isSplitSpecCompatible_preorder.2 (sampleSpec "v" 2048) (sampleSpec "v" 1024)
      (sampleSpec "w" 512) (by decide) (by decide)⟩

/-- C26, as the code behaves: when the first lookup of `CreateSplit` fails with an error
`e` that is not a not-found, `CreateSplit` does not return `e`. It goes on to compare the
spec of the object the client returned with the requested spec: it answers
`ErrIdempotencyIncompatible` when they are not compatible, as they are not when the
client returned the zero object and the requested namespace is not empty, and it
returns the object of the failed lookup with a nil error when they are. -/
theorem CreateSplit_lookup_failure_not_returned {σ : Type} (s : splitter σ)
    (volumeId : String) (splitSpec : VolumeSplitSpec) (st st1 : σ) (o : VolumeSplit)
    (e : GoError)
    (hget : s.unionClient.Get st (volumeId ++ "-split" ++ "-split") = ((o, some e), st1))
    (hnf : IsNotFound e = false) :
    (isSplitSpecCompatible (some o.Spec) (some splitSpec) = false →
      s.CreateSplit volumeId splitSpec st =
        ((none, some (GoError.sentinel UnionErr.ErrIdempotencyIncompatible)), st1)) ∧
    (isSplitSpecCompatible (some o.Spec) (some splitSpec) = true →
      s.CreateSplit volumeId splitSpec st = ((some o, none), st1)) ∧
    (o = VolumeSplit.zero → splitSpec.Namespace ≠ "" →
      s.CreateSplit volumeId splitSpec st =
        ((none, some (GoError.sentinel UnionErr.ErrIdempotencyIncompatible)), st1)) := by
  have hg : s.GetSplit (s.makeSplitName volumeId) st = ((o, some e), st1) := by
    simp [splitter.GetSplit, splitter.makeSplitName, hget, hnf]
  have hrun : s.CreateSplit volumeId splitSpec st =
      (if !isSplitSpecCompatible (some o.Spec) (some splitSpec) then
        ((none, some (GoError.sentinel UnionErr.ErrIdempotencyIncompatible)), st1)
      else ((some o, none), st1)) := by
    unfold splitter.CreateSplit
    simp only [hg, hnf, Bool.false_eq_true, if_false]
  refine ⟨?_, ?_, ?_⟩
  · intro h
    rw [hrun, h]; rfl
  · intro h
    rw [hrun, h]; rfl
  · intro ho hns
    have h : isSplitSpecCompatible (some o.Spec) (some splitSpec) = false := by
      rcases hb : isSplitSpecCompatible (some o.Spec) (some splitSpec) with _ | _
      · rfl
      · have := ((isSplitSpecCompatible_some o.Spec splitSpec).1 hb).1
        rw [ho] at this
        exact absurd this.symm hns
    rw [hrun, h]; rfl

/-- C26 on a client whose every call fails with a connection error: `CreateSplit` of the
volume `v` answers `ErrIdempotencyIncompatible`, not the connection error. -/
theorem CreateSplit_lookup_failure_not_returned_witness :
    (splitter.CreateSplit ⟨failingClient (GoError.external "connection refused"), ""⟩ "v"
      (sampleSpec "v" 1024) ()).1 =
      (none, some (GoError.sentinel UnionErr.ErrIdempotencyIncompatible)) ∧
    GoError.sentinel UnionErr.ErrIdempotencyIncompatible ≠
      GoError.external "connection refused" :=
  ⟨congrArg Prod.fst
      ((CreateSplit_lookup_failure_not_returned
        ⟨failingClient (GoError.external "connection refused"), ""⟩ "v" (sampleSpec "v" 1024)
        () () VolumeSplit.zero (GoError.external "connection refused") rfl rfl).2.2 rfl
        (by decide)),
    by decide⟩

/-- C27, as the code behaves: when the lookup of the claim fails with an error that is
not a not-found, `createLowerClaimFromSplit` does not exit early: it takes the branch for
a claim that exists and dereferences the nil claim to print its key. The cluster is
unchanged. -/
theorem createLowerClaimFromSplit_lookup_failure {σ ω : Type} (u : union σ ω) (cl : ω)
    (split : VolumeSplit) (claimSplit : PersistentVolumeClaimSplit) (e : GoError)
    (hget : u.cluster.claimGet cl split.Spec.Namespace claimSplit.ClaimName = .error e)
    (hnf : IsNotFound e = false) :
    u.createLowerClaimFromSplit cl split claimSplit = (Outcome.nilDereference, cl) := by
  simp [union.createLowerClaimFromSplit, hget, hnf]

/-- C27 on a lister that fails with a connection error, for the first entry of the plan
of the volume `v`; the whole `CreateLower` call ends in the same nil dereference. -/
theorem createLowerClaimFromSplit_lookup_failure_witness :
    union.createLowerClaimFromSplit
        ⟨brokenLister (GoError.external "connection refused"), NewSplitter "", sampleAttacher⟩
        sampleCluster (plannedSplit (NewSplitter "") "v-split" (sampleSpec "v" 1024))
        ⟨"v-lower0", ⟨[], [(ResourceStorage, NewQuantity 512 Format.BinarySI)]⟩⟩ =
      (Outcome.nilDereference, sampleCluster) ∧
    (union.CreateLower
        ⟨brokenLister (GoError.external "connection refused"), NewSplitter "", sampleAttacher⟩
        [] sampleCluster "v" sampleOptions).1 = Outcome.nilDereference :=
  ⟨createLowerClaimFromSplit_lookup_failure
      ⟨brokenLister (GoError.external "connection refused"), NewSplitter "", sampleAttacher⟩
      sampleCluster (plannedSplit (NewSplitter "") "v-split" (sampleSpec "v" 1024))
      ⟨"v-lower0", ⟨[], [(ResourceStorage, NewQuantity 512 Format.BinarySI)]⟩⟩
      (GoError.external "connection refused") rfl rfl,
    by decide⟩

/-! ## Properties of the host path -/

/-- A path has at least one element. -/
theorem splitSlash_ne_nil (cs : List Char) : splitSlash cs ≠ [] := by
  cases cs with
  | nil => simp [splitSlash]
  | cons c cs =>
    rw [splitSlash]
    rcases splitSlash cs with _ | ⟨x, xs⟩
    · simp
    · by_cases h : c = '/' <;> simp [h]

/-- A leading separator opens an empty first element. -/
theorem splitSlash_cons_slash (cs : List Char) : splitSlash ('/' :: cs) = [] :: splitSlash cs := by
  rw [splitSlash]
  rcases h : splitSlash cs with _ | ⟨x, xs⟩
  · exact absurd h (splitSlash_ne_nil cs)
  · simp

/-- The elements of two paths joined by a separator. -/
theorem splitSlash_append (a b : List Char) :
    splitSlash (a ++ '/' :: b) = splitSlash a ++ splitSlash b := by
  induction a with
  | nil =>
    rw [List.nil_append, splitSlash_cons_slash]
    rfl
  | cons c a ih =>
    rw [List.cons_append, splitSlash, ih, splitSlash]
    rcases h : splitSlash a with _ | ⟨x, xs⟩
    · exact absurd h (splitSlash_ne_nil a)
    · by_cases hc : c = '/' <;> simp [hc]

/-- A text without a separator is one element. -/
theorem splitSlash_no_slash (e : List Char) (h : '/' ∉ e) : splitSlash e = [e] := by
  induction e with
  | nil => rfl
  | cons c e ih =>
    have hc : c ≠ '/' := fun hc => h (by simp [hc])
    have he : '/' ∉ e := fun he => h (List.mem_cons_of_mem _ he)
    rw [splitSlash, ih he]
    simp [hc]

/-- No element of a path holds a separator. -/
theorem mem_splitSlash_no_slash (cs e : List Char) (h : e ∈ splitSlash cs) : '/' ∉ e := by
  induction cs generalizing e with
  | nil =>
    simp [splitSlash] at h
    simp [h]
  | cons c cs ih =>
    rw [splitSlash] at h
    rcases hs : splitSlash cs with _ | ⟨x, xs⟩
    · exact absurd hs (splitSlash_ne_nil cs)
    · rw [hs] at h ih
      by_cases hc : c = '/'
      · simp only [hc, if_true, List.mem_cons] at h
        rcases h with h | h | h
        · simp [h]
        · exact ih e (by simp [h])
        · exact ih e (by simp [h])
      · simp only [hc, if_false, List.mem_cons] at h
        rcases h with h | h
        · rw [h]
          have := ih x (by simp)
          simp only [List.mem_cons, not_or]
          exact ⟨fun h2 => hc h2.symm, this⟩
        · exact ih e (by simp [h])

/-- Joining two elements or more: the first element, the separator, and the rest joined. -/
theorem intercalate_cons_cons (sep x y : List Char) (r : List (List Char)) :
    List.intercalate sep (x :: y :: r) = x ++ sep ++ List.intercalate sep (y :: r) := by
  simp [List.intercalate, List.intersperse]

/-- Joining the elements of two lists that are not empty. -/
theorem intercalate_append (sep : List Char) (a b : List (List Char)) (ha : a ≠ [])
    (hb : b ≠ []) :
    List.intercalate sep (a ++ b) = List.intercalate sep a ++ sep ++ List.intercalate sep b := by
  induction a with
  | nil => exact absurd rfl ha
  | cons x a ih =>
    cases a with
    | nil =>
      cases b with
      | nil => exact absurd rfl hb
      | cons y r =>
        rw [List.singleton_append, intercalate_cons_cons]
        simp [List.intercalate]
    | cons x2 a =>
      rw [List.cons_append, List.cons_append, intercalate_cons_cons, ← List.cons_append,
        ih (by simp), intercalate_cons_cons]
      simp [List.append_assoc]

/-- Elements without a separator are found again in the path they are joined into. -/
theorem splitSlash_intercalate (comps : List (List Char)) (hne : comps ≠ [])
    (h : ∀ e ∈ comps, '/' ∉ e) : splitSlash (List.intercalate ['/'] comps) = comps := by
  induction comps with
  | nil => exact absurd rfl hne
  | cons x r ih =>
    cases r with
    | nil =>
      have hx : List.intercalate ['/'] [x] = x := by simp [List.intercalate]
      rw [hx]
      exact splitSlash_no_slash x (h x (by simp))
    | cons y r =>
      rw [intercalate_cons_cons, List.append_assoc, List.singleton_append, splitSlash_append,
        ih (by simp) (fun e he => h e (List.mem_cons_of_mem _ he)),
        splitSlash_no_slash x (h x (by simp))]
      rfl

/-- Elements that are not `..` are dropped by the scan of `filepath.Clean` when they are
empty or `.`, and kept otherwise. -/
theorem foldl_cleanStep_plain (rooted : Bool) (comps stack : List (List Char))
    (h : ∀ e ∈ comps, e ≠ ['.', '.']) :
    comps.foldl (cleanStep rooted) stack =
      (comps.filter (fun e => decide (e ≠ [] ∧ e ≠ ['.']))).reverse ++ stack := by
  induction comps generalizing stack with
  | nil => rfl
  | cons x r ih =>
    have hx : x ≠ ['.', '.'] := h x (by simp)
    rw [List.foldl_cons, ih _ (fun e he => h e (List.mem_cons_of_mem _ he))]
    by_cases hk : x = [] ∨ x = ['.']
    · have hd : decide (x ≠ [] ∧ x ≠ ['.']) = false := by
        simp only [decide_eq_false_iff_not]; tauto
      simp [cleanStep, hk, List.filter, hd]
    · have hd : decide (x ≠ [] ∧ x ≠ ['.']) = true := by
        simp only [decide_eq_true_eq]; tauto
      simp [cleanStep, hk, hx, List.filter, hd]

/-- The host path of a volume id with no `..` element: the volumes directory, the
elements of the id that are not empty and not `.`, and `merged`. -/
theorem makeHostPath_toList (volumeId : String)
    (h : ∀ e ∈ splitSlash volumeId.toList, e ≠ ['.', '.']) :
    (makeHostPath volumeId).toList =
      '/' :: List.intercalate ['/']
        (volumesDirElements ++
          (splitSlash volumeId.toList).filter (fun e => decide (e ≠ [] ∧ e ≠ ['.'])) ++
          ["merged".toList]) := by
  have hjoin : String.intercalate "/"
      ["/var/lib/union-csi-driver.union.io/volumes", volumeId, "merged"] =
      "/var/lib/union-csi-driver.union.io/volumes" ++ "/" ++ volumeId ++ "/" ++ "merged" := by
    simp [String.intercalate, String.intercalate.go]
  have hlist : ("/var/lib/union-csi-driver.union.io/volumes" ++ "/" ++ volumeId ++ "/" ++
      "merged").toList =
      "/var/lib/union-csi-driver.union.io/volumes".toList ++
        '/' :: (volumeId.toList ++ '/' :: "merged".toList) := by
    simp [String.toList, String.data_append]
  have hne : ("/var/lib/union-csi-driver.union.io/volumes" ++ "/" ++ volumeId ++ "/" ++
      "merged") ≠ "" := by
    intro h0
    have := congrArg String.toList h0
    rw [hlist] at this
    simp [String.toList] at this
  have hdir : splitSlash "/var/lib/union-csi-driver.union.io/volumes".toList =
      [] :: volumesDirElements := by decide
  have hmerged : splitSlash "merged".toList = ["merged".toList] := by decide
  have hhead : ("/var/lib/union-csi-driver.union.io/volumes".toList ++
      '/' :: (volumeId.toList ++ '/' :: "merged".toList)).head? = some '/' := by
    rfl
  unfold makeHostPath filepathJoin
  have hdrop : List.dropWhile (fun e => e == "")
      ["/var/lib/union-csi-driver.union.io/volumes", volumeId, "merged"] =
      ["/var/lib/union-csi-driver.union.io/volumes", volumeId, "merged"] := by
    rw [List.dropWhile_cons]
    simp
  rw [hdrop]
  simp only []
  rw [hjoin]
  unfold filepathClean
  rw [if_neg hne]
  simp only [hlist, hhead, beq_self_eq_true, if_true]
  rw [splitSlash_append, splitSlash_append, hdir, hmerged, List.foldl_append, List.foldl_append,
    foldl_cleanStep_plain true (splitSlash volumeId.toList) _ h]
  have hfold : List.foldl (cleanStep true) [] ([] :: volumesDirElements) =
      volumesDirElements.reverse := by decide
  rw [hfold]
  have hlast : ∀ st : List (List Char),
      List.foldl (cleanStep true) st ["merged".toList] = "merged".toList :: st := by
    intro st
    simp [cleanStep]
  rw [hlast]
  simp only [List.reverse_cons, List.reverse_append, List.reverse_reverse, List.append_assoc,
    List.singleton_append, List.cons_append, List.nil_append]
  simp

/-- C30, amended: for every volume id none of whose elements is `..`, the host path is
the volumes directory followed by the elements of the id that are not empty and not `.`
and by `merged`, so it lies strictly below the volumes directory and its final element
is `merged`. -/
theorem makeHostPath_below_volumesDir (volumeId : String)
    (h : ∀ e ∈ splitSlash volumeId.toList, e ≠ ['.', '.']) :
    (makeHostPath volumeId).toList =
      volumesDir.toList ++ '/' :: List.intercalate ['/']
        ((splitSlash volumeId.toList).filter (fun e => decide (e ≠ [] ∧ e ≠ ['.'])) ++
          ["merged".toList]) ∧
    isBelowEndingMerged volumesDir (makeHostPath volumeId) = true := by
  have hform : (makeHostPath volumeId).toList =
      volumesDir.toList ++ '/' :: List.intercalate ['/']
        ((splitSlash volumeId.toList).filter (fun e => decide (e ≠ [] ∧ e ≠ ['.'])) ++
          ["merged".toList]) := by
    rw [makeHostPath_toList volumeId h, List.append_assoc,
      intercalate_append ['/'] volumesDirElements _ (by decide) (by simp)]
    have hd : '/' :: List.intercalate ['/'] volumesDirElements = volumesDir.toList := by
      decide
    rw [← hd]
    simp
  refine ⟨hform, ?_⟩
  have hsplit : splitSlash (makeHostPath volumeId).toList =
      [] :: (volumesDirElements ++
        (splitSlash volumeId.toList).filter (fun e => decide (e ≠ [] ∧ e ≠ ['.'])) ++
        ["merged".toList]) := by
    rw [makeHostPath_toList volumeId h, splitSlash_cons_slash, splitSlash_intercalate _ (by simp)]
    intro e he
    simp only [List.mem_append, List.mem_filter, List.mem_singleton] at he
    rcases he with (he | he) | he
    · revert e
      decide
    · exact mem_splitSlash_no_slash _ e he.1
    · rw [he]
      decide
  unfold isBelowEndingMerged
  rw [hsplit]
  simp only [Bool.and_eq_true, beq_iff_eq, List.all_eq_true, bne_iff_ne, ne_eq]
  refine ⟨⟨?_, ?_⟩, ?_⟩
  · rw [hform]
    simp
  · intro e he
    simp only [List.mem_cons, List.mem_append, List.mem_filter, List.not_mem_nil,
      or_false] at he
    rcases he with he | (he | he) | he
    · rw [he]; decide
    · revert e
      decide
    · exact h e he.1
    · rw [he]; decide
  · rw [← List.cons_append, List.getLast?_concat]

/-- The amended C30 on a volume id as the provisioner names it. -/
theorem makeHostPath_below_volumesDir_witness :
    (makeHostPath "pvc-1").toList =
      volumesDir.toList ++ '/' :: List.intercalate ['/']
        ((splitSlash "pvc-1".toList).filter (fun e => decide (e ≠ [] ∧ e ≠ ['.'])) ++
          ["merged".toList]) ∧
    isBelowEndingMerged volumesDir (makeHostPath "pvc-1") = true :=
  makeHostPath_below_volumesDir "pvc-1" (by decide)

/-- C30 as stated fails on the volume id `..`: the host path is a sibling of the volumes
directory, not a path below it. -/
theorem makeHostPath_dotdot_escapes :
    (".." : String) ≠ "" ∧
    makeHostPath ".." = "/var/lib/union-csi-driver.union.io/merged" ∧
    isBelowEndingMerged volumesDir (makeHostPath "..") = false := by
  decide

/-! ## Properties of the structural validation -/

/-- C21, amended: `validateCapacityRange` reports no error for a capacity range that is
present exactly when both bounds are non-negative, not both are zero, and the required
bytes do not exceed the limit bytes when the limit is specified (is not zero). -/
theorem validateCapacityRange_ok_iff (capacityRange : CapacityRange) (fldPath : FieldPath) :
    validateCapacityRange (some capacityRange) fldPath = [] ↔
      0 ≤ capacityRange.RequiredBytes ∧ 0 ≤ capacityRange.LimitBytes ∧
      ¬ (capacityRange.RequiredBytes = 0 ∧ capacityRange.LimitBytes = 0) ∧
      (capacityRange.LimitBytes = 0 ∨
        capacityRange.RequiredBytes ≤ capacityRange.LimitBytes) := by
  unfold validateCapacityRange ValidateNonnegativeField
  simp only []
  by_cases h0 : capacityRange.RequiredBytes = 0 ∧ capacityRange.LimitBytes = 0
  · simp [h0]
  · rw [if_neg h0]
    by_cases h1 : capacityRange.RequiredBytes < 0
    · simp only [h1, if_true]
      constructor
      · intro h; split_ifs at h <;> simp at h
      · intro h; omega
    · by_cases h2 : capacityRange.LimitBytes < 0
      · simp only [h1, h2, if_true, if_false]
        constructor
        · intro h; split_ifs at h <;> simp at h
        · intro h; omega
      · simp only [h1, h2, if_false, List.append_nil, List.nil_append]
        by_cases h3 : capacityRange.RequiredBytes > capacityRange.LimitBytes ∧
            capacityRange.LimitBytes > 0
        · rw [if_pos h3]
          constructor
          · intro h; simp at h
          · intro h; omega
        · rw [if_neg h3]
          constructor
          · intro _
            refine ⟨by omega, by omega, h0, ?_⟩
            by_cases h4 : capacityRange.LimitBytes = 0
            · exact Or.inl h4
            · right
              by_contra h5
              exact h3 ⟨by omega, by omega⟩
          · intro _; rfl

/-- C21 as stated fails on the range with 5 required bytes and no limit: no error is
reported although the required bytes exceed the limit bytes. -/
theorem validateCapacityRange_accepts_unset_limit :
    validateCapacityRange (some ⟨5, 0⟩) "capacityRange" = [] ∧
    ¬ ((⟨5, 0⟩ : CapacityRange).RequiredBytes ≤ (⟨5, 0⟩ : CapacityRange).LimitBytes) := by
  decide

/-- Every error of `validateMode` is about the path it was given. -/
theorem validateMode_field (mode : VolumeCapability_AccessMode_Mode) (fldPath : FieldPath)
    (e : FieldError) (h : e ∈ validateMode mode fldPath) : e.Field = fldPath := by
  unfold validateMode at h
  split_ifs at h <;> first
    | (exact absurd h (List.not_mem_nil _))
    | (rw [List.mem_singleton.1 h]; rfl)

/-- When the access type is a nil interface, holds a nil field or has another type, and
the access mode is nil or rejected by `validateMode`, `validateVolumeCapability` reports
an error under the access type path and an error under the access mode path. -/
theorem validateVolumeCapability_names_both (volumeCap : VolumeCapability)
    (fldPath : FieldPath)
    (ht : volumeCap.AccessType = none ∨
      volumeCap.AccessType = some (VolumeCapability_AccessType.Block (some none)) ∨
      volumeCap.AccessType = some (VolumeCapability_AccessType.Mount (some none)) ∨
      volumeCap.AccessType = some VolumeCapability_AccessType.other)
    (hm : volumeCap.AccessMode = none ∨
      ∃ accessMode, volumeCap.AccessMode = some accessMode ∧
        validateMode accessMode.Mode
          (FieldPath.Child (FieldPath.Child fldPath "accessMode") "mode") ≠ []) :
    (∃ e ∈ validateVolumeCapability (some volumeCap) fldPath,
      e.Field = FieldPath.Child fldPath "accessType" ∨
      e.Field = FieldPath.Child (FieldPath.Child fldPath "accessType") "block" ∨
      e.Field = FieldPath.Child (FieldPath.Child fldPath "accessType") "mount") ∧
    (∃ e ∈ validateVolumeCapability (some volumeCap) fldPath,
      e.Field = FieldPath.Child fldPath "accessMode" ∨
      e.Field = FieldPath.Child (FieldPath.Child fldPath "accessMode") "mode") := by
  have hmode : ∀ allErrs : List FieldError,
      ∃ e ∈ (match volumeCap.AccessMode with
          | none => allErrs ++ [field.Required (FieldPath.Child fldPath "accessMode") ""]
          | some accessMode =>
            allErrs ++ validateMode accessMode.Mode
              (FieldPath.Child (FieldPath.Child fldPath "accessMode") "mode")),
        e.Field = FieldPath.Child fldPath "accessMode" ∨
        e.Field = FieldPath.Child (FieldPath.Child fldPath "accessMode") "mode" := by
    intro allErrs
    rcases hm with hm | ⟨accessMode, hm, hv⟩
    · rw [hm]
      exact ⟨field.Required (FieldPath.Child fldPath "accessMode") "",
        List.mem_append_right _ (List.mem_singleton.2 rfl), Or.inl rfl⟩
    · rw [hm]
      rcases hl : validateMode accessMode.Mode
          (FieldPath.Child (FieldPath.Child fldPath "accessMode") "mode") with _ | ⟨e, r⟩
      · exact absurd hl hv
      · have he : e ∈ validateMode accessMode.Mode
            (FieldPath.Child (FieldPath.Child fldPath "accessMode") "mode") := by
          rw [hl]; exact List.mem_cons_self _ _
        exact ⟨e, List.mem_append_right _ he, Or.inr (validateMode_field accessMode.Mode _ e he)⟩
  unfold validateVolumeCapability
  simp only []
  have hfirst : ∀ (x : FieldError),
      x ∈ (match volumeCap.AccessMode with
        | none => [x] ++ [field.Required (FieldPath.Child fldPath "accessMode") ""]
        | some accessMode =>
          [x] ++ validateMode accessMode.Mode
            (FieldPath.Child (FieldPath.Child fldPath "accessMode") "mode")) := by
    intro x
    cases volumeCap.AccessMode <;> simp
  rcases ht with ht | ht | ht | ht <;> rw [ht] <;> simp only []
  · exact ⟨⟨_, hfirst _, Or.inl rfl⟩, hmode _⟩
  · exact ⟨⟨_, hfirst _, Or.inr (Or.inl rfl)⟩, hmode _⟩
  · exact ⟨⟨_, hfirst _, Or.inr (Or.inr rfl)⟩, hmode _⟩
  · exact ⟨⟨_, hfirst _, Or.inl rfl⟩, hmode _⟩

/-- C22, as the code behaves: when the access type holds a typed nil pointer,
`validateVolumeCapability` returns at once with the one error of the access type path,
whatever the access mode is; a nil access mode is then named neither by it nor by
`ValidateCreateVolumeRequest`. -/
theorem validateVolumeCapability_typed_nil_returns_early :
    (∀ (fldPath : FieldPath) (accessMode : Option VolumeCapability_AccessMode),
      validateVolumeCapability
          (some ⟨some (VolumeCapability_AccessType.Block none), accessMode⟩) fldPath =
        [field.Required (FieldPath.Child fldPath "accessType") ""]) ∧
    (∀ (fldPath : FieldPath) (accessMode : Option VolumeCapability_AccessMode),
      validateVolumeCapability
          (some ⟨some (VolumeCapability_AccessType.Mount none), accessMode⟩) fldPath =
        [field.Required (FieldPath.Child fldPath "accessType") ""]) ∧
    ValidateCreateVolumeRequest (fun _ _ => [])
        ⟨"v", none, [some ⟨some (VolumeCapability_AccessType.Block none), none⟩], [], none,
          none⟩ =
      [field.Required "volumeCapabilities[0].accessType" ""] ∧
    validateVolumeCapability (some ⟨none, none⟩) "volumeCapabilities[0]" =
      [field.Required "volumeCapabilities[0].accessType" "",
        field.Required "volumeCapabilities[0].accessMode" ""] := by
  refine ⟨fun _ _ => rfl, fun _ _ => rfl, by decide, by decide⟩

/-! ## Properties of the request validators -/

/-- A capability without a structural error is not nil, has an access mode, and its
access type is a block or a mount value with its field set. -/
theorem validateVolumeCapability_ok (volumeCap : Option VolumeCapability) (fldPath : FieldPath)
    (h : validateVolumeCapability volumeCap fldPath = []) :
    ∃ cap accessMode, volumeCap = some cap ∧ cap.AccessMode = some accessMode ∧
      ((∃ b, cap.AccessType = some (VolumeCapability_AccessType.Block (some (some b)))) ∨
        (∃ m, cap.AccessType = some (VolumeCapability_AccessType.Mount (some (some m))))) := by
  rcases volumeCap with _ | ⟨accessType, accessMode⟩
  · simp [validateVolumeCapability] at h
  · unfold validateVolumeCapability at h
    simp only [] at h
    rcases accessMode with _ | accessMode
    · exfalso
      split at h <;> simp at h
    · refine ⟨_, accessMode, rfl, rfl, ?_⟩
      rcases accessType with _ | (_ | _ | b) | (_ | _ | m) | _
      all_goals first
        | (exfalso; simp at h; done)
        | exact Or.inl ⟨_, rfl⟩
        | exact Or.inr ⟨_, rfl⟩

/-- When the loop over the capabilities reports no error, no capability has one. -/
theorem validateVolumeCapabilitiesLoop_ok (fldPath : FieldPath) :
    ∀ (volumeCaps : List (Option VolumeCapability)) (i : Nat),
      validateVolumeCapabilitiesLoop fldPath volumeCaps i = [] →
      ∀ c ∈ volumeCaps, ∃ p, validateVolumeCapability c p = [] := by
  intro volumeCaps
  induction volumeCaps with
  | nil => intro i _ c hc; simp at hc
  | cons x rest ih =>
    intro i h c hc
    rw [validateVolumeCapabilitiesLoop, List.append_eq_nil] at h
    rcases List.mem_cons.1 hc with rfl | hc
    · exact ⟨_, h.1⟩
    · exact ih (i + 1) h.2 c hc

/-- A create request without a structural error has capabilities without one. -/
theorem ValidateCreateVolumeRequest_ok
    (ValidateLabels : List (String × String) → FieldPath → List FieldError)
    (req : CreateVolumeRequest) (h : ValidateCreateVolumeRequest ValidateLabels req = []) :
    ∀ c ∈ req.VolumeCapabilities, ∃ p, validateVolumeCapability c p = [] := by
  unfold ValidateCreateVolumeRequest at h
  simp only [List.append_eq_nil] at h
  obtain ⟨⟨⟨⟨_, _⟩, hcaps⟩, _⟩, _⟩ := h
  unfold validateVolumeCapabilities at hcaps
  split_ifs at hcaps
  exact validateVolumeCapabilitiesLoop_ok _ _ 0 hcaps

/-- On capabilities that are not nil and have an access mode, the loop over the modes
returns nil exactly when every mode is in the set of the validator, and an
invalid-argument status otherwise. -/
theorem checkModes_spec (v : controllerValidator) :
    ∀ (volumeCaps : List (Option VolumeCapability)),
      (∀ c ∈ volumeCaps, ∃ cap accessMode, c = some cap ∧ cap.AccessMode = some accessMode) →
      (v.checkModes volumeCaps = Outcome.returned none ↔
        ∀ c ∈ volumeCaps, ∃ cap accessMode, c = some cap ∧ cap.AccessMode = some accessMode ∧
          accessMode.Mode ∈ v.volumeValidator.volumeCapModesSet) ∧
      (v.checkModes volumeCaps = Outcome.returned none ∨
        ∃ st, v.checkModes volumeCaps = Outcome.returned (some st) ∧
          st.Code = Code.InvalidArgument) := by
  intro volumeCaps
  induction volumeCaps with
  | nil => intro _; simp [controllerValidator.checkModes]
  | cons x rest ih =>
    intro hwf
    obtain ⟨cap, accessMode, hx, hm⟩ := hwf x (by simp)
    obtain ⟨ih1, ih2⟩ := ih (fun c hc => hwf c (List.mem_cons_of_mem _ hc))
    subst hx
    rw [controllerValidator.checkModes]
    simp only [hm]
    by_cases hmem : accessMode.Mode ∈ v.volumeValidator.volumeCapModesSet
    · have hhas : v.volumeValidator.HasVolumeCapabilityMode accessMode.Mode = true := by
        simp [volumeValidator.HasVolumeCapabilityMode, hmem]
      simp only [hhas, Bool.not_true, Bool.false_eq_true, if_false]
      refine ⟨?_, ih2⟩
      rw [ih1]
      constructor
      · intro h c hc
        rcases List.mem_cons.1 hc with rfl | hc
        · exact ⟨cap, accessMode, rfl, hm, hmem⟩
        · exact h c hc
      · intro h c hc
        exact h c (List.mem_cons_of_mem _ hc)
    · have hhas : v.volumeValidator.HasVolumeCapabilityMode accessMode.Mode = false := by
        simp [volumeValidator.HasVolumeCapabilityMode, hmem]
      simp only [hhas, Bool.not_false, if_true]
      refine ⟨?_, Or.inr ⟨_, rfl, rfl⟩⟩
      constructor
      · intro h; simp at h
      · intro h
        exfalso
        obtain ⟨cap2, am2, h1, h2, h3⟩ := h (some cap) (by simp)
        cases h1
        rw [hm] at h2
        cases h2
        exact hmem h3

/-- The validator that `NewControllerValidator` returns holds the modes it was given. -/
theorem NewControllerValidator_modes
    (controllerCapTypes : List ControllerServiceCapability_RPC_Type)
    (volumeCapModes : List VolumeCapability_AccessMode_Mode) (v : controllerValidator)
    (h : NewControllerValidator controllerCapTypes volumeCapModes = (some v, none)) :
    v.volumeValidator.volumeCapModesSet = volumeCapModes := by
  unfold NewControllerValidator at h
  rcases h1 : NewControllerValidatorLoop controllerCapTypes with _ | e
  · rw [h1] at h
    simp only [] at h
    unfold NewVolumeValidator at h
    rcases h2 : NewVolumeValidatorLoop volumeCapModes with _ | e2
    · rw [h2] at h
      simp only [Prod.mk.injEq, Option.some.injEq, and_true] at h
      rw [← h]
    · rw [h2] at h
      simp at h
  · rw [h1] at h
    simp at h

/-- C23: for a controller validator that `NewControllerValidator` built from the mode
list `M`, `CreateVolumeRequestValidate` returns nil exactly when
`ValidateCreateVolumeRequest` reports no field error and the access mode of every volume
capability of the request is in `M`; in every other case it returns an invalid-argument
status; and `HasVolumeCapabilityMode k` holds exactly when `k` occurs in `M`. -/
theorem CreateVolumeRequestValidate_spec
    (ValidateLabels : List (String × String) → FieldPath → List FieldError)
    (controllerCapTypes : List ControllerServiceCapability_RPC_Type)
    (M : List VolumeCapability_AccessMode_Mode) (v : controllerValidator)
    (h : NewControllerValidator controllerCapTypes M = (some v, none))
    (req : CreateVolumeRequest) :
    (v.CreateVolumeRequestValidate ValidateLabels req = Outcome.returned none ↔
      ValidateCreateVolumeRequest ValidateLabels req = [] ∧
      ∀ c ∈ req.VolumeCapabilities, ∃ cap accessMode,
        c = some cap ∧ cap.AccessMode = some accessMode ∧ accessMode.Mode ∈ M) ∧
    (v.CreateVolumeRequestValidate ValidateLabels req ≠ Outcome.returned none →
      ∃ st, v.CreateVolumeRequestValidate ValidateLabels req = Outcome.returned (some st) ∧
        st.Code = Code.InvalidArgument) ∧
    (∀ k, v.HasVolumeCapabilityMode k = true ↔ k ∈ M) := by
  have hM := NewControllerValidator_modes controllerCapTypes M v h
  refine ⟨?_, ?_, ?_⟩
  · unfold controllerValidator.CreateVolumeRequestValidate
    simp only []
    rcases hv : ValidateCreateVolumeRequest ValidateLabels req with _ | ⟨e, r⟩
    · have hwf : ∀ c ∈ req.VolumeCapabilities, ∃ cap accessMode,
          c = some cap ∧ cap.AccessMode = some accessMode := by
        intro c hc
        obtain ⟨p, hp⟩ := ValidateCreateVolumeRequest_ok ValidateLabels req hv c hc
        obtain ⟨cap, am, h1, h2, _⟩ := validateVolumeCapability_ok c p hp
        exact ⟨cap, am, h1, h2⟩
      simp only [List.length_nil, gt_iff_lt, lt_self_iff_false, if_false, true_and]
      rw [(checkModes_spec v req.VolumeCapabilities hwf).1, hM]
    · simp
  · intro hne
    unfold controllerValidator.CreateVolumeRequestValidate at hne ⊢
    simp only [] at hne ⊢
    rcases hv : ValidateCreateVolumeRequest ValidateLabels req with _ | ⟨e, r⟩
    · have hwf : ∀ c ∈ req.VolumeCapabilities, ∃ cap accessMode,
          c = some cap ∧ cap.AccessMode = some accessMode := by
        intro c hc
        obtain ⟨p, hp⟩ := ValidateCreateVolumeRequest_ok ValidateLabels req hv c hc
        obtain ⟨cap, am, h1, h2, _⟩ := validateVolumeCapability_ok c p hp
        exact ⟨cap, am, h1, h2⟩
      rw [hv] at hne
      simp only [List.length_nil, gt_iff_lt, lt_self_iff_false, if_false] at hne ⊢
      rcases (checkModes_spec v req.VolumeCapabilities hwf).2 with h1 | h1
      · exact absurd h1 hne
      · exact h1
    · exact ⟨⟨Code.InvalidArgument, Message.aggregate (e :: r)⟩, by simp, rfl⟩
  · intro k
    simp [controllerValidator.HasVolumeCapabilityMode, volumeValidator.HasVolumeCapabilityMode,
      hM]

/-- C23 on the validator of the driver (`capabilities.go`) and a create request with one
single node writer capability. -/
theorem CreateVolumeRequestValidate_spec_witness :
    NewControllerValidator controllerCapabilities volumeCapabilities =
      (some ⟨controllerCapabilities, ⟨volumeCapabilities⟩⟩, none) ∧
    controllerValidator.CreateVolumeRequestValidate (fun _ _ => [])
      ⟨controllerCapabilities, ⟨volumeCapabilities⟩⟩ sampleCreateRequest =
        Outcome.returned none ∧
    (controllerValidator.HasVolumeCapabilityMode ⟨controllerCapabilities, ⟨volumeCapabilities⟩⟩
      VolumeCapability_AccessMode_SINGLE_NODE_WRITER = true ↔
      VolumeCapability_AccessMode_SINGLE_NODE_WRITER ∈ volumeCapabilities) :=
  ⟨by decide, by decide,
    (CreateVolumeRequestValidate_spec (fun _ _ => []) controllerCapabilities
      volumeCapabilities ⟨controllerCapabilities, ⟨volumeCapabilities⟩⟩ (by decide)
      sampleCreateRequest).2.2 VolumeCapability_AccessMode_SINGLE_NODE_WRITER⟩

/-- A controller publish request without a structural error has a capability without
one. -/
theorem ValidateControllerPublishVolumeRequest_ok (req : ControllerPublishVolumeRequest)
    (h : ValidateControllerPublishVolumeRequest req = []) :
    validateVolumeCapability req.VolumeCapability "volumeCapability" = [] := by
  unfold ValidateControllerPublishVolumeRequest at h
  simp only [List.append_eq_nil] at h
  exact h.2

/-- A node publish request without a structural error has a capability without one. -/
theorem ValidateNodePublishVolumeRequest_ok (req : NodePublishVolumeRequest)
    (h : ValidateNodePublishVolumeRequest req = []) :
    validateVolumeCapability req.VolumeCapability "volumeCapability" = [] := by
  unfold ValidateNodePublishVolumeRequest at h
  simp only [List.append_eq_nil] at h
  exact h.2

/-- The validator of the node publish request returns nil only for a request without a
structural error. -/
theorem NodePublishVolumeRequestValidate_nil (v : nodeValidator)
    (req : NodePublishVolumeRequest)
    (h : v.NodePublishVolumeRequestValidate req = Outcome.returned none) :
    ValidateNodePublishVolumeRequest req = [] := by
  unfold nodeValidator.NodePublishVolumeRequestValidate at h
  simp only [] at h
  rcases hv : ValidateNodePublishVolumeRequest req with _ | ⟨e, r⟩
  · rfl
  · rw [hv] at h
    simp at h

/-- The validator of the node publish request dereferences no nil pointer. -/
theorem NodePublishVolumeRequestValidate_returns (v : nodeValidator)
    (req : NodePublishVolumeRequest) :
    v.NodePublishVolumeRequestValidate req ≠ Outcome.nilDereference := by
  unfold nodeValidator.NodePublishVolumeRequestValidate
  simp only []
  rcases hv : ValidateNodePublishVolumeRequest req with _ | ⟨e, r⟩
  · obtain ⟨cap, am, h1, h2, _⟩ :=
      validateVolumeCapability_ok _ _ (ValidateNodePublishVolumeRequest_ok req hv)
    simp only [List.length_nil, gt_iff_lt, lt_self_iff_false, if_false, h1, h2]
    split_ifs <;> simp
  · simp

/-- C29: in a create, controller publish or node publish request that passes the
structural validation every volume capability is non-nil with a non-nil access mode, so
the three validators never dereference a nil pointer; and when `NodePublishVolume`, with
the validator of the node, calls `Publish`, the options it passes are non-nil, and it
dereferences no nil pointer of its own before the call. -/
theorem validated_capabilities_not_nil :
    (∀ (ValidateLabels : List (String × String) → FieldPath → List FieldError)
        (req : CreateVolumeRequest),
      ValidateCreateVolumeRequest ValidateLabels req = [] →
      ∀ c ∈ req.VolumeCapabilities, ∃ cap accessMode,
        c = some cap ∧ cap.AccessMode = some accessMode) ∧
    (∀ req : ControllerPublishVolumeRequest,
      ValidateControllerPublishVolumeRequest req = [] →
      ∃ cap accessMode, req.VolumeCapability = some cap ∧ cap.AccessMode = some accessMode) ∧
    (∀ req : NodePublishVolumeRequest,
      ValidateNodePublishVolumeRequest req = [] →
      ∃ cap accessMode, req.VolumeCapability = some cap ∧ cap.AccessMode = some accessMode) ∧
    (∀ (ValidateLabels : List (String × String) → FieldPath → List FieldError)
        (v : controllerValidator) (req : CreateVolumeRequest),
      v.CreateVolumeRequestValidate ValidateLabels req ≠ Outcome.nilDereference) ∧
    (∀ (v : controllerValidator) (req : ControllerPublishVolumeRequest),
      v.ControllerPublishVolumeRequestValidate req ≠ Outcome.nilDereference) ∧
    (∀ (v : nodeValidator) (req : NodePublishVolumeRequest),
      v.NodePublishVolumeRequestValidate req ≠ Outcome.nilDereference) ∧
    (∀ (μ : Type) (mounter : Mounter μ) (v : nodeValidator) (w : μ)
        (req : NodePublishVolumeRequest),
      (∀ source target options,
        (nodeServer.NodePublishVolume ⟨mounter, v.NodePublishVolumeRequestValidate⟩ w
          req).published = some (source, target, options) → options.isSome = true) ∧
      ((nodeServer.NodePublishVolume ⟨mounter, v.NodePublishVolumeRequestValidate⟩ w
          req).published = none →
        (nodeServer.NodePublishVolume ⟨mounter, v.NodePublishVolumeRequestValidate⟩ w
          req).outcome ≠ Outcome.nilDereference)) := by
  refine ⟨?_, ?_, ?_, ?_, ?_, ?_, ?_⟩
  · intro ValidateLabels req h c hc
    obtain ⟨p, hp⟩ := ValidateCreateVolumeRequest_ok ValidateLabels req h c hc
    obtain ⟨cap, am, h1, h2, _⟩ := validateVolumeCapability_ok c p hp
    exact ⟨cap, am, h1, h2⟩
  · intro req h
    obtain ⟨cap, am, h1, h2, _⟩ :=
      validateVolumeCapability_ok _ _ (ValidateControllerPublishVolumeRequest_ok req h)
    exact ⟨cap, am, h1, h2⟩
  · intro req h
    obtain ⟨cap, am, h1, h2, _⟩ :=
      validateVolumeCapability_ok _ _ (ValidateNodePublishVolumeRequest_ok req h)
    exact ⟨cap, am, h1, h2⟩
  · intro ValidateLabels v req
    unfold controllerValidator.CreateVolumeRequestValidate
    simp only []
    rcases hv : ValidateCreateVolumeRequest ValidateLabels req with _ | ⟨e, r⟩
    · have hwf : ∀ c ∈ req.VolumeCapabilities, ∃ cap accessMode,
          c = some cap ∧ cap.AccessMode = some accessMode := by
        intro c hc
        obtain ⟨p, hp⟩ := ValidateCreateVolumeRequest_ok ValidateLabels req hv c hc
        obtain ⟨cap, am, h1, h2, _⟩ := validateVolumeCapability_ok c p hp
        exact ⟨cap, am, h1, h2⟩
      simp only [List.length_nil, gt_iff_lt, lt_self_iff_false, if_false]
      rcases (checkModes_spec v req.VolumeCapabilities hwf).2 with h1 | ⟨st, h1, _⟩ <;>
        rw [h1] <;> simp
    · simp
  · intro v req
    unfold controllerValidator.ControllerPublishVolumeRequestValidate
    simp only []
    rcases hv : ValidateControllerPublishVolumeRequest req with _ | ⟨e, r⟩
    · obtain ⟨cap, am, h1, h2, _⟩ :=
        validateVolumeCapability_ok _ _ (ValidateControllerPublishVolumeRequest_ok req hv)
      simp only [List.length_nil, gt_iff_lt, lt_self_iff_false, if_false, h1, h2]
      split_ifs <;> simp
    · simp
  · exact NodePublishVolumeRequestValidate_returns
  · intro μ mounter v w req
    unfold nodeServer.NodePublishVolume
    simp only []
    rcases hval : v.NodePublishVolumeRequestValidate req with (_ | st) | _
    · have hok := NodePublishVolumeRequestValidate_nil v req hval
      obtain ⟨cap, am, h1, h2, h3⟩ :=
        validateVolumeCapability_ok _ _ (ValidateNodePublishVolumeRequest_ok req hok)
      simp only []
      by_cases hlen : req.PublishContext.length = 0
      · simp [hlen]
      · simp only [hlen, if_false]
        rcases hsrc : List.lookup PathPublishContextKey req.PublishContext with _ | source
        · simp
        · simp only [h1, Option.bind]
          rcases h3 with ⟨b, h3⟩ | ⟨m, h3⟩
          · rw [h3]
            simp
          · rw [h3]
            simp only []
            constructor
            · intro s t o ho
              split at ho <;>
                (simp only [Option.some.injEq, Prod.mk.injEq] at ho
                 rw [← ho.2.2]; rfl)
            · intro hnone
              split at hnone <;> simp at hnone
    · simp
    · exact absurd hval (NodePublishVolumeRequestValidate_returns v req)

/-- C29 on a node publish request for a mount volume, with the validator of the driver:
the request passes the structural validation, its capability and access mode are set,
and `Publish` is called with options that are not nil. -/
theorem validated_capabilities_not_nil_witness :
    ValidateNodePublishVolumeRequest sampleNodePublishRequest = [] ∧
    (∃ cap accessMode, sampleNodePublishRequest.VolumeCapability = some cap ∧
      cap.AccessMode = some accessMode) ∧
    (nodeServer.NodePublishVolume
      ⟨sampleMounter,
        nodeValidator.NodePublishVolumeRequestValidate ⟨nodeCapabilities, ⟨volumeCapabilities⟩⟩⟩
      () sampleNodePublishRequest).published =
        some ("/src", "/target", some ⟨"ext4", false, ["noatime"]⟩) ∧
    (some ⟨"ext4", false, ["noatime"]⟩ : Option PublishOptions).isSome = true :=
  ⟨by decide, validated_capabilities_not_nil.2.2.1 sampleNodePublishRequest (by decide),
    by decide,
    (validated_capabilities_not_nil.2.2.2.2.2.2 Unit sampleMounter
      ⟨nodeCapabilities, ⟨volumeCapabilities⟩⟩ () sampleNodePublishRequest).1 "/src" "/target"
      (some ⟨"ext4", false, ["noatime"]⟩) (by decide)⟩

/-! ## Properties of the mounter -/

/-- When the source exists and the target is its only mount reference, `Publish`
returns nil at once: it makes no call after the check and leaves the node as it was. -/
theorem Publish_sole_reference {μ : Type} (m : MountInterface μ) (w : μ)
    (source target : String) (options : Option PublishOptions)
    (hsrc : m.PathExists w source = (true, none))
    (hrefs : m.GetMountRefs w source = ([target], none)) :
    mounter.Publish m w source target options = ⟨Outcome.returned none, w, []⟩ := by
  unfold mounter.Publish
  simp [hsrc, hrefs]

/-- When the source exists and has a mount reference, and the target is not its only
reference, `Publish` fails at the check of the mount references. -/
theorem Publish_other_reference {μ : Type} (m : MountInterface μ) (w : μ)
    (source target : String) (options : Option PublishOptions) (refs : List String)
    (hsrc : m.PathExists w source = (true, none))
    (hrefs : m.GetMountRefs w source = (refs, none))
    (h : refs ≠ [] ∧ refs ≠ [target]) :
    mounter.Publish m w source target options =
      ⟨Outcome.returned (some (mountRefsError source target refs)), w, []⟩ := by
  have hcond : ¬ (refs.length = 0 ∨ (refs.length = 1 ∧ refs.head? = some target)) := by
    rintro (h0 | ⟨h1, h2⟩)
    · exact h.1 (List.length_eq_zero.1 h0)
    · obtain ⟨a, ha⟩ := List.length_eq_one.1 h1
      rw [ha] at h2
      simp only [List.head?_cons, Option.some.injEq] at h2
      exact h.2 (by rw [ha, h2])
  unfold mounter.Publish
  simp only [hsrc, hrefs, Bool.not_true, Bool.false_eq_true, if_false]
  rw [if_pos hcond]
  rfl

/-- When the source exists and has no mount reference, `Publish` goes on to probe the
target, so the record of its calls is not empty. -/
theorem Publish_no_reference_calls {μ : Type} (m : MountInterface μ) (w : μ)
    (source target : String) (options : Option PublishOptions)
    (hsrc : m.PathExists w source = (true, none))
    (hrefs : m.GetMountRefs w source = ([], none)) :
    (mounter.Publish m w source target options).calls ≠ [] := by
  unfold mounter.Publish
  simp only [hsrc, hrefs, Bool.not_true, Bool.false_eq_true, if_false, List.length_nil,
    true_or, not_true_eq_false, List.any_nil]
  split
  · split_ifs <;> simp
  · split_ifs
    · simp
    · split
      · simp
      · split <;> simp

/-- C25, amended: for a source that exists with the mount references `refs`, `Publish`
fails at the check of the mount references exactly when `refs` is not empty and is not
the one reference `target`. -/
theorem Publish_fails_at_refs_check_iff {μ : Type} (m : MountInterface μ) (w : μ)
    (source target : String) (options : Option PublishOptions) (refs : List String)
    (hsrc : m.PathExists w source = (true, none))
    (hrefs : m.GetMountRefs w source = (refs, none)) :
    failsAtMountRefsCheck (mounter.Publish m w source target options) w source target refs ↔
      refs ≠ [] ∧ refs ≠ [target] := by
  constructor
  · rintro ⟨ho, hc, _⟩
    constructor
    · intro h0
      rw [h0] at hrefs
      exact Publish_no_reference_calls m w source target options hsrc hrefs hc
    · intro h1
      rw [h1] at hrefs
      rw [Publish_sole_reference m w source target options hsrc hrefs] at ho
      simp at ho
  · intro h
    rw [Publish_other_reference m w source target options refs hsrc hrefs h]
    exact ⟨rfl, rfl, rfl⟩

/-- The amended C25 on three nodes: a source bound to another target only fails at the
check, and so does a source bound to the target and to another target; a source with no
reference does not. -/
theorem Publish_fails_at_refs_check_iff_witness :
    (failsAtMountRefsCheck (mounter.Publish bindTable otherNode "/src" "/target"
        (some plainOptions)) otherNode "/src" "/target" ["/other"] ↔
      ["/other"] ≠ [] ∧ ["/other"] ≠ ["/target"]) ∧
    (failsAtMountRefsCheck (mounter.Publish bindTable sharedNode "/src" "/target"
        (some plainOptions)) sharedNode "/src" "/target" ["/target", "/other"] ↔
      ["/target", "/other"] ≠ [] ∧ ["/target", "/other"] ≠ ["/target"]) ∧
    (failsAtMountRefsCheck (mounter.Publish bindTable freshNode "/src" "/target"
        (some plainOptions)) freshNode "/src" "/target" [] ↔
      ([] : List String) ≠ [] ∧ [] ≠ ["/target"]) :=
  ⟨Publish_fails_at_refs_check_iff bindTable otherNode "/src" "/target" (some plainOptions)
      ["/other"] (by decide) (by decide),
    Publish_fails_at_refs_check_iff bindTable sharedNode "/src" "/target" (some plainOptions)
      ["/target", "/other"] (by decide) (by decide),
    Publish_fails_at_refs_check_iff bindTable freshNode "/src" "/target" (some plainOptions)
      [] (by decide) (by decide)⟩

/-- C25 as stated fails on a source whose one mount reference is another target:
`Publish` fails at the check of the mount references although the source has no more
than one reference. -/
theorem Publish_fails_on_one_other_reference :
    bindTable.PathExists otherNode "/src" = (true, none) ∧
    bindTable.GetMountRefs otherNode "/src" = (["/other"], none) ∧
    ¬ (["/other"].length > 1 ∧ ∀ ref ∈ ["/other"], ref ≠ "/target") ∧
    (mounter.Publish bindTable otherNode "/src" "/target" (some plainOptions)).outcome =
      Outcome.returned (some (mountRefsError "/src" "/target" ["/other"])) ∧
    (mounter.Publish bindTable otherNode "/src" "/target" (some plainOptions)).calls = [] ∧
    (mounter.Publish bindTable otherNode "/src" "/target" (some plainOptions)).node =
      otherNode := by
  decide

/-- The mount references of a source on the mount table after one more bind mount. -/
theorem bindTable_refs_after_mount (w : NodeState) (paths : List String)
    (source target : String) :
    (bindTable.GetMountRefs ⟨paths, w.mounts ++ [(source, target)]⟩ source).1 =
      (bindTable.GetMountRefs w source).1 ++ [target] := by
  simp [bindTable, List.filter_append]

/-- After a `Publish` that returned nil on the mount table, the source exists and the
target is its only mount reference. -/
theorem Publish_bindTable_success (w : NodeState) (source target : String)
    (options : Option PublishOptions)
    (h : (mounter.Publish bindTable w source target options).outcome = Outcome.returned none) :
    bindTable.PathExists (mounter.Publish bindTable w source target options).node source =
        (true, none) ∧
      bindTable.GetMountRefs (mounter.Publish bindTable w source target options).node source =
        ([target], none) := by
  by_cases hsrc : source ∈ w.paths
  · have hPE : bindTable.PathExists w source = (true, none) := by simp [bindTable, hsrc]
    have hGR : bindTable.GetMountRefs w source =
        ((bindTable.GetMountRefs w source).1, none) := rfl
    by_cases h0 : (bindTable.GetMountRefs w source).1 = []
    · rw [h0] at hGR
      have hnew := bindTable_refs_after_mount w
        (if target ∈ w.paths then w.paths else w.paths ++ [target]) source target
      rw [h0] at hnew
      unfold mounter.Publish at h ⊢
      simp only [hPE, hGR, Bool.not_true, Bool.false_eq_true, if_false, List.length_nil,
        true_or, not_true_eq_false, List.any_nil] at h ⊢
      have hfilter : Option.filter (fun err => !bindTable.IsNotExist err)
          (bindTable.IsMountPoint w target).2 = none := by
        by_cases ht : target ∈ w.paths <;> simp [bindTable, ht, Option.filter]
      simp only [hfilter] at h ⊢
      by_cases hm : (bindTable.IsMountPoint w target).1 = true
      · simp [hm] at h
      · have hmk : bindTable.MkdirAll w target =
            (none, ⟨if target ∈ w.paths then w.paths else w.paths ++ [target], w.mounts⟩) :=
          rfl
        simp only [hm, Bool.false_eq_true, if_false, hmk] at h ⊢
        rcases options with _ | o
        · simp at h
        · have hmount : ∀ opts : List String,
              (bindTable.Mount
                ⟨if target ∈ w.paths then w.paths else w.paths ++ [target], w.mounts⟩
                source target "" opts).2 =
              ⟨if target ∈ w.paths then w.paths else w.paths ++ [target],
                w.mounts ++ [(source, target)]⟩ := fun _ => rfl
          simp only [hmount]
          refine ⟨?_, Prod.ext hnew rfl⟩
          by_cases ht : target ∈ w.paths <;> simp [bindTable, ht, hsrc]
    · by_cases h1 : (bindTable.GetMountRefs w source).1 = [target]
      · rw [h1] at hGR
        rw [Publish_sole_reference bindTable w source target options hPE hGR]
        exact ⟨hPE, hGR⟩
      · rw [Publish_other_reference bindTable w source target options _ hPE hGR ⟨h0, h1⟩] at h
        simp at h
  · exfalso
    unfold mounter.Publish at h
    simp [bindTable, hsrc] at h

/-- C24, amended: for a source that exists, when the target is the only mount reference
of the source, `Publish` returns success and makes no call after its check, so it
creates no directory and mounts nothing; consequently, on the mount table, a second
`Publish` with the same arguments after a successful first one is a success that makes
no call and leaves the node as it was. -/
theorem Publish_idempotent :
    (∀ (μ : Type) (m : MountInterface μ) (w : μ) (source target : String)
        (options : Option PublishOptions),
      m.PathExists w source = (true, none) → m.GetMountRefs w source = ([target], none) →
      mounter.Publish m w source target options = ⟨Outcome.returned none, w, []⟩) ∧
    (∀ (w : NodeState) (source target : String) (options : Option PublishOptions),
      (mounter.Publish bindTable w source target options).outcome = Outcome.returned none →
      mounter.Publish bindTable (mounter.Publish bindTable w source target options).node
          source target options =
        ⟨Outcome.returned none, (mounter.Publish bindTable w source target options).node,
          []⟩) := by
  refine ⟨?_, ?_⟩
  · intro μ m w source target options hsrc hrefs
    exact Publish_sole_reference m w source target options hsrc hrefs
  · intro w source target options h
    obtain ⟨h1, h2⟩ := Publish_bindTable_success w source target options h
    exact Publish_sole_reference bindTable _ source target options h1 h2

/-- The amended C24 on a node where the source `/src` is mounted nowhere else: the first
`Publish` to `/target` creates the directory and mounts, the second one does nothing. -/
theorem Publish_idempotent_witness :
    (mounter.Publish bindTable freshNode "/src" "/target" (some plainOptions)).outcome =
      Outcome.returned none ∧
    (mounter.Publish bindTable freshNode "/src" "/target" (some plainOptions)).calls =
      [MountCall.isMountPoint "/target", MountCall.mkdirAll "/target",
        MountCall.mount "/src" "/target" "" ["bind"]] ∧
    mounter.Publish bindTable
        (mounter.Publish bindTable freshNode "/src" "/target" (some plainOptions)).node
        "/src" "/target" (some plainOptions) =
      ⟨Outcome.returned none,
        (mounter.Publish bindTable freshNode "/src" "/target" (some plainOptions)).node, []⟩ :=
  ⟨by decide, by decide,
    Publish_idempotent.2 freshNode "/src" "/target" (some plainOptions) (by decide)⟩

/-- C24 as stated fails on a source that is bound to the target and to another target:
the target is among the mount references of the source, and `Publish` returns the error
of the check of the mount references. -/
theorem Publish_fails_on_shared_source :
    bindTable.PathExists sharedNode "/src" = (true, none) ∧
    "/target" ∈ (bindTable.GetMountRefs sharedNode "/src").1 ∧
    (mounter.Publish bindTable sharedNode "/src" "/target" (some plainOptions)).outcome =
      Outcome.returned
        (some (mountRefsError "/src" "/target" ["/target", "/other"])) := by
  decide

/-! ## Properties of the create path over any cluster -/

/-- When the loop of `createLowerFromSplit` returns nil, it has gone through the entries
as `claimsEnsured` says. -/
theorem createLowerLoop_ensured {σ ω : Type} (u : union σ ω) (split : VolumeSplit) :
    ∀ (entries : List PersistentVolumeClaimSplit) (cl cl1 : ω),
      u.createLowerLoop split entries cl = (Outcome.returned none, cl1) →
      claimsEnsured u.cluster split entries cl cl1 := by
  intro entries
  induction entries with
  | nil =>
    intro cl cl1 h
    simp only [union.createLowerLoop, Prod.mk.injEq, true_and] at h
    exact h.symm
  | cons x rest ih =>
    intro cl cl1 h
    rw [union.createLowerLoop] at h
    unfold union.createLowerClaimFromSplit at h
    rcases hg : u.cluster.claimGet cl split.Spec.Namespace x.ClaimName with err | c
    · rw [hg] at h
      simp only [] at h
      by_cases hnf : IsNotFound err = true
      · simp only [hnf, if_true] at h
        rcases hc : u.cluster.claimCreate cl split.Spec.Namespace
            ⟨x.ClaimName, split.Spec.Namespace,
              ⟨split.Spec.AccessModes, x.Resources, split.Spec.StorageClassName⟩⟩
          with ⟨cerr, cl2⟩
        rw [hc] at h
        rcases cerr with _ | cerr
        · simp only [] at h
          exact Or.inr ⟨err, cl2, hg, hnf, hc, ih cl2 cl1 h⟩
        · simp at h
      · simp [hnf] at h
    · rw [hg] at h
      simp only [isValidLowerClaimFromSplit, Bool.not_true, Bool.false_eq_true, if_false] at h
      exact Or.inl ⟨c, hg, ih cl cl1 h⟩

/-- C14, amended: over any cluster, whenever `CreateLower` succeeds, the plan is the one
`CreateSplit` returned, it has an entry, and for every entry in order either the claim
lister reported a claim of that name in the namespace of the plan, which is accepted
with nothing written, or the lister reported not-found and the claim with the access
modes and the storage class of the plan and the resources of the entry was created
through the client; the returned volume reports the capacity 0. Over the keyed stores,
where the lister reads the state the client writes, every entry then has its claim, the
claims stored before are unchanged and a claim that was absent is the created one. -/
theorem CreateLower_claims :
    (∀ (σ ω : Type) (u : union σ ω) (st st1 : σ) (cl cl1 : ω) (volumeName : String)
        (options : CreateLowerOptions) (volume : Volume),
      u.CreateLower st cl volumeName options =
        (Outcome.returned (some volume, none), st1, cl1) →
      ∃ (splitSpec : VolumeSplitSpec) (split : VolumeSplit),
        u.splitter.CreateSplit volumeName splitSpec st = ((some split, none), st1) ∧
        volume = { NewVolumeFromVolumeSplit split with CapacityBytes := 0 } ∧
        volume.CapacityBytes = 0 ∧
        split.Spec.Splits ≠ [] ∧
        claimsEnsured u.cluster split split.Spec.Splits cl cl1) ∧
    (∀ (p : String) (a : attacher) (st st1 : KeyedStore) (cl cl1 : ClusterState)
        (volumeName : String) (options : CreateLowerOptions) (volume : Volume),
      (New p a).CreateLower st cl volumeName options =
        (Outcome.returned (some volume, none), st1, cl1) →
      ∃ (splitSpec : VolumeSplitSpec) (split : VolumeSplit),
        (NewSplitter p).CreateSplit volumeName splitSpec st = ((some split, none), st1) ∧
        volume = { NewVolumeFromVolumeSplit split with CapacityBytes := 0 } ∧
        volume.CapacityBytes = 0 ∧
        (∀ e ∈ split.Spec.Splits,
          (cl1.findClaim split.Spec.Namespace e.ClaimName).isSome = true) ∧
        (∀ ns name c, cl.findClaim ns name = some c → cl1.findClaim ns name = some c) ∧
        (∀ e ∈ split.Spec.Splits, cl.findClaim split.Spec.Namespace e.ClaimName = none →
          ∃ e2 ∈ split.Spec.Splits, e2.ClaimName = e.ClaimName ∧
            cl1.findClaim split.Spec.Namespace e.ClaimName =
              some ⟨e.ClaimName, split.Spec.Namespace,
                ⟨split.Spec.AccessModes, e2.Resources, split.Spec.StorageClassName⟩⟩)) := by
  refine ⟨?_, ?_⟩
  · intro σ ω u st st1 cl cl1 volumeName options volume h
    unfold union.CreateLower at h
    rcases hm : getAccessModes options.CSIAccessModes with ⟨modes, _ | merr⟩
    · rw [hm] at h
      simp only [] at h
      rcases hc : u.splitter.CreateSplit volumeName
          { VolumeName := volumeName
            CapacityTotal := [(ResourceStorage, getQuantity options.CapacityBytes)]
            AccessModes := modes
            Namespace := options.LowerNamespace
            StorageClassName := options.LowerStorageClassName
            Splits := [] } st with ⟨⟨osplit, oerr⟩, st2⟩
      rw [hc] at h
      rcases oerr with _ | cerr
      · rcases osplit with _ | split
        · simp at h
        · simp only [] at h
          unfold union.createLowerFromSplit at h
          by_cases hlen : split.Spec.Splits.length = 0
          · simp [hlen] at h
          · simp only [hlen, if_false] at h
            rcases hl : u.createLowerLoop split split.Spec.Splits cl with ⟨o, cl2⟩
            rw [hl] at h
            rcases o with (_ | lerr) | _
            · simp only [Prod.mk.injEq, Outcome.returned.injEq, Option.some.injEq,
                and_true] at h
              obtain ⟨hvol, hst, hcl⟩ := h
              subst hst hcl
              refine ⟨_, split, hc, hvol.symm, by rw [← hvol], ?_, ?_⟩
              · intro h0
                exact hlen (by rw [h0]; rfl)
              · exact createLowerLoop_ensured u split split.Spec.Splits cl cl2 hl
            · simp at h
            · simp at h
      · simp at h
    · rw [hm] at h
      simp at h
  · intro p a st st1 cl cl1 volumeName options volume h
    exact CreateLower_keyed p a st st1 cl cl1 volumeName options volume h

/-- The amended C14 on the volume `v` of 1024 bytes: on a cluster whose cache still lists
the two claims, the lister reports both and nothing is written; on the keyed cluster that
already holds a claim named `v-lower0` of 100 bytes with another access mode, the stored
claim is kept as it was and the claim `v-lower1` is created from the plan. -/
theorem CreateLower_claims_witness :
    (∃ (splitSpec : VolumeSplitSpec) (split : VolumeSplit),
      (NewSplitter "").CreateSplit "v" splitSpec [] = ((some split, none), sampleStore) ∧
      sampleVolume = { NewVolumeFromVolumeSplit split with CapacityBytes := 0 } ∧
      sampleVolume.CapacityBytes = 0 ∧
      split.Spec.Splits ≠ [] ∧
      claimsEnsured cachedCluster split split.Spec.Splits staleCluster staleCluster) ∧
    (New "" sampleAttacher).CreateLower [] ⟨[earlierClaim], ["nodeA"]⟩ "v" sampleOptions =
      (Outcome.returned (some sampleVolume, none), sampleStore,
        ⟨[earlierClaim, sampleClaim "v-lower1"], ["nodeA"]⟩) ∧
    ∃ (splitSpec : VolumeSplitSpec) (split : VolumeSplit),
      (NewSplitter "").CreateSplit "v" splitSpec [] = ((some split, none), sampleStore) ∧
      sampleVolume = { NewVolumeFromVolumeSplit split with CapacityBytes := 0 } ∧
      sampleVolume.CapacityBytes = 0 ∧
      (∀ e ∈ split.Spec.Splits,
        ((ClusterState.mk [earlierClaim, sampleClaim "v-lower1"] ["nodeA"]).findClaim
          split.Spec.Namespace e.ClaimName).isSome = true) ∧
      (∀ ns name c,
        (ClusterState.mk [earlierClaim] ["nodeA"]).findClaim ns name = some c →
        (ClusterState.mk [earlierClaim, sampleClaim "v-lower1"] ["nodeA"]).findClaim ns name =
          some c) ∧
      (∀ e ∈ split.Spec.Splits,
        (ClusterState.mk [earlierClaim] ["nodeA"]).findClaim split.Spec.Namespace
          e.ClaimName = none →
        ∃ e2 ∈ split.Spec.Splits, e2.ClaimName = e.ClaimName ∧
          (ClusterState.mk [earlierClaim, sampleClaim "v-lower1"] ["nodeA"]).findClaim
              split.Spec.Namespace e.ClaimName =
            some ⟨e.ClaimName, split.Spec.Namespace,
              ⟨split.Spec.AccessModes, e2.Resources, split.Spec.StorageClassName⟩⟩) :=
  ⟨CreateLower_claims.1 KeyedStore CachedCluster
      ⟨cachedCluster, NewSplitter "", sampleAttacher⟩ [] sampleStore staleCluster staleCluster
      "v" sampleOptions sampleVolume (by decide),
    by decide,
    CreateLower_claims.2 "" sampleAttacher [] sampleStore ⟨[earlierClaim], ["nodeA"]⟩
      ⟨[earlierClaim, sampleClaim "v-lower1"], ["nodeA"]⟩ "v" sampleOptions sampleVolume
      (by decide)⟩

/-- C14 as stated fails when the cache of the lister lags behind the server:
`CreateLower` of the volume `v` succeeds on a cluster whose cache still lists the two
claims of the plan although the server holds none, nothing is created, and afterwards no
claim of the plan exists on the server. -/
theorem CreateLower_stale_cache_no_claim :
    union.CreateLower ⟨cachedCluster, NewSplitter "", sampleAttacher⟩ [] staleCluster "v"
        sampleOptions =
      (Outcome.returned (some sampleVolume, none), sampleStore, staleCluster) ∧
    (sampleStore.find "v-split").map (fun plan => plan.Spec.Splits.map (fun e => e.ClaimName)) =
      some ["v-lower0", "v-lower1"] ∧
    sampleVolume.ClaimNames = ["v-lower0", "v-lower1"] ∧
    staleCluster.server.findClaim "default" "v-lower0" = none ∧
    staleCluster.server.findClaim "default" "v-lower1" = none := by
  decide

end UnionCSI
